import Mathlib

/-!
# JARO task orchestration engine: embedding and verified properties

Shallow embedding of `internal/core/domain`, `internal/adapters/memory/task_repo.go`,
`internal/core/services/orchestrator.go`, `internal/config`,
`internal/adapters/memory/naive_planner.go` and the task status handler of
`internal/adapters/primary/http/server.go`.

* Go maps with string keys are association lists read first-match (`mapGet`) and
  written in place (`mapSet`).
* The `Artifacts` and `Metadata` fields of a task are Go map references: they are
  addresses into `World.heap`, so that copying a task struct copies the address
  and not the contents.
* The collaborators reached through ports (clock, ID generator, audit sink, logger)
  are explicit: `Env` fixes what each call answers, `World` records the calls made.
* The mutex of the repository makes each `GetTask` and each `SaveTask` run on its own.
  The three Engine operations are first modelled run to completion; concurrent calls
  of `HandleApproval` are schedules of the two parts of a call that lie before and
  after the return of `GetTask` (`runSchedule`).
-/

namespace Jaro

/-! ## Domain model -/

/-- Go `time.Time`, kept as the instant it denotes: seconds and nanoseconds counted
from the zero instant, so that the zero value of the Go type is `⟨0, 0⟩`. -/
structure Time where
  sec : Int
  nsec : Nat
deriving DecidableEq

/-- The zero value `time.Time{}`. -/
def Time.zero : Time := ⟨0, 0⟩

/-- Go `Time.IsZero`. -/
def Time.IsZero (t : Time) : Bool := t.sec == 0 && t.nsec == 0

/-- Go `float64`, kept as its IEEE-754 bit pattern; the literal `0.0` is pattern 0.
No arithmetic is ever done on it by the embedded code. -/
structure Float64 where
  bits : Nat
deriving DecidableEq

/-- Go `type TaskStatus string`: any string is a value of the type. -/
abbrev TaskStatus := String

def TaskStatusNew : TaskStatus := "NEW"
def TaskStatusPlanning : TaskStatus := "PLANNING"
def TaskStatusExecuting : TaskStatus := "EXECUTING"
def TaskStatusWaitingApproval : TaskStatus := "WAITING_APPROVAL"
def TaskStatusVerifying : TaskStatus := "VERIFYING"
def TaskStatusDone : TaskStatus := "DONE"
def TaskStatusFailed : TaskStatus := "FAILED"
def TaskStatusCanceled : TaskStatus := "CANCELED"

/-- Address of a Go `map[string]string` object in `World.heap`. -/
abbrev MapRef := Nat

/-- Go `domain.Task`. A map field is `none` for the nil map and `some a` for the map
object at address `a`. -/
structure Task where
  ID : String
  CreatedAt : Time
  UpdatedAt : Time
  FinishedAt : Time
  Status : TaskStatus
  Input : String
  NormalizedIntent : String
  UserID : String
  Channel : String
  Role : String
  TargetAgent : String
  PlanID : String
  CurrentStepID : String
  Artifacts : Option MapRef
  Metadata : Option MapRef
  UsageTokens : Int
  CostEstimate : Float64
deriving DecidableEq

/-- A value stored in a Go `map[string]interface{}` by the engine: only strings and
booleans are ever put there. -/
inductive PayloadValue where
  | str (s : String)
  | bool (b : Bool)
deriving DecidableEq

/-- Go `domain.AuditEvent`. The payload is a fresh map literal that is never shared,
so it is kept by value, entries in source order. -/
structure AuditEvent where
  ID : String
  TaskID : String
  CorrelationID : String
  Timestamp : Time
  EventType : String
  Payload : List (String × PayloadValue)
  Actor : String
  BehaviorVersion : String
deriving DecidableEq

/-- One call of `Logger.Warn(msg, fields)`. -/
structure WarnCall where
  msg : String
  fields : List (String × PayloadValue)
deriving DecidableEq

/-! ## Go maps -/

/-- Go map read `m[k]` with the comma-ok form: the value bound to `k`, if any. -/
def mapGet {β : Type} : List (String × β) → String → Option β
  | [], _ => none
  | (k, v) :: rest, id => if k = id then some v else mapGet rest id

/-- Go map write `m[k] = v`: rebinds `k` when present, adds the binding otherwise. -/
def mapSet {β : Type} : List (String × β) → String → β → List (String × β)
  | [], id, v => [(id, v)]
  | (k, x) :: rest, id, v =>
    if k = id then (id, v) :: rest else (k, x) :: mapSet rest id v

/-! ## Errors -/

/-- Errors built by `memory.TaskRepository`, one constructor per `fmt.Errorf` site. -/
inductive RepoError where
  | saveNilTask
  | saveEmptyID
  | getEmptyID
  | getNotFound (id : String)
deriving DecidableEq

/-- Go `err.Error()` for repository errors. -/
def RepoError.Error : RepoError → String
  | .saveNilTask => "task cannot be nil"
  | .saveEmptyID => "task ID cannot be empty"
  | .getEmptyID => "task ID cannot be empty"
  | .getNotFound id => "task not found: " ++ id

/-- Errors built by `OrchestratorService`, one constructor per `fmt.Errorf` site; a
`cause` is the error wrapped with `%w`. -/
inductive EngineError where
  | startEmptyInput
  | startEmptyUserID
  | startSaveFailed (cause : RepoError)
  | statusEmptyTaskID
  | statusGetFailed (cause : RepoError)
  | approvalEmptyTaskID
  | approvalEmptyStepID
  | approvalEmptyUserID
  | approvalLoadFailed (cause : RepoError)
  | approvalNotWaiting (taskID : String) (status : TaskStatus)
  | approvalStepMismatch (expected : String) (got : String)
  | approvalSaveFailed (cause : RepoError)
deriving DecidableEq

/-- Go `err.Error()` for engine errors. -/
def EngineError.Error : EngineError → String
  | .startEmptyInput => "task input cannot be empty"
  | .startEmptyUserID => "userID cannot be empty"
  | .startSaveFailed cause => "failed to save task: " ++ cause.Error
  | .statusEmptyTaskID => "taskID cannot be empty"
  | .statusGetFailed cause => "failed to get task status: " ++ cause.Error
  | .approvalEmptyTaskID => "taskID cannot be empty"
  | .approvalEmptyStepID => "stepID cannot be empty"
  | .approvalEmptyUserID => "userID cannot be empty"
  | .approvalLoadFailed cause => "failed to load task: " ++ cause.Error
  | .approvalNotWaiting taskID status =>
    "task " ++ taskID ++ " is not waiting for approval (current status: " ++ status ++ ")"
  | .approvalStepMismatch expected got =>
    "step mismatch: expected " ++ expected ++ " but got " ++ got
  | .approvalSaveFailed cause => "failed to save task after approval: " ++ cause.Error

/-- The error categories of the specification (section 7). -/
inductive ErrKind where
  | InvalidArgument
  | NotFound
  | FailedPrecondition
  | Unavailable
  | Fatal
deriving DecidableEq

/-- Modelled from the spec: the error taxonomy. The source builds every error with
`fmt.Errorf` and declares no error types, so the category of an error is the one the
specification gives to the site that builds it (section 4.4): `SaveTask` fails with
`InvalidArgument` on a nil task or an empty ID, `GetTask` fails with `NotFound` on an
unknown or empty ID. -/
def RepoError.kind : RepoError → ErrKind
  | .saveNilTask => .InvalidArgument
  | .saveEmptyID => .InvalidArgument
  | .getEmptyID => .NotFound
  | .getNotFound _ => .NotFound

/-- Modelled from the spec: the error taxonomy (sections 4.1 and 7). An empty
argument is `InvalidArgument`; a violated state-machine guard (wrong status, stale
step) is `FailedPrecondition`; an error wrapped with `%w` propagates with the
category of its cause. -/
def EngineError.kind : EngineError → ErrKind
  | .startEmptyInput => .InvalidArgument
  | .startEmptyUserID => .InvalidArgument
  | .startSaveFailed cause => cause.kind
  | .statusEmptyTaskID => .InvalidArgument
  | .statusGetFailed cause => cause.kind
  | .approvalEmptyTaskID => .InvalidArgument
  | .approvalEmptyStepID => .InvalidArgument
  | .approvalEmptyUserID => .InvalidArgument
  | .approvalLoadFailed cause => cause.kind
  | .approvalNotWaiting _ _ => .FailedPrecondition
  | .approvalStepMismatch _ _ => .FailedPrecondition
  | .approvalSaveFailed cause => cause.kind

/-! ## In-memory task repository (`memory.TaskRepository`) -/

/-- Go `memory.TaskRepository`: the field `tasks map[string]*domain.Task`. Every
pointer in the map is to a private copy made by `SaveTask`, so the map is kept as a
map to task values. -/
structure TaskRepository where
  tasks : List (String × Task)
deriving DecidableEq

/-- Go `NewTaskRepository`. -/
def NewTaskRepository : TaskRepository := { tasks := [] }

/-- Go `(*TaskRepository).SaveTask`; the argument is `none` for a nil pointer. Returns
the error (`none` for nil) and the repository afterwards. -/
def TaskRepository.SaveTask (r : TaskRepository) (task : Option Task) :
    Option RepoError × TaskRepository :=
  match task with
  | none => (some .saveNilTask, r)
  | some t =>
    if t.ID = "" then (some .saveEmptyID, r)
    else (none, { tasks := mapSet r.tasks t.ID t })

/-- Go `(*TaskRepository).GetTask`. It reads only. -/
def TaskRepository.GetTask (r : TaskRepository) (id : String) : Except RepoError Task :=
  if id = "" then .error .getEmptyID
  else
    match mapGet r.tasks id with
    | none => .error (.getNotFound id)
    | some t => .ok t

/-- The repository states that exist at run time: the field `tasks` is private, so a
repository is what `NewTaskRepository` returned, changed by `SaveTask` calls only. -/
inductive TaskRepository.Reachable : TaskRepository → Prop where
  | new : TaskRepository.Reachable NewTaskRepository
  | save (r : TaskRepository) (task : Option Task) :
      TaskRepository.Reachable r → TaskRepository.Reachable (r.SaveTask task).2

/-- Every task is stored under its own ID. -/
def TaskRepository.Keyed (r : TaskRepository) : Prop :=
  ∀ k t, mapGet r.tasks k = some t → t.ID = k

/-! ## Collaborators behind ports -/

/-- What the collaborators answer: the `k`-th `Clock.Now()`, the `k`-th
`IDGenerator.Generate()`, and the message of the error `AuditRepository.SaveEvent`
returns for its `k`-th call (`none` when it returns nil). -/
structure Env where
  clock : Nat → Time
  idGen : Nat → String
  auditErr : Nat → AuditEvent → Option String

/-- Everything the engine can read or change: the repository, the Go heap of
`map[string]string` objects, and the record of calls made through the ports. -/
structure World where
  repo : TaskRepository
  heap : List (List (String × String))
  events : List AuditEvent
  warnings : List WarnCall
  clockCalls : Nat
  idCalls : Nat
deriving DecidableEq

/-- A call of `s.clock.Now()`. -/
def clockNow (env : Env) (w : World) : Time × World :=
  (env.clock w.clockCalls, { w with clockCalls := w.clockCalls + 1 })

/-- A call of `s.idGen.Generate()`. -/
def generate (env : Env) (w : World) : String × World :=
  (env.idGen w.idCalls, { w with idCalls := w.idCalls + 1 })

/-- Go `make(map[string]string)`: a new empty map object at a fresh address. -/
def makeMap (w : World) : MapRef × World :=
  (w.heap.length, { w with heap := w.heap ++ [[]] })

/-- A call of `s.audit.SaveEvent(ctx, event)`: the event is handed over, the answer
is the error message or `none`. -/
def saveEvent (env : Env) (w : World) (event : AuditEvent) : Option String × World :=
  (env.auditErr w.events.length event, { w with events := w.events ++ [event] })

/-- A call of `s.logger.Warn(msg, fields)`. -/
def logWarn (w : World) (msg : String) (fields : List (String × PayloadValue)) : World :=
  { w with warnings := w.warnings ++ [{ msg := msg, fields := fields }] }

/-! ## Orchestration engine (`services.OrchestratorService`) -/

/-- Go `(*OrchestratorService).StartTask`. -/
def StartTask (env : Env) (w : World) (input : String) (userID : String) :
    Except EngineError Task × World :=
  if input = "" then (.error .startEmptyInput, w)
  else if userID = "" then (.error .startEmptyUserID, w)
  else
    let (now, w1) := clockNow env w
    let (taskID, w2) := generate env w1
    let (artifacts, w3) := makeMap w2
    let (metadata, w4) := makeMap w3
    let task : Task :=
      { ID := taskID
        CreatedAt := now
        UpdatedAt := now
        FinishedAt := Time.zero
        Status := TaskStatusNew
        Input := input
        NormalizedIntent := input
        UserID := userID
        Channel := "api"
        Role := ""
        TargetAgent := "CORE"
        PlanID := ""
        CurrentStepID := ""
        Artifacts := some artifacts
        Metadata := some metadata
        UsageTokens := 0
        CostEstimate := ⟨0⟩ }
    match w4.repo.SaveTask (some task) with
    | (some err, _) => (.error (.startSaveFailed err), w4)
    | (none, repo1) =>
      let w5 := { w4 with repo := repo1 }
      let (eventID, w6) := generate env w5
      let auditEvent : AuditEvent :=
        { ID := eventID
          TaskID := taskID
          CorrelationID := taskID
          Timestamp := now
          EventType := "TASK_CREATED"
          Actor := userID
          BehaviorVersion := "v1"
          Payload :=
            [("input", .str input), ("task_id", .str taskID), ("user_id", .str userID),
             ("target_agent", .str task.TargetAgent)] }
      match saveEvent env w6 auditEvent with
      | (some msg, w7) =>
        (.ok task,
          logWarn w7 "failed to save audit event" [("error", .str msg), ("task_id", .str taskID)])
      | (none, w7) => (.ok task, w7)

/-- Go `(*OrchestratorService).GetTaskStatus`. -/
def GetTaskStatus (w : World) (taskID : String) : Except EngineError Task × World :=
  if taskID = "" then (.error .statusEmptyTaskID, w)
  else
    match w.repo.GetTask taskID with
    | .error err => (.error (.statusGetFailed err), w)
    | .ok task => (.ok task, w)

/-- Go `(*OrchestratorService).HandleApproval`. Returns the error (`none` for nil)
and the world afterwards. -/
def HandleApproval (env : Env) (w : World) (taskID : String) (stepID : String)
    (approved : Bool) (userID : String) : Option EngineError × World :=
  if taskID = "" then (some .approvalEmptyTaskID, w)
  else if stepID = "" then (some .approvalEmptyStepID, w)
  else if userID = "" then (some .approvalEmptyUserID, w)
  else
    match w.repo.GetTask taskID with
    | .error err => (some (.approvalLoadFailed err), w)
    | .ok task =>
      if task.Status ≠ TaskStatusWaitingApproval then
        (some (.approvalNotWaiting taskID task.Status), w)
      else if task.CurrentStepID ≠ stepID then
        (some (.approvalStepMismatch task.CurrentStepID stepID), w)
      else
        let (now, w1) := clockNow env w
        let task1 : Task :=
          if approved then { task with Status := TaskStatusExecuting }
          else { task with Status := TaskStatusCanceled, FinishedAt := now }
        let task2 : Task := { task1 with UpdatedAt := now }
        match w1.repo.SaveTask (some task2) with
        | (some err, _) => (some (.approvalSaveFailed err), w1)
        | (none, repo1) =>
          let w2 := { w1 with repo := repo1 }
          let (eventID, w3) := generate env w2
          let auditEvent : AuditEvent :=
            { ID := eventID
              TaskID := taskID
              CorrelationID := taskID
              Timestamp := now
              EventType := "APPROVAL_DECISION"
              Actor := userID
              BehaviorVersion := "v1"
              Payload :=
                [("task_id", .str taskID), ("step_id", .str stepID), ("approved", .bool approved),
                 ("user_id", .str userID), ("new_status", .str task2.Status)] }
          match saveEvent env w3 auditEvent with
          | (some msg, w4) =>
            (none,
              logWarn w4 "failed to save audit event"
                [("error", .str msg), ("task_id", .str taskID), ("step_id", .str stepID)])
          | (none, w4) => (none, w4)

/-! ## Sample data used to instantiate the theorems -/

/-- A clock stuck at one second past the zero instant, IDs `id-0`, `id-1`, ..., and an
audit sink that always accepts. -/
def sampleEnv : Env :=
  { clock := fun _ => ⟨1, 0⟩
    idGen := fun k => "id-" ++ toString k
    auditErr := fun _ _ => none }

/-- The world of a freshly wired engine. -/
def emptyWorld : World :=
  { repo := NewTaskRepository, heap := [], events := [], warnings := [],
    clockCalls := 0, idCalls := 0 }

/-- An environment whose ID generator answers the empty string. -/
def emptyIdEnv : Env := { sampleEnv with idGen := fun _ => "" }

/-- An environment whose audit sink fails every time. -/
def failingAuditEnv : Env := { sampleEnv with auditErr := fun _ _ => some "audit store down" }

/-- An environment whose clock reads the zero instant. -/
def zeroClockEnv : Env := { sampleEnv with clock := fun _ => Time.zero }

/-- An environment whose ID generator answers `t1` every time. -/
def repeatingIdEnv : Env := { sampleEnv with idGen := fun _ => "t1" }

/-- A task `t1` waiting for a decision on step `s2`. -/
def waitingTask : Task :=
  { ID := "t1", CreatedAt := ⟨1, 0⟩, UpdatedAt := ⟨1, 0⟩, FinishedAt := Time.zero,
    Status := TaskStatusWaitingApproval, Input := "book a flight",
    NormalizedIntent := "book a flight", UserID := "user-42", Channel := "api", Role := "",
    TargetAgent := "CORE", PlanID := "p1", CurrentStepID := "s2", Artifacts := none,
    Metadata := none, UsageTokens := 0, CostEstimate := ⟨0⟩ }

/-- A world whose repository holds `waitingTask` only. -/
def waitingWorld : World :=
  { emptyWorld with repo := (NewTaskRepository.SaveTask (some waitingTask)).2 }

/-- The task `t1` once finished. -/
def doneTask : Task := { waitingTask with Status := TaskStatusDone, FinishedAt := ⟨1, 0⟩ }

/-- A world whose repository holds `doneTask` only. -/
def doneWorld : World :=
  { emptyWorld with repo := (NewTaskRepository.SaveTask (some doneTask)).2 }

/-- The task value `HandleApproval` writes back for a decision taken at instant `now`
(the three assignments to `task.Status`, `task.FinishedAt` and `task.UpdatedAt`); used
to phrase the lemmas about `HandleApproval`. -/
def decided (task : Task) (approved : Bool) (now : Time) : Task :=
  { (if approved then { task with Status := TaskStatusExecuting }
      else { task with Status := TaskStatusCanceled, FinishedAt := now }) with
    UpdatedAt := now }

/-- The task value `StartTask` builds (its composite literal) when called in world `w`;
used to phrase the lemmas about `StartTask`. -/
def newTask (env : Env) (w : World) (input userID : String) : Task :=
  { ID := env.idGen w.idCalls
    CreatedAt := env.clock w.clockCalls
    UpdatedAt := env.clock w.clockCalls
    FinishedAt := Time.zero
    Status := TaskStatusNew
    Input := input
    NormalizedIntent := input
    UserID := userID
    Channel := "api"
    Role := ""
    TargetAgent := "CORE"
    PlanID := ""
    CurrentStepID := ""
    Artifacts := some w.heap.length
    Metadata := some (w.heap.length + 1)
    UsageTokens := 0
    CostEstimate := ⟨0⟩ }

/-- The `TASK_CREATED` event `StartTask` hands to `SaveEvent` when called in world `w`. -/
def taskCreatedEvent (env : Env) (w : World) (input userID : String) : AuditEvent :=
  { ID := env.idGen (w.idCalls + 1)
    TaskID := env.idGen w.idCalls
    CorrelationID := env.idGen w.idCalls
    Timestamp := env.clock w.clockCalls
    EventType := "TASK_CREATED"
    Actor := userID
    BehaviorVersion := "v1"
    Payload :=
      [("input", .str input), ("task_id", .str (env.idGen w.idCalls)),
       ("user_id", .str userID), ("target_agent", .str "CORE")] }

/-- The `APPROVAL_DECISION` event `HandleApproval` hands to `SaveEvent` when called in
world `w`, `newStatus` being the status it has just persisted. -/
def approvalEvent (env : Env) (w : World) (taskID stepID : String) (approved : Bool)
    (userID : String) (newStatus : TaskStatus) : AuditEvent :=
  { ID := env.idGen w.idCalls
    TaskID := taskID
    CorrelationID := taskID
    Timestamp := env.clock w.clockCalls
    EventType := "APPROVAL_DECISION"
    Actor := userID
    BehaviorVersion := "v1"
    Payload :=
      [("task_id", .str taskID), ("step_id", .str stepID), ("approved", .bool approved),
       ("user_id", .str userID), ("new_status", .str newStatus)] }

/-- The warnings logged once `SaveEvent` has answered `answer`: one more `Warn` call
with the given fields after the error message when it answered an error, none more
when it answered nil. -/
def warningsAfter (warnings : List WarnCall) (answer : Option String)
    (fields : List (String × PayloadValue)) : List WarnCall :=
  match answer with
  | some msg =>
    warnings ++ [{ msg := "failed to save audit event", fields := ("error", .str msg) :: fields }]
  | none => warnings

/-! ## Callers that keep a task they saved or were handed -/

/-- Go `m[k] = v` on the heap, for the map object at address `a`. -/
def heapStore : List (List (String × String)) → MapRef → String → String →
    List (List (String × String))
  | [], _, _, _ => []
  | m :: rest, 0, k, v => mapSet m k v :: rest
  | m :: rest, a + 1, k, v => m :: heapStore rest a k v

/-- A caller statement `task.Metadata[k] = v` (or the same on `Artifacts`), `m` being the
map field of the task the caller holds. Go panics when the map is nil: `none`. -/
def mapAssign (w : World) (m : Option MapRef) (k v : String) : Option World :=
  match m with
  | none => none
  | some a => some { w with heap := heapStore w.heap a k v }

/-- The entries a caller reads from a map field `m` of a task it holds; a nil map
reads as empty. -/
def mapEntries (w : World) (m : Option MapRef) : List (String × String) :=
  match m with
  | none => []
  | some a => (w.heap.get? a).getD []

/-- The world after `StartTask "book a flight" "user-42"` on a fresh engine: it holds
task `id-0`, whose Artifacts and Metadata are the empty maps at addresses 0 and 1. -/
def startedWorld : World := (StartTask sampleEnv emptyWorld "book a flight" "user-42").2

/-- A task the caller builds with a Metadata map of its own, at address 0. -/
def callerTask : Task := { waitingTask with Metadata := some 0 }

/-- The world in which the caller has built `callerTask` and not saved it yet. -/
def callerWorld : World := { emptyWorld with heap := [[]] }

/-! ## Sequences of Engine calls and predicates on the store -/

/-- One call of one of the three Engine operations, with its arguments. -/
inductive EngineCall where
  | startTask (input : String) (userID : String)
  | getTaskStatus (taskID : String)
  | handleApproval (taskID : String) (stepID : String) (approved : Bool) (userID : String)
deriving DecidableEq

/-- The world after one Engine call; what the call returns is dropped. -/
def EngineCall.run (env : Env) (w : World) : EngineCall → World
  | .startTask input userID => (StartTask env w input userID).2
  | .getTaskStatus taskID => (GetTaskStatus w taskID).2
  | .handleApproval taskID stepID approved userID =>
    (HandleApproval env w taskID stepID approved userID).2

/-- The world after a sequence of Engine calls, run one after the other. -/
def runCalls (env : Env) (w : World) : List EngineCall → World
  | [] => w
  | call :: rest => runCalls env (call.run env w) rest

/-- A status is terminal: DONE, FAILED or CANCELED. -/
def TerminalStatus (status : TaskStatus) : Prop :=
  status = TaskStatusDone ∨ status = TaskStatusFailed ∨ status = TaskStatusCanceled

/-- Every stored task with a non-zero FinishedAt has a terminal Status. -/
def FinishedOnlyWhenTerminal (r : TaskRepository) : Prop :=
  ∀ k t, mapGet r.tasks k = some t → t.FinishedAt.IsZero = false → TerminalStatus t.Status

/-! ## Configuration (`internal/config`) -/

/-- Go `time.Duration`: a count of nanoseconds. -/
abbrev Duration := Int

/-- Go `time.Second`. -/
def Second : Duration := 1000000000

/-- Go `config.Config`. `int` and `int64` fields are integers; the code only compares
them. -/
structure Config where
  ServerPort : Int
  ServerHost : String
  RequestTimeout : Duration
  IdleTimeout : Duration
  MaxBodySize : Int
  MaxFileUploadSize : Int
  AllowedMIMETypes : List String
  LogLevel : String
  EnableMetrics : Bool
  OpenAIAPIKey : String
  AnthropicAPIKey : String
  DefaultLLMModel : String
  LLMTimeout : Duration
  LLMMaxRetries : Int
deriving DecidableEq

/-- Errors built by `(*Config).Validate`, one constructor per `fmt.Errorf` site, with the
value the message reports. -/
inductive ConfigError where
  | invalidServerPort (port : Int)
  | emptyServerHost
  | requestTimeoutTooShort (d : Duration)
  | idleTimeoutTooShort (d : Duration)
  | maxBodySizeTooSmall (size : Int)
  | maxFileUploadSizeTooSmall (size : Int)
  | invalidLogLevel (level : String)
  | llmTimeoutTooShort (d : Duration)
  | negativeLLMMaxRetries (retries : Int)
deriving DecidableEq

/-- Go `NewDefaultConfig`. -/
def NewDefaultConfig : Config :=
  { ServerPort := 8080
    ServerHost := "0.0.0.0"
    RequestTimeout := 30 * Second
    IdleTimeout := 60 * Second
    MaxBodySize := 10 * 1024 * 1024
    MaxFileUploadSize := 50 * 1024 * 1024
    AllowedMIMETypes :=
      ["application/json", "application/pdf", "text/plain", "image/png", "image/jpeg"]
    LogLevel := "info"
    EnableMetrics := false
    OpenAIAPIKey := ""
    AnthropicAPIKey := ""
    DefaultLLMModel := "gpt-4o-mini"
    LLMTimeout := 60 * Second
    LLMMaxRetries := 3 }

/-- The map literal `validLevels` of `Validate`. -/
def validLevels : List (String × Bool) :=
  [("debug", true), ("info", true), ("warn", true), ("error", true)]

/-- Go `(*Config).Validate`: the error, or `none` for nil. A read `validLevels[k]` of a
missing key yields `false`. -/
def Validate (c : Config) : Option ConfigError :=
  if c.ServerPort < 1 ∨ c.ServerPort > 65535 then some (.invalidServerPort c.ServerPort)
  else if c.ServerHost = "" then some .emptyServerHost
  else if c.RequestTimeout < Second then some (.requestTimeoutTooShort c.RequestTimeout)
  else if c.IdleTimeout < Second then some (.idleTimeoutTooShort c.IdleTimeout)
  else if c.MaxBodySize < 1024 then some (.maxBodySizeTooSmall c.MaxBodySize)
  else if c.MaxFileUploadSize < 1024 then
    some (.maxFileUploadSizeTooSmall c.MaxFileUploadSize)
  else if ¬ ((mapGet validLevels c.LogLevel).getD false = true) then
    some (.invalidLogLevel c.LogLevel)
  else if c.LLMTimeout < Second then some (.llmTimeoutTooShort c.LLMTimeout)
  else if c.LLMMaxRetries < 0 then some (.negativeLLMMaxRetries c.LLMMaxRetries)
  else none

/-- The errors of `strconv`: `ErrSyntax` and `ErrRange`. -/
inductive NumError where
  | badSyntax
  | outOfRange
deriving DecidableEq

/-- The loop of Go `strconv.ParseUint(s, 10, 64)` from the value `acc` read so far,
character by character: a character that is not a decimal digit is a syntax error, and
a digit that takes the value past the largest unsigned 64-bit number is a range error,
whichever the loop meets first. -/
def parseDigitsFrom (acc : Nat) : List Char → Except NumError Nat
  | [] => .ok acc
  | c :: rest =>
    if c.isDigit then
      if acc * 10 + (c.toNat - 48) > 18446744073709551615 then .error .outOfRange
      else parseDigitsFrom (acc * 10 + (c.toNat - 48)) rest
    else .error .badSyntax

/-- Go `strconv.ParseInt(s, 10, 64)` of the standard library: an optional sign, then
one or more decimal digits read by the loop of `ParseUint`; a syntax error when there is
no digit or the loop meets a bad character, a range error when the loop overflows or
the signed number does not fit in 64 bits. -/
def ParseInt64 (s : String) : Except NumError Int :=
  let negative : Bool := match s.data with
    | '-' :: _ => true
    | _ => false
  let digits : List Char := match s.data with
    | '+' :: rest => rest
    | '-' :: rest => rest
    | cs => cs
  if digits = [] then .error .badSyntax
  else
    match parseDigitsFrom 0 digits with
    | .error e => .error e
    | .ok n =>
      if negative then
        if n > 9223372036854775808 then .error .outOfRange else .ok (-(n : Int))
      else
        if n ≥ 9223372036854775808 then .error .outOfRange else .ok (n : Int)

/-- Go `strconv.Atoi`, for a platform whose `int` has 64 bits: its fast path (fewer than
19 bytes, so no overflow) and its slow path (`ParseInt(s, 10, 0)`) both answer what
`ParseInt64` answers. -/
def Atoi (s : String) : Except NumError Int := ParseInt64 s

/-- The functions of the Go standard library that `LoadFromEnv` calls and whose
grammar the embedding leaves open: `time.ParseDuration` (the error is kept as its
message), `strings.Split` and `strings.TrimSpace`. -/
structure Stdlib where
  ParseDuration : String → Except String Duration
  Split : String → String → List String
  TrimSpace : String → String

/-- Errors built by `LoadFromEnv`, one constructor per `fmt.Errorf` site; `cause` is
the error wrapped with `%w`. -/
inductive LoadError where
  | invalidServerPort (cause : NumError)
  | invalidRequestTimeout (cause : String)
  | invalidIdleTimeout (cause : String)
  | invalidMaxBodySize (cause : NumError)
  | invalidMaxFileSize (cause : NumError)
  | invalidLLMTimeout (cause : String)
  | invalidLLMMaxRetries (cause : NumError)
  | validationFailed (cause : ConfigError)
deriving DecidableEq

/-- The `SERVER_PORT` block of `LoadFromEnv`; `getenv` is `os.Getenv`, which answers the
empty string for a variable that is not set. -/
def loadServerPort (getenv : String → String) (cfg : Config) : Except LoadError Config :=
  if getenv "SERVER_PORT" ≠ "" then
    match Atoi (getenv "SERVER_PORT") with
    | .error err => .error (.invalidServerPort err)
    | .ok p => .ok { cfg with ServerPort := p }
  else .ok cfg

/-- The `SERVER_HOST` block of `LoadFromEnv`. -/
def loadServerHost (getenv : String → String) (cfg : Config) : Config :=
  if getenv "SERVER_HOST" ≠ "" then { cfg with ServerHost := getenv "SERVER_HOST" } else cfg

/-- The `REQUEST_TIMEOUT` block of `LoadFromEnv`. -/
def loadRequestTimeout (lib : Stdlib) (getenv : String → String) (cfg : Config) :
    Except LoadError Config :=
  if getenv "REQUEST_TIMEOUT" ≠ "" then
    match lib.ParseDuration (getenv "REQUEST_TIMEOUT") with
    | .error err => .error (.invalidRequestTimeout err)
    | .ok d => .ok { cfg with RequestTimeout := d }
  else .ok cfg

/-- The `IDLE_TIMEOUT` block of `LoadFromEnv`. -/
def loadIdleTimeout (lib : Stdlib) (getenv : String → String) (cfg : Config) :
    Except LoadError Config :=
  if getenv "IDLE_TIMEOUT" ≠ "" then
    match lib.ParseDuration (getenv "IDLE_TIMEOUT") with
    | .error err => .error (.invalidIdleTimeout err)
    | .ok d => .ok { cfg with IdleTimeout := d }
  else .ok cfg

/-- The `MAX_BODY_SIZE` block of `LoadFromEnv`. -/
def loadMaxBodySize (getenv : String → String) (cfg : Config) : Except LoadError Config :=
  if getenv "MAX_BODY_SIZE" ≠ "" then
    match ParseInt64 (getenv "MAX_BODY_SIZE") with
    | .error err => .error (.invalidMaxBodySize err)
    | .ok n => .ok { cfg with MaxBodySize := n }
  else .ok cfg

/-- The `MAX_FILE_SIZE` block of `LoadFromEnv`. -/
def loadMaxFileSize (getenv : String → String) (cfg : Config) : Except LoadError Config :=
  if getenv "MAX_FILE_SIZE" ≠ "" then
    match ParseInt64 (getenv "MAX_FILE_SIZE") with
    | .error err => .error (.invalidMaxFileSize err)
    | .ok n => .ok { cfg with MaxFileUploadSize := n }
  else .ok cfg

/-- The `ALLOWED_MIMES` block of `LoadFromEnv`: split on commas, trim each part. -/
def loadAllowedMimes (lib : Stdlib) (getenv : String → String) (cfg : Config) : Config :=
  if getenv "ALLOWED_MIMES" ≠ "" then
    { cfg with
      AllowedMIMETypes := (lib.Split (getenv "ALLOWED_MIMES") ",").map lib.TrimSpace }
  else cfg

/-- The `LOG_LEVEL` block of `LoadFromEnv`. -/
def loadLogLevel (getenv : String → String) (cfg : Config) : Config :=
  if getenv "LOG_LEVEL" ≠ "" then { cfg with LogLevel := getenv "LOG_LEVEL" } else cfg

/-- The `ENABLE_METRICS` block of `LoadFromEnv`. -/
def loadEnableMetrics (getenv : String → String) (cfg : Config) : Config :=
  if getenv "ENABLE_METRICS" ≠ "" then
    { cfg with
      EnableMetrics :=
        decide (getenv "ENABLE_METRICS" = "true") || decide (getenv "ENABLE_METRICS" = "1") }
  else cfg

/-- The `OPENAI_API_KEY` block of `LoadFromEnv`. -/
def loadOpenAIKey (getenv : String → String) (cfg : Config) : Config :=
  if getenv "OPENAI_API_KEY" ≠ "" then { cfg with OpenAIAPIKey := getenv "OPENAI_API_KEY" }
  else cfg

/-- The `ANTHROPIC_API_KEY` block of `LoadFromEnv`. -/
def loadAnthropicKey (getenv : String → String) (cfg : Config) : Config :=
  if getenv "ANTHROPIC_API_KEY" ≠ "" then
    { cfg with AnthropicAPIKey := getenv "ANTHROPIC_API_KEY" }
  else cfg

/-- The `DEFAULT_LLM_MODEL` block of `LoadFromEnv`. -/
def loadDefaultModel (getenv : String → String) (cfg : Config) : Config :=
  if getenv "DEFAULT_LLM_MODEL" ≠ "" then
    { cfg with DefaultLLMModel := getenv "DEFAULT_LLM_MODEL" }
  else cfg

/-- The `LLM_TIMEOUT` block of `LoadFromEnv`. -/
def loadLLMTimeout (lib : Stdlib) (getenv : String → String) (cfg : Config) :
    Except LoadError Config :=
  if getenv "LLM_TIMEOUT" ≠ "" then
    match lib.ParseDuration (getenv "LLM_TIMEOUT") with
    | .error err => .error (.invalidLLMTimeout err)
    | .ok d => .ok { cfg with LLMTimeout := d }
  else .ok cfg

/-- The `LLM_MAX_RETRIES` block of `LoadFromEnv`. -/
def loadLLMMaxRetries (getenv : String → String) (cfg : Config) : Except LoadError Config :=
  if getenv "LLM_MAX_RETRIES" ≠ "" then
    match Atoi (getenv "LLM_MAX_RETRIES") with
    | .error err => .error (.invalidLLMMaxRetries err)
    | .ok n => .ok { cfg with LLMMaxRetries := n }
  else .ok cfg

/-- Go `LoadFromEnv`: the defaults, then the blocks in source order, a failing block
returning at once, then `Validate`. -/
def LoadFromEnv (lib : Stdlib) (getenv : String → String) : Except LoadError Config :=
  match loadServerPort getenv NewDefaultConfig with
  | .error err => .error err
  | .ok cfg1 =>
  match loadRequestTimeout lib getenv (loadServerHost getenv cfg1) with
  | .error err => .error err
  | .ok cfg2 =>
  match loadIdleTimeout lib getenv cfg2 with
  | .error err => .error err
  | .ok cfg3 =>
  match loadMaxBodySize getenv cfg3 with
  | .error err => .error err
  | .ok cfg4 =>
  match loadMaxFileSize getenv cfg4 with
  | .error err => .error err
  | .ok cfg5 =>
  match loadLLMTimeout lib getenv
      (loadDefaultModel getenv (loadAnthropicKey getenv (loadOpenAIKey getenv
        (loadEnableMetrics getenv (loadLogLevel getenv
          (loadAllowedMimes lib getenv cfg5)))))) with
  | .error err => .error err
  | .ok cfg6 =>
  match loadLLMMaxRetries getenv cfg6 with
  | .error err => .error err
  | .ok cfg7 =>
  match Validate cfg7 with
  | some err => .error (.validationFailed err)
  | none => .ok cfg7

/-- A standard library whose `ParseDuration` reads only `45s`, splits nothing and trims
nothing. -/
def sampleStdlib : Stdlib :=
  { ParseDuration := fun s => if s = "45s" then .ok (45 * Second) else .error "invalid duration"
    Split := fun s _ => [s]
    TrimSpace := fun s => s }

/-- The environment with no variable set. -/
def noEnv : String → String := fun _ => ""

/-- An environment in which only the variable `name` is set, to `value`. -/
def onlyEnv (name value : String) : String → String :=
  fun n => if n = name then value else ""

/-! ## Plans and the naive planner (`domain/plan.go`, `memory/naive_planner.go`) -/

/-- Go `type StepType string`. -/
abbrev StepType := String

def StepTypeThink : StepType := "THINK"
def StepTypeToolCall : StepType := "TOOL_CALL"
def StepTypeDecision : StepType := "DECISION"
def StepTypeApprovalGate : StepType := "APPROVAL_GATE"
def StepTypeVerify : StepType := "VERIFY"

/-- Go `type StepStatus string`. -/
abbrev StepStatus := String

def StepStatusPending : StepStatus := "PENDING"
def StepStatusInProgress : StepStatus := "IN_PROGRESS"
def StepStatusCompleted : StepStatus := "COMPLETED"
def StepStatusFailed : StepStatus := "FAILED"
def StepStatusSkipped : StepStatus := "SKIPPED"

/-- Go `type RiskLevel string`. -/
abbrev RiskLevel := String

def RiskLevelLow : RiskLevel := "LOW"
def RiskLevelHigh : RiskLevel := "HIGH"

/-- Go `domain.Step`; the Go field `Type` is `Type_` here, `Type` being reserved. -/
structure Step where
  ID : String
  Title : String
  Description : String
  Type_ : StepType
  Status : StepStatus
  ToolName : String
  ToolInput : String
  RiskLevel : RiskLevel
  RequiresApproval : Bool
  RetryCount : Int
  ResultRef : String
deriving DecidableEq

/-- Go `domain.Plan`. -/
structure Plan where
  ID : String
  TaskID : String
  Goal : String
  Steps : List Step
  RiskSummary : String
deriving DecidableEq

/-- Go `domain.ToolMetadata`. -/
structure ToolMetadata where
  Name : String
  Description : String
  Category : String
  RiskLevel : RiskLevel
deriving DecidableEq

/-- Go `(*NaivePlanner).CreatePlan`. The three `uuid.New().String()` calls answer
`uuid 0`, `uuid 1` and `uuid 2`, in evaluation order; the error is always nil. -/
def CreatePlan (uuid : Nat → String) (task : Task) (_tools : List ToolMetadata) :
    Except String Plan :=
  .ok
    { ID := uuid 0
      TaskID := task.ID
      Goal := task.NormalizedIntent
      RiskSummary := "Low risk - automated execution with 2 simple steps"
      Steps :=
        [ { ID := uuid 1
            Title := "Analiza zahteva"
            Description := "Razumevanje korisničkog zahteva i pripreme za izvršenje"
            Type_ := StepTypeThink
            Status := StepStatusPending
            ToolName := ""
            ToolInput := task.Input
            RiskLevel := RiskLevelLow
            RequiresApproval := false
            RetryCount := 0
            ResultRef := "" },
          { ID := uuid 2
            Title := "Izvršenje akcije"
            Description := "Izvršavanje planiranog zadatka prema zahtevima korisnika"
            Type_ := StepTypeToolCall
            Status := StepStatusPending
            ToolName := "mock_executor"
            ToolInput := task.Input
            RiskLevel := RiskLevelLow
            RequiresApproval := false
            RetryCount := 0
            ResultRef := "" } ] }

/-! ## HTTP adapter (`adapters/primary/http/server.go`) -/

/-- Whether the characters `substr` occur in a row somewhere in the characters `s`. -/
def containsChars : List Char → List Char → Bool
  | [], substr => substr.isEmpty
  | c :: rest, substr => substr.isPrefixOf (c :: rest) || containsChars rest substr

/-- Go `strings.Contains`. -/
def Contains (s substr : String) : Bool := containsChars s.data substr.data

/-- The body of a JSON response: a `gin.H` object, or a task. -/
inductive ResponseBody where
  | object (fields : List (String × PayloadValue))
  | task (t : Task)
deriving DecidableEq

/-- What a handler writes with `c.JSON(status, body)`. -/
structure Response where
  status : Nat
  body : ResponseBody
deriving DecidableEq

/-- Go `(*Server).getTaskStatusHandler`. `orchestrator` is the method `GetTaskStatus` of
the `ports.Orchestrator` the server was built with: for a task ID it answers a task, or
an error, kept as its `Error()` text; `taskID` is `c.Param("id")`. -/
def getTaskStatusHandler (orchestrator : String → Except String Task) (taskID : String) :
    Response :=
  if taskID = "" then
    { status := 400, body := .object [("error", .str "task_id is required")] }
  else
    match orchestrator taskID with
    | .error errMsg =>
      if Contains errMsg "not found" then
        { status := 404
          body := .object [("error", .str "task not found"), ("task_id", .str taskID)] }
      else
        { status := 500
          body := .object [("error", .str "failed to get task status"),
                           ("details", .str errMsg)] }
    | .ok task => { status := 200, body := .task task }

/-- The `GetTaskStatus` method of the engine in world `w`, as the server sees it. -/
def engineGetTaskStatus (w : World) (taskID : String) : Except String Task :=
  match (GetTaskStatus w taskID).1 with
  | .ok task => .ok task
  | .error err => .error err.Error

/-! ## Concurrent calls of `HandleApproval`

`HandleApproval` holds no lock of its own. The only mutual exclusion is the mutex of the
repository, taken by `GetTask` for the time of the read and by `SaveTask` for the time
of the write. A call is therefore two parts that other calls may run between: the part
up to the return of `GetTask`, and the part from there to the return of the call. -/

/-- The first part of `(*OrchestratorService).HandleApproval`: the three guards on the
arguments and the call of `s.repo.GetTask`. It answers the error the call returns
there, or the private copy of the stored task that `GetTask` hands back. -/
def approvalLoad (w : World) (taskID : String) (stepID : String) (userID : String) :
    Except EngineError Task :=
  if taskID = "" then .error .approvalEmptyTaskID
  else if stepID = "" then .error .approvalEmptyStepID
  else if userID = "" then .error .approvalEmptyUserID
  else
    match w.repo.GetTask taskID with
    | .error err => .error (.approvalLoadFailed err)
    | .ok task => .ok task

/-- The second part of `(*OrchestratorService).HandleApproval`, from the return of
`GetTask` on: `task` is the copy the call loaded, `w` the world at the time this part
runs. The two guards read the copy, not the store. -/
def approvalCommit (env : Env) (w : World) (task : Task) (taskID : String)
    (stepID : String) (approved : Bool) (userID : String) : Option EngineError × World :=
  if task.Status ≠ TaskStatusWaitingApproval then
    (some (.approvalNotWaiting taskID task.Status), w)
  else if task.CurrentStepID ≠ stepID then
    (some (.approvalStepMismatch task.CurrentStepID stepID), w)
  else
    let (now, w1) := clockNow env w
    let task1 : Task :=
      if approved then { task with Status := TaskStatusExecuting }
      else { task with Status := TaskStatusCanceled, FinishedAt := now }
    let task2 : Task := { task1 with UpdatedAt := now }
    match w1.repo.SaveTask (some task2) with
    | (some err, _) => (some (.approvalSaveFailed err), w1)
    | (none, repo1) =>
      let w2 := { w1 with repo := repo1 }
      let (eventID, w3) := generate env w2
      let auditEvent : AuditEvent :=
        { ID := eventID
          TaskID := taskID
          CorrelationID := taskID
          Timestamp := now
          EventType := "APPROVAL_DECISION"
          Actor := userID
          BehaviorVersion := "v1"
          Payload :=
            [("task_id", .str taskID), ("step_id", .str stepID), ("approved", .bool approved),
             ("user_id", .str userID), ("new_status", .str task2.Status)] }
      match saveEvent env w3 auditEvent with
      | (some msg, w4) =>
        (none,
          logWarn w4 "failed to save audit event"
            [("error", .str msg), ("task_id", .str taskID), ("step_id", .str stepID)])
      | (none, w4) => (none, w4)

/-- The arguments of one call of `HandleApproval`. -/
structure ApprovalCall where
  taskID : String
  stepID : String
  approved : Bool
  userID : String
deriving DecidableEq

/-- How far a call of `HandleApproval` has run: not started, past `GetTask` with the
copy it loaded, or returned with its error (`none` for nil). -/
inductive CallState where
  | ready
  | loaded (task : Task)
  | returned (err : Option EngineError)
deriving DecidableEq

/-- The scheduler lets call number `i` run its next part. A call that has returned, or
a number that names no call, changes nothing. -/
def stepCall (env : Env) (calls : List ApprovalCall) (i : Nat) (w : World)
    (states : List CallState) : World × List CallState :=
  match calls[i]?, states[i]? with
  | some call, some .ready =>
    match approvalLoad w call.taskID call.stepID call.userID with
    | .error err => (w, states.set i (.returned (some err)))
    | .ok task => (w, states.set i (.loaded task))
  | some call, some (.loaded task) =>
    let r := approvalCommit env w task call.taskID call.stepID call.approved call.userID
    (r.2, states.set i (.returned r.1))
  | _, _ => (w, states)

/-- The calls run as the schedule says: each entry of the schedule names the call that
runs its next part. -/
def runSchedule (env : Env) (calls : List ApprovalCall) :
    List Nat → World → List CallState → World × List CallState
  | [], w, states => (w, states)
  | i :: rest, w, states =>
    runSchedule env calls rest (stepCall env calls i w states).1 (stepCall env calls i w states).2

/-- The calls started together in world `w` and run as the schedule says. -/
def runConcurrently (env : Env) (w : World) (calls : List ApprovalCall)
    (schedule : List Nat) : World × List CallState :=
  runSchedule env calls schedule w (calls.map fun _ => CallState.ready)

/-- How many of the calls have returned nil. -/
def successes (states : List CallState) : Nat :=
  states.countP fun st => st = CallState.returned none

/-! ## The engine over any task repository (`ports.TaskRepository`) -/

/-- Go interface `ports.TaskRepository`: any implementation, with its own state `σ` and
its own errors `ε`. A method reads the task it is handed and acts on the state of the
implementation. -/
structure TaskRepositoryPort (σ : Type) (ε : Type) where
  SaveTask : σ → Option Task → Option ε × σ
  GetTask : σ → String → Except ε Task

/-- The in-memory adapter as an implementation of the port. -/
def memoryPort : TaskRepositoryPort TaskRepository RepoError :=
  { SaveTask := fun r task => r.SaveTask task
    GetTask := fun r id => r.GetTask id }

/-- A repository that is out of reach: every call fails. -/
def unavailablePort : TaskRepositoryPort Unit String :=
  { SaveTask := fun st _ => (some "connection refused", st)
    GetTask := fun _ _ => .error "connection refused" }

/-- The world of an engine wired to some implementation of the repository port: as
`World`, with the state of that implementation for the repository. -/
structure PortWorld (σ : Type) where
  store : σ
  heap : List (List (String × String))
  events : List AuditEvent
  warnings : List WarnCall
  clockCalls : Nat
  idCalls : Nat

/-- The world of an engine wired to the in-memory adapter. -/
def PortWorld.toWorld (w : PortWorld TaskRepository) : World :=
  { repo := w.store, heap := w.heap, events := w.events, warnings := w.warnings,
    clockCalls := w.clockCalls, idCalls := w.idCalls }

/-- The world of a freshly wired engine whose repository is out of reach. -/
def unavailableWorld : PortWorld Unit :=
  { store := (), heap := [], events := [], warnings := [], clockCalls := 0, idCalls := 0 }

/-- Errors built by `StartTask`, one constructor per `fmt.Errorf` site; `cause` is the
error of the repository wrapped with `%w`. -/
inductive StartTaskError (ε : Type) where
  | emptyInput
  | emptyUserID
  | saveFailed (cause : ε)

/-- Go `err.Error()` for the errors of `StartTask`, given the text of the cause. -/
def StartTaskError.Error {ε : Type} (render : ε → String) : StartTaskError ε → String
  | .emptyInput => "task input cannot be empty"
  | .emptyUserID => "userID cannot be empty"
  | .saveFailed cause => "failed to save task: " ++ render cause

/-- The same error as a value of `EngineError`, for the in-memory adapter. -/
def StartTaskError.toEngine : StartTaskError RepoError → EngineError
  | .emptyInput => .startEmptyInput
  | .emptyUserID => .startEmptyUserID
  | .saveFailed cause => .startSaveFailed cause

/-- The task value `StartTask` builds when called in world `w`, whatever the repository. -/
def newTaskOn {σ : Type} (env : Env) (w : PortWorld σ) (input userID : String) : Task :=
  { ID := env.idGen w.idCalls
    CreatedAt := env.clock w.clockCalls
    UpdatedAt := env.clock w.clockCalls
    FinishedAt := Time.zero
    Status := TaskStatusNew
    Input := input
    NormalizedIntent := input
    UserID := userID
    Channel := "api"
    Role := ""
    TargetAgent := "CORE"
    PlanID := ""
    CurrentStepID := ""
    Artifacts := some w.heap.length
    Metadata := some (w.heap.length + 1)
    UsageTokens := 0
    CostEstimate := ⟨0⟩ }

/-- Go `(*OrchestratorService).StartTask` with `s.repo` any implementation of the port:
the same statements as `StartTask`, with the call `s.repo.SaveTask(ctx, task)` answered
by `port`. -/
def StartTaskOn {σ ε : Type} (port : TaskRepositoryPort σ ε) (env : Env) (w : PortWorld σ)
    (input : String) (userID : String) : Except (StartTaskError ε) Task × PortWorld σ :=
  if input = "" then (.error .emptyInput, w)
  else if userID = "" then (.error .emptyUserID, w)
  else
    let now := env.clock w.clockCalls
    let w1 := { w with clockCalls := w.clockCalls + 1 }
    let taskID := env.idGen w1.idCalls
    let w2 := { w1 with idCalls := w1.idCalls + 1 }
    let artifacts := w2.heap.length
    let w3 := { w2 with heap := w2.heap ++ [[]] }
    let metadata := w3.heap.length
    let w4 := { w3 with heap := w3.heap ++ [[]] }
    let task : Task :=
      { ID := taskID
        CreatedAt := now
        UpdatedAt := now
        FinishedAt := Time.zero
        Status := TaskStatusNew
        Input := input
        NormalizedIntent := input
        UserID := userID
        Channel := "api"
        Role := ""
        TargetAgent := "CORE"
        PlanID := ""
        CurrentStepID := ""
        Artifacts := some artifacts
        Metadata := some metadata
        UsageTokens := 0
        CostEstimate := ⟨0⟩ }
    match port.SaveTask w4.store (some task) with
    | (some err, store1) => (.error (.saveFailed err), { w4 with store := store1 })
    | (none, store1) =>
      let w5 := { w4 with store := store1 }
      let eventID := env.idGen w5.idCalls
      let w6 := { w5 with idCalls := w5.idCalls + 1 }
      let auditEvent : AuditEvent :=
        { ID := eventID
          TaskID := taskID
          CorrelationID := taskID
          Timestamp := now
          EventType := "TASK_CREATED"
          Actor := userID
          BehaviorVersion := "v1"
          Payload :=
            [("input", .str input), ("task_id", .str taskID), ("user_id", .str userID),
             ("target_agent", .str task.TargetAgent)] }
      let answer := env.auditErr w6.events.length auditEvent
      let w7 := { w6 with events := w6.events ++ [auditEvent] }
      match answer with
      | some msg =>
        (.ok task,
          { w7 with
            warnings := w7.warnings ++
              [{ msg := "failed to save audit event",
                 fields := [("error", .str msg), ("task_id", .str taskID)] }] })
      | none => (.ok task, w7)

/-! ## Lemmas on Go maps and on the repository -/

theorem mapGet_mapSet_same {β : Type} (m : List (String × β)) (k : String) (v : β) :
    mapGet (mapSet m k v) k = some v := by
  induction m with
  | nil => simp [mapSet, mapGet]
  | cons p rest ih =>
    obtain ⟨k0, x⟩ := p
    by_cases h : k0 = k
    · simp [mapSet, mapGet, h]
    · simp [mapSet, mapGet, h, ih]

theorem mapGet_mapSet_other {β : Type} (m : List (String × β)) (k j : String) (v : β)
    (hne : j ≠ k) : mapGet (mapSet m k v) j = mapGet m j := by
  induction m with
  | nil =>
    have hkj : ¬ k = j := fun h => hne h.symm
    simp [mapSet, mapGet, hkj]
  | cons p rest ih =>
    obtain ⟨k0, x⟩ := p
    by_cases h : k0 = k
    · have hkj : ¬ k = j := fun h2 => hne h2.symm
      have hk0j : ¬ k0 = j := by rw [h]; exact hkj
      simp [mapSet, mapGet, h, hkj]
    · by_cases h2 : k0 = j
      · subst h2
        simp [mapSet, mapGet, h]
      · simp [mapSet, mapGet, h, h2, ih]

theorem SaveTask_some_ok (r : TaskRepository) (t : Task) (hid : t.ID ≠ "") :
    r.SaveTask (some t) = (none, { tasks := mapSet r.tasks t.ID t }) := by
  simp [TaskRepository.SaveTask, hid]

theorem SaveTask_some_empty (r : TaskRepository) (t : Task) (hid : t.ID = "") :
    r.SaveTask (some t) = (some .saveEmptyID, r) := by
  simp [TaskRepository.SaveTask, hid]

theorem GetTask_after_SaveTask (r : TaskRepository) (t : Task) (hid : t.ID ≠ "") :
    (r.SaveTask (some t)).2.GetTask t.ID = .ok t := by
  simp [SaveTask_some_ok r t hid, TaskRepository.GetTask, hid, mapGet_mapSet_same]

theorem GetTask_ok_iff (r : TaskRepository) (id : String) (t : Task) :
    r.GetTask id = .ok t ↔ id ≠ "" ∧ mapGet r.tasks id = some t := by
  unfold TaskRepository.GetTask
  by_cases h : id = ""
  · simp [h]
  · cases hg : mapGet r.tasks id <;> simp [h]

theorem SaveTask_keyed (r : TaskRepository) (task : Option Task) (hk : r.Keyed) :
    (r.SaveTask task).2.Keyed := by
  cases task with
  | none => simpa [TaskRepository.SaveTask] using hk
  | some t =>
    by_cases hid : t.ID = ""
    · simpa [TaskRepository.SaveTask, hid] using hk
    · intro k x hx
      rw [SaveTask_some_ok r t hid] at hx
      by_cases hkt : k = t.ID
      · subst hkt
        rw [mapGet_mapSet_same] at hx
        cases hx
        rfl
      · rw [mapGet_mapSet_other _ _ _ _ hkt] at hx
        exact hk k x hx

theorem Reachable_keyed (r : TaskRepository) (hr : r.Reachable) : r.Keyed := by
  induction hr with
  | new => intro k t h; simp [NewTaskRepository, mapGet] at h
  | save r task _ ih => exact SaveTask_keyed r task ih

theorem Reachable_stored_ID (r : TaskRepository) (hr : r.Reachable) (id : String) (t : Task)
    (h : r.GetTask id = .ok t) : t.ID = id ∧ id ≠ "" := by
  obtain ⟨hne, hg⟩ := (GetTask_ok_iff r id t).1 h
  exact ⟨Reachable_keyed r hr id t hg, hne⟩

/-! ## StartTask and GetTaskStatus -/

theorem StartTask_stored (env : Env) (w : World) (input userID : String) (t : Task)
    (w1 : World) (h : StartTask env w input userID = (.ok t, w1)) :
    t.ID = env.idGen w.idCalls ∧ t.ID ≠ "" ∧ t.Status = TaskStatusNew ∧
      w1.repo.tasks = mapSet w.repo.tasks t.ID t := by
  unfold StartTask at h
  by_cases hin : input = ""
  · simp [hin] at h
  · by_cases hu : userID = ""
    · simp [hin, hu] at h
    · by_cases hid : env.idGen w.idCalls = ""
      · simp [hin, hu, clockNow, generate, makeMap, TaskRepository.SaveTask, hid] at h
      · simp only [hin, hu, clockNow, generate, makeMap, saveEvent, logWarn,
          TaskRepository.SaveTask, hid, if_false] at h
        split at h
        · rename_i heq
          obtain ⟨_, hw7⟩ := Prod.mk.inj heq
          subst hw7
          obtain ⟨ht, hw⟩ := Prod.mk.inj h
          cases ht
          subst hw
          exact ⟨rfl, hid, rfl, rfl⟩
        · rename_i heq
          obtain ⟨_, hw7⟩ := Prod.mk.inj heq
          subst hw7
          obtain ⟨ht, hw⟩ := Prod.mk.inj h
          cases ht
          subst hw
          exact ⟨rfl, hid, rfl, rfl⟩

/-- C1, counterexample: with non-empty input and userID, `StartTask` over the in-memory
repository fails when the ID generator answers the empty string, because `SaveTask`
rejects a task with an empty ID. -/
theorem StartTask_fails_on_empty_generated_ID :
    ("x" : String) ≠ "" ∧ ("u" : String) ≠ "" ∧
      (StartTask emptyIdEnv emptyWorld "x" "u").1 = .error (.startSaveFailed .saveEmptyID) := by
  refine ⟨by decide, by decide, ?_⟩
  simp [StartTask, emptyIdEnv, sampleEnv, emptyWorld, clockNow, generate, makeMap,
    TaskRepository.SaveTask]

theorem StartTask_valid (env : Env) (w : World) (input userID : String)
    (hin : input ≠ "") (hu : userID ≠ "") (hid : env.idGen w.idCalls ≠ "") :
    ∃ t w1, StartTask env w input userID = (.ok t, w1) ∧ t.ID = env.idGen w.idCalls ∧
      t.CreatedAt = env.clock w.clockCalls ∧ t.UpdatedAt = env.clock w.clockCalls ∧
      t.Status = TaskStatusNew := by
  unfold StartTask
  simp only [hin, hu, clockNow, generate, makeMap, saveEvent, logWarn,
    TaskRepository.SaveTask, hid, if_false]
  split
  · exact ⟨_, _, rfl, rfl, rfl, rfl, rfl⟩
  · exact ⟨_, _, rfl, rfl, rfl, rfl, rfl⟩

/-- C1, amended: for every non-empty input and userID, whenever the ID generator
answers a non-empty ID, `StartTask` over the in-memory repository succeeds and returns a
task whose Status is NEW, whose ID is non-empty and whose CreatedAt equals its
UpdatedAt. -/
theorem StartTask_succeeds (env : Env) (w : World) (input userID : String)
    (hin : input ≠ "") (hu : userID ≠ "") (hid : env.idGen w.idCalls ≠ "") :
    ∃ t w1, StartTask env w input userID = (.ok t, w1) ∧ t.Status = TaskStatusNew ∧
      t.ID ≠ "" ∧ t.CreatedAt = t.UpdatedAt := by
  obtain ⟨t, w1, hrun, hgen, hcreated, hupdated, hnew⟩ :=
    StartTask_valid env w input userID hin hu hid
  refine ⟨t, w1, hrun, hnew, ?_, ?_⟩
  · rw [hgen]
    exact hid
  · rw [hcreated, hupdated]

theorem StartTask_succeeds_witness :
    ∃ t w1, StartTask sampleEnv emptyWorld "book a flight" "user-42" = (.ok t, w1) ∧
      t.Status = TaskStatusNew ∧ t.ID ≠ "" ∧ t.CreatedAt = t.UpdatedAt :=
  StartTask_succeeds sampleEnv emptyWorld "book a flight" "user-42" (by decide) (by decide)
    (by decide)

/-- C2: whenever `StartTask` succeeds and returns task `t`, a `GetTaskStatus` for
`t.ID` run next on the resulting world succeeds and returns a task equal to `t` in
every field (and changes nothing). -/
theorem GetTaskStatus_after_StartTask (env : Env) (w : World) (input userID : String)
    (t : Task) (w1 : World) (h : StartTask env w input userID = (.ok t, w1)) :
    GetTaskStatus w1 t.ID = (.ok t, w1) := by
  obtain ⟨_, hne, _, hrepo⟩ := StartTask_stored env w input userID t w1 h
  have hget : w1.repo.GetTask t.ID = .ok t := by
    rw [GetTask_ok_iff, hrepo]
    exact ⟨hne, mapGet_mapSet_same _ _ _⟩
  simp [GetTaskStatus, hne, hget]

theorem GetTaskStatus_after_StartTask_witness :
    ∃ t w1, StartTask sampleEnv emptyWorld "book a flight" "user-42" = (.ok t, w1) ∧
      GetTaskStatus w1 t.ID = (.ok t, w1) := by
  obtain ⟨t, w1, h, _⟩ :=
    StartTask_valid sampleEnv emptyWorld "book a flight" "user-42" (by decide) (by decide)
      (by decide)
  exact ⟨t, w1, h, GetTaskStatus_after_StartTask _ _ _ _ t w1 h⟩

/-- C3: for every userID and every input, `StartTask "" userID` and
`StartTask input ""` fail with an error of kind InvalidArgument, return no task and
leave the whole world as it was: the task store is unchanged, no audit event is
emitted, no port is called. -/
theorem StartTask_empty_argument (env : Env) (w : World) (input userID : String) :
    (∃ e, StartTask env w "" userID = (.error e, w) ∧ e.kind = .InvalidArgument) ∧
      (∃ e, StartTask env w input "" = (.error e, w) ∧ e.kind = .InvalidArgument) := by
  constructor
  · exact ⟨.startEmptyInput, by simp [StartTask], rfl⟩
  · by_cases hin : input = ""
    · exact ⟨.startEmptyInput, by simp [StartTask, hin], rfl⟩
    · exact ⟨.startEmptyUserID, by simp [StartTask, hin], rfl⟩

/-! ## HandleApproval -/

theorem decided_ID (task : Task) (approved : Bool) (now : Time) :
    (decided task approved now).ID = task.ID := by
  cases approved <;> rfl

theorem decided_Status_ne_waiting (task : Task) (approved : Bool) (now : Time) :
    (decided task approved now).Status ≠ TaskStatusWaitingApproval := by
  cases approved <;> simp [decided, TaskStatusExecuting, TaskStatusCanceled,
    TaskStatusWaitingApproval]

theorem HandleApproval_accept (env : Env) (w : World) (taskID stepID : String)
    (approved : Bool) (userID : String) (t : Task)
    (ht : taskID ≠ "") (hs : stepID ≠ "") (hu : userID ≠ "")
    (hget : w.repo.GetTask taskID = .ok t) (hst : t.Status = TaskStatusWaitingApproval)
    (hstep : t.CurrentStepID = stepID) (hid : t.ID ≠ "") :
    ∃ w1, HandleApproval env w taskID stepID approved userID = (none, w1) ∧
      w1.repo.tasks = mapSet w.repo.tasks t.ID (decided t approved (env.clock w.clockCalls)) := by
  subst hstep
  unfold HandleApproval
  cases approved
  · simp only [ht, hs, hu, hget, hst, clockNow, generate, saveEvent, logWarn,
      TaskRepository.SaveTask, hid, if_false, ne_eq, not_true_eq_false, Bool.false_eq_true]
    split
    · rename_i heq
      obtain ⟨_, hw⟩ := Prod.mk.inj heq
      subst hw
      exact ⟨_, rfl, rfl⟩
    · rename_i heq
      obtain ⟨_, hw⟩ := Prod.mk.inj heq
      subst hw
      exact ⟨_, rfl, rfl⟩
  · simp only [ht, hs, hu, hget, hst, clockNow, generate, saveEvent, logWarn,
      TaskRepository.SaveTask, hid, if_false, ne_eq, not_true_eq_false, if_true]
    split
    · rename_i heq
      obtain ⟨_, hw⟩ := Prod.mk.inj heq
      subst hw
      exact ⟨_, rfl, rfl⟩
    · rename_i heq
      obtain ⟨_, hw⟩ := Prod.mk.inj heq
      subst hw
      exact ⟨_, rfl, rfl⟩

theorem HandleApproval_cases (env : Env) (w : World) (taskID stepID : String)
    (approved : Bool) (userID : String) :
    (∃ e, (HandleApproval env w taskID stepID approved userID).1 = some e ∧
        (HandleApproval env w taskID stepID approved userID).2.repo = w.repo) ∨
      (∃ t, taskID ≠ "" ∧ stepID ≠ "" ∧ userID ≠ "" ∧ w.repo.GetTask taskID = .ok t ∧
        t.Status = TaskStatusWaitingApproval ∧ t.CurrentStepID = stepID ∧ t.ID ≠ "" ∧
        (HandleApproval env w taskID stepID approved userID).1 = none ∧
        (HandleApproval env w taskID stepID approved userID).2.repo.tasks =
          mapSet w.repo.tasks t.ID (decided t approved (env.clock w.clockCalls))) := by
  by_cases ht : taskID = ""
  · exact Or.inl ⟨.approvalEmptyTaskID, by simp [HandleApproval, ht], by simp [HandleApproval, ht]⟩
  by_cases hs : stepID = ""
  · exact Or.inl ⟨.approvalEmptyStepID, by simp [HandleApproval, ht, hs],
      by simp [HandleApproval, ht, hs]⟩
  by_cases hu : userID = ""
  · exact Or.inl ⟨.approvalEmptyUserID, by simp [HandleApproval, ht, hs, hu],
      by simp [HandleApproval, ht, hs, hu]⟩
  cases hget : w.repo.GetTask taskID with
  | error err =>
    exact Or.inl ⟨.approvalLoadFailed err, by simp [HandleApproval, ht, hs, hu, hget],
      by simp [HandleApproval, ht, hs, hu, hget]⟩
  | ok t =>
    by_cases hst : t.Status = TaskStatusWaitingApproval
    swap
    · exact Or.inl ⟨.approvalNotWaiting taskID t.Status,
        by simp [HandleApproval, ht, hs, hu, hget, hst],
        by simp [HandleApproval, ht, hs, hu, hget, hst]⟩
    by_cases hstep : t.CurrentStepID = stepID
    swap
    · exact Or.inl ⟨.approvalStepMismatch t.CurrentStepID stepID,
        by simp [HandleApproval, ht, hs, hu, hget, hst, hstep],
        by simp [HandleApproval, ht, hs, hu, hget, hst, hstep]⟩
    by_cases hid : t.ID = ""
    · refine Or.inl ⟨.approvalSaveFailed .saveEmptyID, ?_, ?_⟩
      · cases approved <;>
          simp [HandleApproval, ht, hs, hu, hget, hst, hstep, clockNow,
            TaskRepository.SaveTask, hid]
      · cases approved <;>
          simp [HandleApproval, ht, hs, hu, hget, hst, hstep, clockNow,
            TaskRepository.SaveTask, hid]
    · obtain ⟨w1, hrun, hrepo⟩ :=
        HandleApproval_accept env w taskID stepID approved userID t ht hs hu hget hst hstep hid
      exact Or.inr ⟨t, ht, hs, hu, rfl, hst, hstep, hid, by rw [hrun], by rw [hrun]; exact hrepo⟩

/-- C4: for every stored task whose Status is not WAITING_APPROVAL, all non-empty
stepID and userID and either decision, `HandleApproval` fails with an error of kind
FailedPrecondition and the world is left as it was, so the stored task is unchanged in
every field. The task `t` is the one stored under `taskID`. -/
theorem HandleApproval_not_waiting (env : Env) (w : World) (taskID stepID : String)
    (approved : Bool) (userID : String) (t : Task)
    (hstored : w.repo.GetTask taskID = .ok t)
    (hst : t.Status ≠ TaskStatusWaitingApproval) (hs : stepID ≠ "") (hu : userID ≠ "") :
    ∃ e, HandleApproval env w taskID stepID approved userID = (some e, w) ∧
      e.kind = .FailedPrecondition ∧
      (HandleApproval env w taskID stepID approved userID).2.repo.GetTask taskID = .ok t := by
  have ht : taskID ≠ "" := ((GetTask_ok_iff _ _ _).1 hstored).1
  have hrun : HandleApproval env w taskID stepID approved userID =
      (some (.approvalNotWaiting taskID t.Status), w) := by
    simp [HandleApproval, ht, hs, hu, hstored, hst]
  exact ⟨_, hrun, rfl, by rw [hrun]; exact hstored⟩

theorem HandleApproval_not_waiting_witness :
    ∃ e, HandleApproval sampleEnv doneWorld "t1" "s2" true "user-42" = (some e, doneWorld) ∧
      e.kind = .FailedPrecondition ∧
      (HandleApproval sampleEnv doneWorld "t1" "s2" true "user-42").2.repo.GetTask "t1" =
        .ok doneTask :=
  HandleApproval_not_waiting sampleEnv doneWorld "t1" "s2" true "user-42" doneTask
    (by rfl) (by decide) (by decide) (by decide)

/-- C5, counterexample: `waitingTask` is stored and in WAITING_APPROVAL, step `s1` is
non-empty and is not its current step, yet with an empty userID `HandleApproval` fails
at the argument check, with an error of kind InvalidArgument and not
FailedPrecondition. -/
theorem HandleApproval_stale_step_empty_userID :
    waitingWorld.repo.GetTask "t1" = .ok waitingTask ∧
      waitingTask.Status = TaskStatusWaitingApproval ∧ ("s1" : String) ≠ "" ∧
      "s1" ≠ waitingTask.CurrentStepID ∧
      (HandleApproval sampleEnv waitingWorld "t1" "s1" true "").1 = some .approvalEmptyUserID ∧
      EngineError.approvalEmptyUserID.kind = .InvalidArgument ∧
      EngineError.approvalEmptyUserID.kind ≠ .FailedPrecondition := by
  refine ⟨by rfl, by rfl, by decide, by decide, ?_, by rfl, by decide⟩
  simp [HandleApproval]

/-- C5, amended: for every stored task in WAITING_APPROVAL, every non-empty stepID
different from its CurrentStepID and every non-empty userID, `HandleApproval` fails with
an error of kind FailedPrecondition, for either decision, and the world is left as it
was, so the stored task is unchanged. The task `t` is the one stored under `taskID`. -/
theorem HandleApproval_step_mismatch (env : Env) (w : World) (taskID stepID : String)
    (approved : Bool) (userID : String) (t : Task)
    (hstored : w.repo.GetTask taskID = .ok t)
    (hst : t.Status = TaskStatusWaitingApproval) (hs : stepID ≠ "")
    (hstep : stepID ≠ t.CurrentStepID) (hu : userID ≠ "") :
    ∃ e, HandleApproval env w taskID stepID approved userID = (some e, w) ∧
      e.kind = .FailedPrecondition ∧
      (HandleApproval env w taskID stepID approved userID).2.repo.GetTask taskID = .ok t := by
  have ht : taskID ≠ "" := ((GetTask_ok_iff _ _ _).1 hstored).1
  have hstep2 : ¬ t.CurrentStepID = stepID := fun h => hstep h.symm
  have hrun : HandleApproval env w taskID stepID approved userID =
      (some (.approvalStepMismatch t.CurrentStepID stepID), w) := by
    simp [HandleApproval, ht, hs, hu, hstored, hst, hstep2]
  exact ⟨_, hrun, rfl, by rw [hrun]; exact hstored⟩

theorem HandleApproval_step_mismatch_witness :
    ∃ e, HandleApproval sampleEnv waitingWorld "t1" "s1" false "user-42" =
        (some e, waitingWorld) ∧
      e.kind = .FailedPrecondition ∧
      (HandleApproval sampleEnv waitingWorld "t1" "s1" false "user-42").2.repo.GetTask "t1" =
        .ok waitingTask :=
  HandleApproval_step_mismatch sampleEnv waitingWorld "t1" "s1" false "user-42" waitingTask
    (by rfl) (by rfl) (by decide) (by decide) (by decide)

theorem HandleApproval_stored_after (env : Env) (w : World) (stepID : String)
    (approved : Bool) (userID : String) (t : Task)
    (hstored : w.repo.GetTask t.ID = .ok t)
    (hst : t.Status = TaskStatusWaitingApproval) (hstep : t.CurrentStepID = stepID)
    (hs : stepID ≠ "") (hu : userID ≠ "") :
    ∃ w1, HandleApproval env w t.ID stepID approved userID = (none, w1) ∧
      w1.repo.GetTask t.ID = .ok (decided t approved (env.clock w.clockCalls)) := by
  have hid : t.ID ≠ "" := ((GetTask_ok_iff _ _ _).1 hstored).1
  obtain ⟨w1, hrun, hrepo⟩ :=
    HandleApproval_accept env w t.ID stepID approved userID t hid hs hu hstored hst hstep hid
  refine ⟨w1, hrun, ?_⟩
  rw [GetTask_ok_iff, hrepo]
  exact ⟨hid, mapGet_mapSet_same _ _ _⟩

/-- C6: for every stored task `t` (the repository returns `t` for `t.ID`) that is in
WAITING_APPROVAL and whose CurrentStepID equals the non-empty stepID, and for every
non-empty userID, `HandleApproval t.ID stepID true userID` succeeds, and afterwards the
task stored under that ID is `t` with Status EXECUTING and UpdatedAt equal to the clock
reading taken during the call. -/
theorem HandleApproval_approve (env : Env) (w : World) (stepID userID : String)
    (t : Task) (hstored : w.repo.GetTask t.ID = .ok t)
    (hst : t.Status = TaskStatusWaitingApproval) (hstep : t.CurrentStepID = stepID)
    (hs : stepID ≠ "") (hu : userID ≠ "") :
    ∃ w1 t1, HandleApproval env w t.ID stepID true userID = (none, w1) ∧
      w1.repo.GetTask t.ID = .ok t1 ∧
      t1 = { t with Status := TaskStatusExecuting, UpdatedAt := env.clock w.clockCalls } ∧
      t1.Status = TaskStatusExecuting ∧ t1.UpdatedAt = env.clock w.clockCalls := by
  obtain ⟨w1, hrun, hget⟩ :=
    HandleApproval_stored_after env w stepID true userID t hstored hst hstep hs hu
  exact ⟨w1, _, hrun, hget, rfl, rfl, rfl⟩

theorem HandleApproval_approve_witness :
    ∃ w1 t1, HandleApproval sampleEnv waitingWorld "t1" "s2" true "user-42" = (none, w1) ∧
      w1.repo.GetTask "t1" = .ok t1 ∧
      t1 = { waitingTask with
        Status := TaskStatusExecuting, UpdatedAt := sampleEnv.clock waitingWorld.clockCalls } ∧
      t1.Status = TaskStatusExecuting ∧ t1.UpdatedAt = sampleEnv.clock waitingWorld.clockCalls :=
  HandleApproval_approve sampleEnv waitingWorld "s2" "user-42" waitingTask
    (by rfl) (by rfl) (by rfl) (by decide) (by decide)

/-- C7, counterexample: with a clock that reads the zero instant, rejecting the
decision on `waitingTask` succeeds and cancels the task, but the FinishedAt it stores is
the zero time. -/
theorem HandleApproval_reject_zero_clock :
    waitingWorld.repo.GetTask "t1" = .ok waitingTask ∧
      waitingTask.Status = TaskStatusWaitingApproval ∧ waitingTask.CurrentStepID = "s2" ∧
      ∃ w1 t1, HandleApproval zeroClockEnv waitingWorld "t1" "s2" false "user-42" = (none, w1) ∧
        w1.repo.GetTask "t1" = .ok t1 ∧ t1.Status = TaskStatusCanceled ∧
        t1.FinishedAt.IsZero = true := by
  refine ⟨by rfl, by rfl, by rfl, ?_⟩
  obtain ⟨w1, hrun, hget⟩ :=
    HandleApproval_stored_after zeroClockEnv waitingWorld "s2" false "user-42" waitingTask
      (by rfl) (by rfl) (by rfl) (by decide) (by decide)
  exact ⟨w1, _, hrun, hget, rfl, rfl⟩

/-- C7, amended: for every stored task `t` (the repository returns `t` for `t.ID`) that
is in WAITING_APPROVAL and whose CurrentStepID equals the non-empty stepID, and for every
non-empty userID, `HandleApproval t.ID stepID false userID` succeeds, and afterwards the
task stored under that ID has Status CANCELED and FinishedAt equal to the clock reading
taken during the call, hence a non-zero FinishedAt whenever that reading is not the zero
time. -/
theorem HandleApproval_reject (env : Env) (w : World) (stepID userID : String)
    (t : Task) (hstored : w.repo.GetTask t.ID = .ok t)
    (hst : t.Status = TaskStatusWaitingApproval) (hstep : t.CurrentStepID = stepID)
    (hs : stepID ≠ "") (hu : userID ≠ "") :
    ∃ w1 t1, HandleApproval env w t.ID stepID false userID = (none, w1) ∧
      w1.repo.GetTask t.ID = .ok t1 ∧
      t1.Status = TaskStatusCanceled ∧ t1.FinishedAt = env.clock w.clockCalls ∧
      ((env.clock w.clockCalls).IsZero = false → t1.FinishedAt.IsZero = false) := by
  obtain ⟨w1, hrun, hget⟩ :=
    HandleApproval_stored_after env w stepID false userID t hstored hst hstep hs hu
  exact ⟨w1, _, hrun, hget, rfl, rfl, fun h => h⟩

theorem HandleApproval_reject_witness :
    ∃ w1 t1, HandleApproval sampleEnv waitingWorld "t1" "s2" false "user-42" = (none, w1) ∧
      w1.repo.GetTask "t1" = .ok t1 ∧
      t1.Status = TaskStatusCanceled ∧ t1.FinishedAt = sampleEnv.clock waitingWorld.clockCalls ∧
      ((sampleEnv.clock waitingWorld.clockCalls).IsZero = false → t1.FinishedAt.IsZero = false) :=
  HandleApproval_reject sampleEnv waitingWorld "s2" "user-42" waitingTask
    (by rfl) (by rfl) (by rfl) (by decide) (by decide)

/-! ## Decisions are applied once; terminal states -/

theorem HandleApproval_rejected_when_not_waiting (env : Env) (w : World)
    (taskID stepID : String) (approved : Bool) (userID : String) (t : Task)
    (hstored : w.repo.GetTask taskID = .ok t) (hst : t.Status ≠ TaskStatusWaitingApproval) :
    ∃ e, HandleApproval env w taskID stepID approved userID = (some e, w) ∧
      ((stepID ≠ "" ∧ userID ≠ "") → e.kind = .FailedPrecondition) ∧
      ((stepID = "" ∨ userID = "") → e.kind = .InvalidArgument) := by
  have ht : taskID ≠ "" := ((GetTask_ok_iff _ _ _).1 hstored).1
  by_cases hs : stepID = ""
  · exact ⟨.approvalEmptyStepID, by simp [HandleApproval, ht, hs], fun h => absurd hs h.1,
      fun _ => rfl⟩
  by_cases hu : userID = ""
  · exact ⟨.approvalEmptyUserID, by simp [HandleApproval, ht, hs, hu], fun h => absurd hu h.2,
      fun _ => rfl⟩
  refine ⟨.approvalNotWaiting taskID t.Status, by simp [HandleApproval, ht, hs, hu, hstored, hst],
    fun _ => rfl, fun h => ?_⟩
  rcases h with h | h
  · exact absurd h hs
  · exact absurd h hu

/-- C8, counterexample: after the decision on `waitingTask` has been applied, a second
`HandleApproval` for the same task and step with an empty userID fails at the argument
check, with an error of kind InvalidArgument and not FailedPrecondition. -/
theorem HandleApproval_second_call_empty_userID :
    (HandleApproval sampleEnv waitingWorld "t1" "s2" true "user-42").1 = none ∧
      (HandleApproval sampleEnv
          (HandleApproval sampleEnv waitingWorld "t1" "s2" true "user-42").2
          "t1" "s2" false "").1 = some .approvalEmptyUserID ∧
      EngineError.approvalEmptyUserID.kind = .InvalidArgument ∧
      EngineError.approvalEmptyUserID.kind ≠ .FailedPrecondition := by
  refine ⟨by rfl, ?_, by rfl, by decide⟩
  simp [HandleApproval]

/-- C8, amended: a decision is applied at most once. After any successful
`HandleApproval taskID stepID a u`, every `HandleApproval taskID stepID a2 u2` run next
fails and leaves the world, hence the task, as the first decision left it; the error is
of kind FailedPrecondition when `u2` is non-empty and of kind InvalidArgument when `u2`
is empty. The repository is any one that can exist at run time (`hreach`: made by
`NewTaskRepository` and changed by `SaveTask` calls only). -/
theorem HandleApproval_at_most_once (env : Env) (w w1 : World) (taskID stepID : String)
    (a : Bool) (u : String) (a2 : Bool) (u2 : String) (hreach : w.repo.Reachable)
    (hfirst : HandleApproval env w taskID stepID a u = (none, w1)) :
    ∃ e, HandleApproval env w1 taskID stepID a2 u2 = (some e, w1) ∧
      (u2 ≠ "" → e.kind = .FailedPrecondition) ∧ (u2 = "" → e.kind = .InvalidArgument) := by
  rcases HandleApproval_cases env w taskID stepID a u with ⟨e, he, _⟩ | ⟨t, ht, hs, _, hget, hst,
    hstep, hid, _, hrepo⟩
  · rw [hfirst] at he
    cases he
  · rw [hfirst] at hrepo
    obtain ⟨hkey, _⟩ := Reachable_stored_ID w.repo hreach taskID t hget
    have hstored : w1.repo.GetTask taskID = .ok (decided t a (env.clock w.clockCalls)) := by
      rw [GetTask_ok_iff, hrepo, hkey]
      exact ⟨ht, mapGet_mapSet_same _ _ _⟩
    obtain ⟨e, hrun, hfp, hia⟩ :=
      HandleApproval_rejected_when_not_waiting env w1 taskID stepID a2 u2 _ hstored
        (decided_Status_ne_waiting _ _ _)
    exact ⟨e, hrun, fun hu2 => hfp ⟨hs, hu2⟩, fun hu2 => hia (Or.inr hu2)⟩

theorem HandleApproval_at_most_once_witness :
    ∃ e, HandleApproval sampleEnv
          (HandleApproval sampleEnv waitingWorld "t1" "s2" true "user-42").2
          "t1" "s2" false "user-7" =
        (some e, (HandleApproval sampleEnv waitingWorld "t1" "s2" true "user-42").2) ∧
      (("user-7" : String) ≠ "" → e.kind = .FailedPrecondition) ∧
      (("user-7" : String) = "" → e.kind = .InvalidArgument) :=
  HandleApproval_at_most_once sampleEnv waitingWorld
    (HandleApproval sampleEnv waitingWorld "t1" "s2" true "user-42").2 "t1" "s2" true "user-42"
    false "user-7"
    (TaskRepository.Reachable.save NewTaskRepository (some waitingTask)
      TaskRepository.Reachable.new)
    (by rfl)

theorem StartTask_frame (env : Env) (w : World) (input userID : String) (k : String)
    (hk : k ≠ env.idGen w.idCalls) :
    mapGet (StartTask env w input userID).2.repo.tasks k = mapGet w.repo.tasks k := by
  by_cases hin : input = ""
  · simp [StartTask, hin]
  by_cases hu : userID = ""
  · simp [StartTask, hin, hu]
  by_cases hid : env.idGen w.idCalls = ""
  · simp [StartTask, hin, hu, clockNow, generate, makeMap, TaskRepository.SaveTask, hid]
  obtain ⟨t, w1, hrun, _⟩ := StartTask_valid env w input userID hin hu hid
  obtain ⟨hgen, _, _, hrepo⟩ := StartTask_stored env w input userID t w1 hrun
  rw [hrun]
  show mapGet w1.repo.tasks k = mapGet w.repo.tasks k
  rw [hrepo, hgen]
  exact mapGet_mapSet_other _ _ _ _ hk

theorem HandleApproval_frame (env : Env) (w : World) (id stepID : String) (approved : Bool)
    (userID : String) (hreach : w.repo.Reachable) (k : String) (t : Task)
    (hk : mapGet w.repo.tasks k = some t) (hst : t.Status ≠ TaskStatusWaitingApproval) :
    mapGet (HandleApproval env w id stepID approved userID).2.repo.tasks k = some t := by
  rcases HandleApproval_cases env w id stepID approved userID with ⟨_, _, hsame⟩ | ⟨t2, _, _, _,
    hget, hst2, _, _, _, hrepo⟩
  · rw [hsame]
    exact hk
  · obtain ⟨hkey, _⟩ := Reachable_stored_ID w.repo hreach id t2 hget
    have hne : k ≠ t2.ID := by
      intro h
      rw [hkey] at h
      subst h
      have h2 := ((GetTask_ok_iff _ _ _).1 hget).2
      rw [hk] at h2
      cases h2
      exact hst hst2
    rw [hrepo, mapGet_mapSet_other _ _ _ _ hne]
    exact hk

/-- C10, counterexample: `doneTask` is stored with Status DONE; a `StartTask` whose ID
generator answers the ID of that task again overwrites it, and the task stored under
`t1` then has Status NEW. -/
theorem StartTask_overwrites_terminal_task :
    doneWorld.repo.GetTask "t1" = .ok doneTask ∧ doneTask.Status = TaskStatusDone ∧
      ∃ t1, (StartTask repeatingIdEnv doneWorld "x" "u").2.repo.GetTask "t1" = .ok t1 ∧
        t1.Status = TaskStatusNew ∧ t1.Status ≠ doneTask.Status := by
  refine ⟨by rfl, by rfl, ?_⟩
  obtain ⟨t, w1, hrun, hid, _, _, hnew⟩ :=
    StartTask_valid repeatingIdEnv doneWorld "x" "u" (by decide) (by decide) (by decide)
  obtain ⟨_, _, _, hrepo⟩ := StartTask_stored repeatingIdEnv doneWorld "x" "u" t w1 hrun
  have hid : t.ID = "t1" := hid
  refine ⟨t, ?_, hnew, ?_⟩
  · rw [hrun]
    show w1.repo.GetTask "t1" = .ok t
    rw [GetTask_ok_iff, hrepo, hid]
    exact ⟨by decide, mapGet_mapSet_same _ _ _⟩
  · rw [hnew]
    decide

/-- C10, amended: DONE, FAILED and CANCELED are absorbing. For every stored task whose
Status is DONE, FAILED or CANCELED, the task stored under its ID is the same task, so its
Status is unchanged, after `GetTaskStatus` with any argument, after `HandleApproval` with
any arguments, and after `StartTask` with any arguments provided the ID that `StartTask`
draws from the generator is not the ID of that task. The repository is any one that can
exist at run time (`hreach`: made by `NewTaskRepository` and changed by `SaveTask` calls
only); `t` is the task stored under `taskID`. -/
theorem terminal_status_absorbing (w : World) (taskID : String) (t : Task)
    (hreach : w.repo.Reachable) (hstored : w.repo.GetTask taskID = .ok t)
    (hterm : t.Status = TaskStatusDone ∨ t.Status = TaskStatusFailed ∨
      t.Status = TaskStatusCanceled) :
    (∀ (env : Env) (input userID : String), env.idGen w.idCalls ≠ taskID →
        (StartTask env w input userID).2.repo.GetTask taskID = .ok t) ∧
      (∀ id : String, (GetTaskStatus w id).2.repo.GetTask taskID = .ok t) ∧
      (∀ (env : Env) (id stepID : String) (approved : Bool) (userID : String),
        (HandleApproval env w id stepID approved userID).2.repo.GetTask taskID = .ok t) := by
  obtain ⟨hne, hget⟩ := (GetTask_ok_iff _ _ _).1 hstored
  have hst : t.Status ≠ TaskStatusWaitingApproval := by
    rcases hterm with h | h | h <;> rw [h] <;> decide
  refine ⟨?_, ?_, ?_⟩
  · intro env input userID hfresh
    rw [GetTask_ok_iff]
    refine ⟨hne, ?_⟩
    rw [StartTask_frame env w input userID taskID (fun h => hfresh h.symm)]
    exact hget
  · intro id
    have hsame : (GetTaskStatus w id).2 = w := by
      unfold GetTaskStatus
      by_cases hid : id = ""
      · simp [hid]
      · cases hg : w.repo.GetTask id <;> simp [hid]
    rw [hsame]
    exact hstored
  · intro env id stepID approved userID
    rw [GetTask_ok_iff]
    exact ⟨hne, HandleApproval_frame env w id stepID approved userID hreach taskID t hget hst⟩

theorem terminal_status_absorbing_witness :
    (∀ (env : Env) (input userID : String), env.idGen doneWorld.idCalls ≠ "t1" →
        (StartTask env doneWorld input userID).2.repo.GetTask "t1" = .ok doneTask) ∧
      (∀ id : String, (GetTaskStatus doneWorld id).2.repo.GetTask "t1" = .ok doneTask) ∧
      (∀ (env : Env) (id stepID : String) (approved : Bool) (userID : String),
        (HandleApproval env doneWorld id stepID approved userID).2.repo.GetTask "t1" =
          .ok doneTask) :=
  terminal_status_absorbing doneWorld "t1" doneTask
    (TaskRepository.Reachable.save NewTaskRepository (some doneTask)
      TaskRepository.Reachable.new)
    (by rfl) (Or.inl (by rfl))

/-! ## The runs of StartTask and HandleApproval in closed form -/

theorem StartTask_run (env : Env) (w : World) (input userID : String)
    (hin : input ≠ "") (hu : userID ≠ "") (hid : env.idGen w.idCalls ≠ "") :
    StartTask env w input userID =
      (.ok (newTask env w input userID),
        { repo := { tasks := mapSet w.repo.tasks (env.idGen w.idCalls)
                      (newTask env w input userID) }
          heap := w.heap ++ [[]] ++ [[]]
          events := w.events ++ [taskCreatedEvent env w input userID]
          warnings := warningsAfter w.warnings
            (env.auditErr w.events.length (taskCreatedEvent env w input userID))
            [("task_id", .str (env.idGen w.idCalls))]
          clockCalls := w.clockCalls + 1
          idCalls := w.idCalls + 2 }) := by
  unfold StartTask
  simp only [hin, hu, clockNow, generate, makeMap, saveEvent, logWarn,
    TaskRepository.SaveTask, hid, if_false]
  cases haud : env.auditErr w.events.length (taskCreatedEvent env w input userID) with
  | none =>
    simp only [taskCreatedEvent] at haud
    simp [haud, newTask, taskCreatedEvent, warningsAfter]
  | some msg =>
    simp only [taskCreatedEvent] at haud
    simp [haud, newTask, taskCreatedEvent, warningsAfter]

theorem StartTask_save_fails (env : Env) (w : World) (input userID : String)
    (hin : input ≠ "") (hu : userID ≠ "") (hid : env.idGen w.idCalls = "") :
    StartTask env w input userID =
      (.error (.startSaveFailed .saveEmptyID),
        { w with heap := w.heap ++ [[]] ++ [[]], clockCalls := w.clockCalls + 1,
                 idCalls := w.idCalls + 1 }) := by
  simp [StartTask, hin, hu, clockNow, generate, makeMap, TaskRepository.SaveTask, hid]

theorem HandleApproval_run (env : Env) (w : World) (taskID stepID : String)
    (approved : Bool) (userID : String) (t : Task)
    (ht : taskID ≠ "") (hs : stepID ≠ "") (hu : userID ≠ "")
    (hget : w.repo.GetTask taskID = .ok t) (hst : t.Status = TaskStatusWaitingApproval)
    (hstep : t.CurrentStepID = stepID) (hid : t.ID ≠ "") :
    HandleApproval env w taskID stepID approved userID =
      (none,
        { repo := { tasks := mapSet w.repo.tasks t.ID
                      (decided t approved (env.clock w.clockCalls)) }
          heap := w.heap
          events := w.events ++ [approvalEvent env w taskID stepID approved userID
            (decided t approved (env.clock w.clockCalls)).Status]
          warnings := warningsAfter w.warnings
            (env.auditErr w.events.length (approvalEvent env w taskID stepID approved userID
              (decided t approved (env.clock w.clockCalls)).Status))
            [("task_id", .str taskID), ("step_id", .str stepID)]
          clockCalls := w.clockCalls + 1
          idCalls := w.idCalls + 1 }) := by
  subst hstep
  unfold HandleApproval
  cases approved
  · simp only [ht, hs, hu, hget, hst, clockNow, generate, saveEvent, logWarn,
      TaskRepository.SaveTask, hid, if_false, ne_eq, not_true_eq_false, Bool.false_eq_true]
    cases haud : env.auditErr w.events.length
        (approvalEvent env w taskID t.CurrentStepID false userID TaskStatusCanceled) with
    | none =>
      simp only [approvalEvent] at haud
      simp [haud, decided, approvalEvent, warningsAfter]
    | some msg =>
      simp only [approvalEvent] at haud
      simp [haud, decided, approvalEvent, warningsAfter]
  · simp only [ht, hs, hu, hget, hst, clockNow, generate, saveEvent, logWarn,
      TaskRepository.SaveTask, hid, if_false, ne_eq, not_true_eq_false, if_true]
    cases haud : env.auditErr w.events.length
        (approvalEvent env w taskID t.CurrentStepID true userID TaskStatusExecuting) with
    | none =>
      simp only [approvalEvent] at haud
      simp [haud, decided, approvalEvent, warningsAfter]
    | some msg =>
      simp only [approvalEvent] at haud
      simp [haud, decided, approvalEvent, warningsAfter]

theorem StartTask_error_frame (env : Env) (w : World) (input userID : String)
    (e : EngineError) (h : (StartTask env w input userID).1 = .error e) :
    (StartTask env w input userID).2.repo = w.repo ∧
      (StartTask env w input userID).2.events = w.events ∧
      (StartTask env w input userID).2.warnings = w.warnings := by
  by_cases hin : input = ""
  · simp [StartTask, hin]
  by_cases hu : userID = ""
  · simp [StartTask, hin, hu]
  by_cases hid : env.idGen w.idCalls = ""
  · rw [StartTask_save_fails env w input userID hin hu hid]
    exact ⟨rfl, rfl, rfl⟩
  · rw [StartTask_run env w input userID hin hu hid] at h
    cases h

theorem HandleApproval_error_frame (env : Env) (w : World) (taskID stepID : String)
    (approved : Bool) (userID : String) (e : EngineError)
    (h : (HandleApproval env w taskID stepID approved userID).1 = some e) :
    (HandleApproval env w taskID stepID approved userID).2.repo = w.repo ∧
      (HandleApproval env w taskID stepID approved userID).2.events = w.events ∧
      (HandleApproval env w taskID stepID approved userID).2.warnings = w.warnings := by
  by_cases ht : taskID = ""
  · simp [HandleApproval, ht]
  by_cases hs : stepID = ""
  · simp [HandleApproval, ht, hs]
  by_cases hu : userID = ""
  · simp [HandleApproval, ht, hs, hu]
  cases hget : w.repo.GetTask taskID with
  | error err => simp [HandleApproval, ht, hs, hu, hget]
  | ok t =>
    by_cases hst : t.Status = TaskStatusWaitingApproval
    swap
    · simp [HandleApproval, ht, hs, hu, hget, hst]
    by_cases hstep : t.CurrentStepID = stepID
    swap
    · simp [HandleApproval, ht, hs, hu, hget, hst, hstep]
    by_cases hid : t.ID = ""
    · cases approved <;>
        simp [HandleApproval, ht, hs, hu, hget, hst, hstep, clockNow,
          TaskRepository.SaveTask, hid]
    · rw [HandleApproval_run env w taskID stepID approved userID t ht hs hu hget hst hstep hid]
        at h
      cases h

theorem SaveTask_error_writes_nothing (r : TaskRepository) (task : Option Task)
    (e : RepoError) (h : (r.SaveTask task).1 = some e) : (r.SaveTask task).2 = r := by
  cases task with
  | none => rfl
  | some t =>
    by_cases hid : t.ID = ""
    · simp [TaskRepository.SaveTask, hid]
    · simp [TaskRepository.SaveTask, hid] at h

/-! ## The repository contract: round trip and aliasing -/

/-- C11: for every non-nil task `t` with a non-empty ID and every repository state,
`SaveTask t` succeeds and a `GetTask t.ID` run next succeeds and returns a value equal
to `t` in all fields. -/
theorem SaveTask_then_GetTask (r : TaskRepository) (t : Task) (hid : t.ID ≠ "") :
    (r.SaveTask (some t)).1 = none ∧ (r.SaveTask (some t)).2.GetTask t.ID = .ok t := by
  refine ⟨?_, GetTask_after_SaveTask r t hid⟩
  rw [SaveTask_some_ok r t hid]

theorem SaveTask_then_GetTask_witness :
    (doneWorld.repo.SaveTask (some waitingTask)).1 = none ∧
      (doneWorld.repo.SaveTask (some waitingTask)).2.GetTask waitingTask.ID = .ok waitingTask :=
  SaveTask_then_GetTask doneWorld.repo waitingTask (by decide)

/-- C12, failing input: the struct copies made by `GetTask` and `SaveTask` copy the
addresses of the Artifacts and Metadata maps, not the maps. First part: the task `id-0`
read with `GetTask` has an empty Metadata map; after the caller runs
`t.Metadata["k"] = "v"` on the task it was handed, a later `GetTask "id-0"` returns a
task whose Metadata map holds that entry. Second part: the same for a task whose map the
caller changes after it passed the task to `SaveTask`. -/
theorem TaskRepository_shares_map_fields :
    (∃ t w1 t1, startedWorld.repo.GetTask "id-0" = .ok t ∧
        mapEntries startedWorld t.Metadata = [] ∧
        mapAssign startedWorld t.Metadata "k" "v" = some w1 ∧
        w1.repo.GetTask "id-0" = .ok t1 ∧ mapEntries w1 t1.Metadata = [("k", "v")]) ∧
      (∃ w1 w2 t0 t1,
        w1 = { callerWorld with repo := (callerWorld.repo.SaveTask (some callerTask)).2 } ∧
        w1.repo.GetTask "t1" = .ok t0 ∧ mapEntries w1 t0.Metadata = [] ∧
        mapAssign w1 callerTask.Metadata "k" "v" = some w2 ∧
        w2.repo.GetTask "t1" = .ok t1 ∧ mapEntries w2 t1.Metadata = [("k", "v")]) := by
  constructor
  · exact ⟨newTask sampleEnv emptyWorld "book a flight" "user-42", _, _, by rfl, by rfl, rfl,
      by rfl, by rfl⟩
  · exact ⟨_, _, callerTask, callerTask, rfl, by rfl, by rfl, rfl, by rfl, by rfl⟩

/-! ## Audit is best effort -/

theorem StartTask_ignores_audit_answer (env : Env) (f : Nat → AuditEvent → Option String)
    (w : World) (input userID : String) :
    (StartTask { env with auditErr := f } w input userID).1 =
        (StartTask env w input userID).1 ∧
      (StartTask { env with auditErr := f } w input userID).2.repo =
        (StartTask env w input userID).2.repo := by
  by_cases hin : input = ""
  · simp [StartTask, hin]
  by_cases hu : userID = ""
  · simp [StartTask, hin, hu]
  by_cases hid : env.idGen w.idCalls = ""
  · rw [StartTask_save_fails env w input userID hin hu hid,
      StartTask_save_fails { env with auditErr := f } w input userID hin hu hid]
    exact ⟨rfl, rfl⟩
  · rw [StartTask_run env w input userID hin hu hid,
      StartTask_run { env with auditErr := f } w input userID hin hu hid]
    exact ⟨rfl, rfl⟩

theorem HandleApproval_ignores_audit_answer (env : Env)
    (f : Nat → AuditEvent → Option String) (w : World) (taskID stepID : String)
    (approved : Bool) (userID : String) :
    (HandleApproval { env with auditErr := f } w taskID stepID approved userID).1 =
        (HandleApproval env w taskID stepID approved userID).1 ∧
      (HandleApproval { env with auditErr := f } w taskID stepID approved userID).2.repo =
        (HandleApproval env w taskID stepID approved userID).2.repo := by
  by_cases ht : taskID = ""
  · simp [HandleApproval, ht]
  by_cases hs : stepID = ""
  · simp [HandleApproval, ht, hs]
  by_cases hu : userID = ""
  · simp [HandleApproval, ht, hs, hu]
  cases hget : w.repo.GetTask taskID with
  | error err => simp [HandleApproval, ht, hs, hu, hget]
  | ok t =>
    by_cases hst : t.Status = TaskStatusWaitingApproval
    swap
    · simp [HandleApproval, ht, hs, hu, hget, hst]
    by_cases hstep : t.CurrentStepID = stepID
    swap
    · simp [HandleApproval, ht, hs, hu, hget, hst, hstep]
    by_cases hid : t.ID = ""
    · cases approved <;>
        simp [HandleApproval, ht, hs, hu, hget, hst, hstep, clockNow,
          TaskRepository.SaveTask, hid]
    · rw [HandleApproval_run env w taskID stepID approved userID t ht hs hu hget hst hstep hid,
        HandleApproval_run { env with auditErr := f } w taskID stepID approved userID t ht hs hu
          hget hst hstep hid]
      exact ⟨rfl, rfl⟩

/-- C13: audit failure never affects the caller. For `StartTask` and for
`HandleApproval`, for all arguments and every world, the returned result (task and
error) and the resulting task store are the same under `env` and under `env` with the
answers of `SaveEvent` replaced by any others `f`, so whether `SaveEvent` returns nil or
an error. -/
theorem audit_answer_never_affects_caller (env : Env)
    (f : Nat → AuditEvent → Option String) (w : World) :
    (∀ input userID : String,
        (StartTask { env with auditErr := f } w input userID).1 =
          (StartTask env w input userID).1 ∧
        (StartTask { env with auditErr := f } w input userID).2.repo =
          (StartTask env w input userID).2.repo) ∧
      (∀ (taskID stepID : String) (approved : Bool) (userID : String),
        (HandleApproval { env with auditErr := f } w taskID stepID approved userID).1 =
          (HandleApproval env w taskID stepID approved userID).1 ∧
        (HandleApproval { env with auditErr := f } w taskID stepID approved userID).2.repo =
          (HandleApproval env w taskID stepID approved userID).2.repo) :=
  ⟨fun input userID => StartTask_ignores_audit_answer env f w input userID,
    fun taskID stepID approved userID =>
      HandleApproval_ignores_audit_answer env f w taskID stepID approved userID⟩

theorem warningsAfter_none (warnings : List WarnCall)
    (fields : List (String × PayloadValue)) : warningsAfter warnings none fields = warnings :=
  rfl

theorem warningsAfter_some (warnings : List WarnCall) (msg : String)
    (fields : List (String × PayloadValue)) :
    warningsAfter warnings (some msg) fields =
      warnings ++ [{ msg := "failed to save audit event", fields := ("error", .str msg) :: fields }] :=
  rfl

theorem StartTask_audit_log (env : Env) (w : World) (input userID : String) :
    ((StartTask env w input userID).2.events = w.events ∧
        (StartTask env w input userID).2.warnings = w.warnings) ∨
      ∃ ev t, (StartTask env w input userID).2.events = w.events ++ [ev] ∧
        (StartTask env w input userID).1 = .ok t ∧ ev.TaskID = t.ID ∧
        (env.auditErr w.events.length ev = none →
          (StartTask env w input userID).2.warnings = w.warnings) ∧
        (∀ msg, env.auditErr w.events.length ev = some msg →
          (StartTask env w input userID).2.warnings =
            w.warnings ++ [{ msg := "failed to save audit event",
                             fields := [("error", .str msg), ("task_id", .str ev.TaskID)] }]) := by
  by_cases hin : input = ""
  · exact Or.inl (by simp [StartTask, hin])
  by_cases hu : userID = ""
  · exact Or.inl (by simp [StartTask, hin, hu])
  by_cases hid : env.idGen w.idCalls = ""
  · rw [StartTask_save_fails env w input userID hin hu hid]
    exact Or.inl ⟨rfl, rfl⟩
  · rw [StartTask_run env w input userID hin hu hid]
    refine Or.inr ⟨taskCreatedEvent env w input userID, newTask env w input userID, rfl, rfl,
      rfl, ?_, ?_⟩
    · intro h
      show warningsAfter _ _ _ = _
      rw [h, warningsAfter_none]
    · intro msg h
      show warningsAfter _ _ _ = _
      rw [h, warningsAfter_some]
      rfl

theorem HandleApproval_audit_log (env : Env) (w : World) (taskID stepID : String)
    (approved : Bool) (userID : String) :
    ((HandleApproval env w taskID stepID approved userID).2.events = w.events ∧
        (HandleApproval env w taskID stepID approved userID).2.warnings = w.warnings) ∨
      ∃ ev, (HandleApproval env w taskID stepID approved userID).2.events = w.events ++ [ev] ∧
        (HandleApproval env w taskID stepID approved userID).1 = none ∧ ev.TaskID = taskID ∧
        (env.auditErr w.events.length ev = none →
          (HandleApproval env w taskID stepID approved userID).2.warnings = w.warnings) ∧
        (∀ msg, env.auditErr w.events.length ev = some msg →
          (HandleApproval env w taskID stepID approved userID).2.warnings =
            w.warnings ++ [{ msg := "failed to save audit event",
                             fields := [("error", .str msg), ("task_id", .str ev.TaskID),
                                        ("step_id", .str stepID)] }]) := by
  cases hres : (HandleApproval env w taskID stepID approved userID).1 with
  | some e =>
    obtain ⟨_, hev, hwarn⟩ :=
      HandleApproval_error_frame env w taskID stepID approved userID e hres
    exact Or.inl ⟨hev, hwarn⟩
  | none =>
    rcases HandleApproval_cases env w taskID stepID approved userID with ⟨e, he, _⟩ |
      ⟨t, ht, hs, hu, hget, hst, hstep, hid, _, _⟩
    · rw [hres] at he
      cases he
    · rw [HandleApproval_run env w taskID stepID approved userID t ht hs hu hget hst hstep hid]
      refine Or.inr ⟨approvalEvent env w taskID stepID approved userID
        (decided t approved (env.clock w.clockCalls)).Status, rfl, rfl, rfl, ?_, ?_⟩
      · intro h
        show warningsAfter _ _ _ = _
        rw [h, warningsAfter_none]
      · intro msg h
        show warningsAfter _ _ _ = _
        rw [h, warningsAfter_some]
        rfl

/-- C14: an audit failure is never silent. In `StartTask` and in `HandleApproval`,
either `SaveEvent` is not called and nothing is logged, or the call succeeds and
`SaveEvent` is called once with an event `ev` for the task, and then: when it returns an
error the engine makes exactly one more `Logger.Warn` call, carrying the error message and
the task ID (and the step ID in `HandleApproval`); when it returns nil the warnings are
as before. -/
theorem audit_failure_is_logged_once (env : Env) (w : World) :
    (∀ input userID : String,
        ((StartTask env w input userID).2.events = w.events ∧
            (StartTask env w input userID).2.warnings = w.warnings) ∨
          ∃ ev t, (StartTask env w input userID).2.events = w.events ++ [ev] ∧
            (StartTask env w input userID).1 = .ok t ∧ ev.TaskID = t.ID ∧
            (env.auditErr w.events.length ev = none →
              (StartTask env w input userID).2.warnings = w.warnings) ∧
            (∀ msg, env.auditErr w.events.length ev = some msg →
              (StartTask env w input userID).2.warnings =
                w.warnings ++ [{ msg := "failed to save audit event",
                                 fields := [("error", .str msg),
                                            ("task_id", .str ev.TaskID)] }])) ∧
      (∀ (taskID stepID : String) (approved : Bool) (userID : String),
        ((HandleApproval env w taskID stepID approved userID).2.events = w.events ∧
            (HandleApproval env w taskID stepID approved userID).2.warnings = w.warnings) ∨
          ∃ ev, (HandleApproval env w taskID stepID approved userID).2.events =
              w.events ++ [ev] ∧
            (HandleApproval env w taskID stepID approved userID).1 = none ∧
            ev.TaskID = taskID ∧
            (env.auditErr w.events.length ev = none →
              (HandleApproval env w taskID stepID approved userID).2.warnings = w.warnings) ∧
            (∀ msg, env.auditErr w.events.length ev = some msg →
              (HandleApproval env w taskID stepID approved userID).2.warnings =
                w.warnings ++ [{ msg := "failed to save audit event",
                                 fields := [("error", .str msg), ("task_id", .str ev.TaskID),
                                            ("step_id", .str stepID)] }])) :=
  ⟨fun input userID => StartTask_audit_log env w input userID,
    fun taskID stepID approved userID =>
      HandleApproval_audit_log env w taskID stepID approved userID⟩

theorem audit_failure_is_logged_once_witness :
    ∃ ev : AuditEvent,
      (StartTask failingAuditEnv emptyWorld "book a flight" "user-42").2.warnings =
      emptyWorld.warnings ++ [{ msg := "failed to save audit event",
                                fields := [("error", .str "audit store down"),
                                           ("task_id", .str ev.TaskID)] }] := by
  rcases (audit_failure_is_logged_once failingAuditEnv emptyWorld).1 "book a flight" "user-42"
    with ⟨hev, _⟩ | ⟨ev, _, _, _, _, _, hlogged⟩
  · rw [StartTask_run failingAuditEnv emptyWorld "book a flight" "user-42" (by decide)
      (by decide) (by decide)] at hev
    simp [emptyWorld] at hev
  · exact ⟨ev, hlogged "audit store down" rfl⟩

/-! ## Failures leave no trace -/

theorem StartTask_memory_save_failure (env : Env) (w : World) (input userID : String)
    (err : RepoError) (hin : input ≠ "") (hu : userID ≠ "")
    (hsave : (w.repo.SaveTask (some (newTask env w input userID))).1 = some err) :
    ∃ w1, StartTask env w input userID = (.error (.startSaveFailed err), w1) ∧
      w1.events = w.events ∧ w1.repo = w.repo := by
  by_cases hid : env.idGen w.idCalls = ""
  · have hnew : (newTask env w input userID).ID = "" := hid
    rw [SaveTask_some_empty _ _ hnew] at hsave
    cases hsave
    rw [StartTask_save_fails env w input userID hin hu hid]
    exact ⟨_, rfl, rfl, rfl⟩
  · have hnew : (newTask env w input userID).ID ≠ "" := hid
    rw [SaveTask_some_ok _ _ hnew] at hsave
    cases hsave

/-- C16: task-mutating calls are all-or-nothing. The in-memory `SaveTask` writes
nothing when it fails; and whenever `StartTask` or `HandleApproval` returns an error,
for any arguments and any world, the task store after the call equals the task store
before it and no audit event has been emitted. -/
theorem failed_call_leaves_store_and_audit (env : Env) (w : World) :
    (∀ (r : TaskRepository) (task : Option Task) (e : RepoError),
        (r.SaveTask task).1 = some e → (r.SaveTask task).2 = r) ∧
      (∀ (input userID : String) (e : EngineError) (w1 : World),
        StartTask env w input userID = (.error e, w1) →
          w1.repo = w.repo ∧ w1.events = w.events) ∧
      (∀ (taskID stepID : String) (approved : Bool) (userID : String) (e : EngineError)
          (w1 : World),
        HandleApproval env w taskID stepID approved userID = (some e, w1) →
          w1.repo = w.repo ∧ w1.events = w.events) := by
  refine ⟨fun r task e h => SaveTask_error_writes_nothing r task e h, ?_, ?_⟩
  · intro input userID e w1 h
    obtain ⟨hrepo, hev, _⟩ :=
      StartTask_error_frame env w input userID e (by rw [h])
    rw [h] at hrepo hev
    exact ⟨hrepo, hev⟩
  · intro taskID stepID approved userID e w1 h
    obtain ⟨hrepo, hev, _⟩ :=
      HandleApproval_error_frame env w taskID stepID approved userID e (by rw [h])
    rw [h] at hrepo hev
    exact ⟨hrepo, hev⟩

theorem failed_call_leaves_store_and_audit_witness :
    (HandleApproval sampleEnv doneWorld "t1" "s2" true "user-42").2.repo = doneWorld.repo ∧
      (HandleApproval sampleEnv doneWorld "t1" "s2" true "user-42").2.events =
        doneWorld.events :=
  (failed_call_leaves_store_and_audit sampleEnv doneWorld).2.2 "t1" "s2" true "user-42"
    (.approvalNotWaiting "t1" TaskStatusDone) _ (by rfl)

/-! ## GetTaskStatus is a read; argument and lookup failures of HandleApproval -/

theorem GetTaskStatus_world (w : World) (taskID : String) : (GetTaskStatus w taskID).2 = w := by
  unfold GetTaskStatus
  by_cases hid : taskID = ""
  · simp [hid]
  · cases hg : w.repo.GetTask taskID <;> simp [hid]

theorem GetTask_missing (r : TaskRepository) (id : String) (hid : id ≠ "")
    (hmissing : mapGet r.tasks id = none) : r.GetTask id = .error (.getNotFound id) := by
  simp [TaskRepository.GetTask, hid, hmissing]

/-- C17: `GetTaskStatus` fails with an error of kind InvalidArgument when taskID is
empty; it fails with an error of kind NotFound when taskID is non-empty and the store has
no entry for it; and for every non-empty ID under which a task is stored it succeeds and
returns that task. In all three cases the world is left as it was. -/
theorem GetTaskStatus_outcomes (w : World) :
    (GetTaskStatus w "" = (.error .statusEmptyTaskID, w) ∧
        EngineError.statusEmptyTaskID.kind = .InvalidArgument) ∧
      (∀ taskID : String, taskID ≠ "" → mapGet w.repo.tasks taskID = none →
        GetTaskStatus w taskID = (.error (.statusGetFailed (.getNotFound taskID)), w) ∧
          (EngineError.statusGetFailed (.getNotFound taskID)).kind = .NotFound) ∧
      (∀ (taskID : String) (t : Task), taskID ≠ "" → mapGet w.repo.tasks taskID = some t →
        GetTaskStatus w taskID = (.ok t, w)) := by
  refine ⟨⟨by simp [GetTaskStatus], rfl⟩, ?_, ?_⟩
  · intro taskID hid hmissing
    exact ⟨by simp [GetTaskStatus, hid, GetTask_missing w.repo taskID hid hmissing], rfl⟩
  · intro taskID t hid hstored
    have hget : w.repo.GetTask taskID = .ok t := (GetTask_ok_iff _ _ _).2 ⟨hid, hstored⟩
    simp [GetTaskStatus, hid, hget]

theorem GetTaskStatus_outcomes_witness :
    (GetTaskStatus doneWorld "t2" =
        (.error (.statusGetFailed (.getNotFound "t2")), doneWorld) ∧
      (EngineError.statusGetFailed (.getNotFound "t2")).kind = .NotFound) ∧
    GetTaskStatus doneWorld "t1" = (.ok doneTask, doneWorld) :=
  ⟨(GetTaskStatus_outcomes doneWorld).2.1 "t2" (by decide) (by rfl),
    (GetTaskStatus_outcomes doneWorld).2.2 "t1" doneTask (by decide) (by rfl)⟩

/-- C18: `GetTaskStatus` is a pure read. For every taskID and every world, whether it
succeeds or fails, the world after the call is the world before it: the task store is
unchanged, no audit event is emitted, nothing is logged, and the counts of calls made
to the clock and to the ID generator are unchanged. -/
theorem GetTaskStatus_pure_read (w : World) (taskID : String) :
    (GetTaskStatus w taskID).2 = w ∧
      (GetTaskStatus w taskID).2.repo = w.repo ∧
      (GetTaskStatus w taskID).2.events = w.events ∧
      (GetTaskStatus w taskID).2.clockCalls = w.clockCalls ∧
      (GetTaskStatus w taskID).2.idCalls = w.idCalls := by
  rw [GetTaskStatus_world w taskID]
  exact ⟨rfl, rfl, rfl, rfl, rfl⟩

/-- C19: whenever taskID, stepID or userID is empty, `HandleApproval` fails with an error
of kind InvalidArgument; the error is the same in every world, so the store is not
read, and the world is left as it was, so the store is not changed. -/
theorem HandleApproval_empty_argument (taskID stepID : String) (approved : Bool)
    (userID : String) (hempty : taskID = "" ∨ stepID = "" ∨ userID = "") :
    ∃ e, e.kind = .InvalidArgument ∧
      ∀ (env : Env) (w : World),
        HandleApproval env w taskID stepID approved userID = (some e, w) := by
  by_cases ht : taskID = ""
  · exact ⟨.approvalEmptyTaskID, rfl, fun env w => by simp [HandleApproval, ht]⟩
  by_cases hs : stepID = ""
  · exact ⟨.approvalEmptyStepID, rfl, fun env w => by simp [HandleApproval, ht, hs]⟩
  have hu : userID = "" := by
    rcases hempty with h | h | h
    · exact absurd h ht
    · exact absurd h hs
    · exact h
  exact ⟨.approvalEmptyUserID, rfl, fun env w => by simp [HandleApproval, ht, hs, hu]⟩

theorem HandleApproval_empty_argument_witness :
    ∃ e, e.kind = .InvalidArgument ∧
      ∀ (env : Env) (w : World), HandleApproval env w "t1" "" true "user-42" = (some e, w) :=
  HandleApproval_empty_argument "t1" "" true "user-42" (Or.inr (Or.inl rfl))

/-- C20: for all non-empty taskID, stepID and userID such that the store has no entry
for taskID, `HandleApproval` fails with an error of kind NotFound, which is not
FailedPrecondition, and the world, hence the store, is left as it was. -/
theorem HandleApproval_unknown_task (env : Env) (w : World) (taskID stepID : String)
    (approved : Bool) (userID : String) (ht : taskID ≠ "") (hs : stepID ≠ "")
    (hu : userID ≠ "") (hmissing : mapGet w.repo.tasks taskID = none) :
    HandleApproval env w taskID stepID approved userID =
        (some (.approvalLoadFailed (.getNotFound taskID)), w) ∧
      (EngineError.approvalLoadFailed (.getNotFound taskID)).kind = .NotFound ∧
      (EngineError.approvalLoadFailed (.getNotFound taskID)).kind ≠ .FailedPrecondition := by
  refine ⟨?_, rfl, by simp [EngineError.kind, RepoError.kind]⟩
  simp [HandleApproval, ht, hs, hu, GetTask_missing w.repo taskID ht hmissing]

theorem HandleApproval_unknown_task_witness :
    HandleApproval sampleEnv doneWorld "t2" "s2" true "user-42" =
        (some (.approvalLoadFailed (.getNotFound "t2")), doneWorld) ∧
      (EngineError.approvalLoadFailed (.getNotFound "t2")).kind = .NotFound ∧
      (EngineError.approvalLoadFailed (.getNotFound "t2")).kind ≠ .FailedPrecondition :=
  HandleApproval_unknown_task sampleEnv doneWorld "t2" "s2" true "user-42" (by decide)
    (by decide) (by decide) (by rfl)

/-! ## What StartTask returns; the contract of SaveTask and GetTask -/

theorem StartTask_ok_inv (env : Env) (w : World) (input userID : String) (t : Task)
    (w1 : World) (h : StartTask env w input userID = (.ok t, w1)) :
    input ≠ "" ∧ userID ≠ "" ∧ env.idGen w.idCalls ≠ "" ∧ t = newTask env w input userID ∧
      w1 = (StartTask env w input userID).2 := by
  have hw : w1 = (StartTask env w input userID).2 := by rw [h]
  by_cases hin : input = ""
  · simp [StartTask, hin] at h
  by_cases hu : userID = ""
  · simp [StartTask, hin, hu] at h
  by_cases hid : env.idGen w.idCalls = ""
  · rw [StartTask_save_fails env w input userID hin hu hid] at h
    cases h
  · refine ⟨hin, hu, hid, ?_, hw⟩
    rw [StartTask_run env w input userID hin hu hid] at h
    cases h
    rfl

theorem heap_after_two_makes (heap : List (List (String × String))) :
    (heap ++ [[]] ++ [[]]).get? heap.length = some [] ∧
      (heap ++ [[]] ++ [[]]).get? (heap.length + 1) = some [] := by
  induction heap with
  | nil => exact ⟨rfl, rfl⟩
  | cons m rest ih => exact ih

/-- C21: every task returned by a successful `StartTask input userID` has Input and
NormalizedIntent equal to `input`, UserID equal to `userID`, Channel `api`, TargetAgent
`CORE`, empty PlanID and CurrentStepID, zero FinishedAt and UsageTokens 0; its Artifacts
and Metadata are non-nil, are two different map objects, and both maps are empty in the
world the call leaves. -/
theorem StartTask_returned_task (env : Env) (w : World) (input userID : String) (t : Task)
    (w1 : World) (h : StartTask env w input userID = (.ok t, w1)) :
    t.Input = input ∧ t.NormalizedIntent = input ∧ t.UserID = userID ∧ t.Channel = "api" ∧
      t.TargetAgent = "CORE" ∧ t.PlanID = "" ∧ t.CurrentStepID = "" ∧
      t.FinishedAt.IsZero = true ∧ t.UsageTokens = 0 ∧
      (∃ a m, t.Artifacts = some a ∧ t.Metadata = some m ∧ a ≠ m ∧
        w1.heap.get? a = some [] ∧ w1.heap.get? m = some []) := by
  obtain ⟨hin, hu, hid, ht, hw⟩ := StartTask_ok_inv env w input userID t w1 h
  subst ht
  rw [StartTask_run env w input userID hin hu hid] at hw
  subst hw
  refine ⟨rfl, rfl, rfl, rfl, rfl, rfl, rfl, rfl, rfl, w.heap.length, w.heap.length + 1, rfl, rfl,
    Nat.ne_of_lt (Nat.lt_succ_self _), ?_, ?_⟩
  · exact (heap_after_two_makes w.heap).1
  · exact (heap_after_two_makes w.heap).2

theorem StartTask_returned_task_witness :
    ∃ t w1, StartTask sampleEnv emptyWorld "book a flight" "user-42" = (.ok t, w1) ∧
      t.Input = "book a flight" ∧ t.NormalizedIntent = "book a flight" ∧
      t.UserID = "user-42" ∧ t.Channel = "api" ∧
      t.TargetAgent = "CORE" ∧ t.PlanID = "" ∧ t.CurrentStepID = "" ∧
      t.FinishedAt.IsZero = true ∧ t.UsageTokens = 0 ∧
      (∃ a m, t.Artifacts = some a ∧ t.Metadata = some m ∧ a ≠ m ∧
        w1.heap.get? a = some [] ∧ w1.heap.get? m = some []) :=
  ⟨_, _, StartTask_run sampleEnv emptyWorld "book a flight" "user-42" (by decide) (by decide)
      (by decide),
    StartTask_returned_task sampleEnv emptyWorld "book a flight" "user-42" _ _
      (StartTask_run sampleEnv emptyWorld "book a flight" "user-42" (by decide) (by decide)
        (by decide))⟩

/-- C22: `SaveTask` fails with an error of kind InvalidArgument when the task is nil
and when its ID is empty, and the repository is then unchanged; for every non-nil task
with a non-empty ID it succeeds. -/
theorem SaveTask_outcomes (r : TaskRepository) :
    ((r.SaveTask none).1 = some .saveNilTask ∧ RepoError.saveNilTask.kind = .InvalidArgument ∧
        (r.SaveTask none).2 = r) ∧
      (∀ t : Task, t.ID = "" →
        (r.SaveTask (some t)).1 = some .saveEmptyID ∧
          RepoError.saveEmptyID.kind = .InvalidArgument ∧ (r.SaveTask (some t)).2 = r) ∧
      (∀ t : Task, t.ID ≠ "" → (r.SaveTask (some t)).1 = none) := by
  refine ⟨⟨rfl, rfl, rfl⟩, ?_, ?_⟩
  · intro t hid
    rw [SaveTask_some_empty r t hid]
    exact ⟨rfl, rfl, rfl⟩
  · intro t hid
    rw [SaveTask_some_ok r t hid]

theorem SaveTask_outcomes_witness :
    ((doneWorld.repo.SaveTask (some { waitingTask with ID := "" })).1 = some .saveEmptyID ∧
        RepoError.saveEmptyID.kind = .InvalidArgument ∧
        (doneWorld.repo.SaveTask (some { waitingTask with ID := "" })).2 = doneWorld.repo) ∧
      (doneWorld.repo.SaveTask (some waitingTask)).1 = none :=
  ⟨(SaveTask_outcomes doneWorld.repo).2.1 { waitingTask with ID := "" } rfl,
    (SaveTask_outcomes doneWorld.repo).2.2 waitingTask (by decide)⟩

/-- C23: `GetTask` succeeds if and only if the id is non-empty and the store has a task
under it, and it then returns that task; on an empty id and on an id with no entry it
fails with an error of kind NotFound. `GetTask` is a function of the repository that
yields no repository: the contents are as before in every case. -/
theorem GetTask_outcomes (r : TaskRepository) (id : String) :
    (∀ t, r.GetTask id = .ok t ↔ id ≠ "" ∧ mapGet r.tasks id = some t) ∧
      (id = "" → r.GetTask id = .error .getEmptyID ∧ RepoError.getEmptyID.kind = .NotFound) ∧
      (id ≠ "" → mapGet r.tasks id = none →
        r.GetTask id = .error (.getNotFound id) ∧ (RepoError.getNotFound id).kind = .NotFound) := by
  refine ⟨fun t => GetTask_ok_iff r id t, ?_, ?_⟩
  · intro hid
    exact ⟨by simp [TaskRepository.GetTask, hid], rfl⟩
  · intro hid hmissing
    exact ⟨GetTask_missing r id hid hmissing, rfl⟩

theorem GetTask_outcomes_witness :
    (doneWorld.repo.GetTask "t1" = .ok doneTask) ∧
      (doneWorld.repo.GetTask "t2" = .error (.getNotFound "t2") ∧
        (RepoError.getNotFound "t2").kind = .NotFound) :=
  ⟨((GetTask_outcomes doneWorld.repo "t1").1 doneTask).2 ⟨by decide, by rfl⟩,
    (GetTask_outcomes doneWorld.repo "t2").2.2 (by decide) (by rfl)⟩

/-! ## Audit events, the FinishedAt invariant, frame of HandleApproval -/

theorem HandleApproval_ok_inv (env : Env) (w : World) (taskID stepID : String)
    (approved : Bool) (userID : String) (w1 : World)
    (h : HandleApproval env w taskID stepID approved userID = (none, w1)) :
    ∃ t, taskID ≠ "" ∧ stepID ≠ "" ∧ userID ≠ "" ∧ w.repo.GetTask taskID = .ok t ∧
      t.Status = TaskStatusWaitingApproval ∧ t.CurrentStepID = stepID ∧ t.ID ≠ "" ∧
      w1.repo.tasks = mapSet w.repo.tasks t.ID (decided t approved (env.clock w.clockCalls)) ∧
      w1.heap = w.heap ∧
      w1.events = w.events ++ [approvalEvent env w taskID stepID approved userID
        (decided t approved (env.clock w.clockCalls)).Status] := by
  rcases HandleApproval_cases env w taskID stepID approved userID with ⟨e, he, _⟩ |
    ⟨t, ht, hs, hu, hget, hst, hstep, hid, _, _⟩
  · rw [h] at he
    cases he
  · rw [HandleApproval_run env w taskID stepID approved userID t ht hs hu hget hst hstep hid] at h
    obtain ⟨_, hw⟩ := Prod.mk.inj h
    subst hw
    exact ⟨t, ht, hs, hu, hget, hst, hstep, hid, rfl, rfl, rfl⟩

theorem mapGet_mapSet_cases {β : Type} (m : List (String × β)) (k j : String) (v x : β)
    (h : mapGet (mapSet m k v) j = some x) : x = v ∨ mapGet m j = some x := by
  by_cases hjk : j = k
  · subst hjk
    rw [mapGet_mapSet_same] at h
    cases h
    exact Or.inl rfl
  · rw [mapGet_mapSet_other _ _ _ _ hjk] at h
    exact Or.inr h

/-- C24: each successful mutating operation emits exactly one audit event, and the
task is persisted. After a successful `StartTask` the events are the former ones plus one
event of type TASK_CREATED, and after a successful `HandleApproval` plus one of type
APPROVAL_DECISION; its TaskID and CorrelationID are the ID of the task, its Actor is the
userID argument, its Timestamp is the UpdatedAt of the task, and for `HandleApproval`
its payload entry new_status is the persisted Status. A failing call emits none. The
repository is any one that can exist at run time (`hreach`). -/
theorem one_audit_event_per_success (env : Env) (w : World) (hreach : w.repo.Reachable) :
    (∀ (input userID : String) (t : Task) (w1 : World),
        StartTask env w input userID = (.ok t, w1) →
          ∃ ev, w1.events = w.events ++ [ev] ∧ w1.repo.GetTask t.ID = .ok t ∧
            ev.EventType = "TASK_CREATED" ∧ ev.TaskID = t.ID ∧ ev.CorrelationID = t.ID ∧
            ev.Actor = userID ∧ ev.Timestamp = t.UpdatedAt) ∧
      (∀ (taskID stepID : String) (approved : Bool) (userID : String) (w1 : World),
        HandleApproval env w taskID stepID approved userID = (none, w1) →
          ∃ ev t1, w1.events = w.events ++ [ev] ∧ w1.repo.GetTask taskID = .ok t1 ∧
            ev.EventType = "APPROVAL_DECISION" ∧ ev.TaskID = t1.ID ∧
            ev.CorrelationID = t1.ID ∧ ev.Actor = userID ∧ ev.Timestamp = t1.UpdatedAt ∧
            mapGet ev.Payload "new_status" = some (.str t1.Status)) ∧
      (∀ (input userID : String) (e : EngineError) (w1 : World),
        StartTask env w input userID = (.error e, w1) → w1.events = w.events) ∧
      (∀ (taskID stepID : String) (approved : Bool) (userID : String) (e : EngineError)
          (w1 : World),
        HandleApproval env w taskID stepID approved userID = (some e, w1) →
          w1.events = w.events) := by
  refine ⟨?_, ?_, ?_, ?_⟩
  · intro input userID t w1 h
    obtain ⟨hin, hu, hid, ht, hw⟩ := StartTask_ok_inv env w input userID t w1 h
    subst ht
    rw [StartTask_run env w input userID hin hu hid] at hw
    subst hw
    refine ⟨taskCreatedEvent env w input userID, rfl, ?_, rfl, rfl, rfl, rfl, rfl⟩
    rw [GetTask_ok_iff]
    exact ⟨hid, mapGet_mapSet_same _ _ _⟩
  · intro taskID stepID approved userID w1 h
    obtain ⟨t, ht, _, _, hget, _, _, _, hrepo, _, hev⟩ :=
      HandleApproval_ok_inv env w taskID stepID approved userID w1 h
    obtain ⟨hkey, _⟩ := Reachable_stored_ID w.repo hreach taskID t hget
    refine ⟨_, decided t approved (env.clock w.clockCalls), hev, ?_, rfl, ?_, ?_, rfl, ?_, ?_⟩
    · rw [GetTask_ok_iff, hrepo, hkey]
      exact ⟨ht, mapGet_mapSet_same _ _ _⟩
    · rw [decided_ID, hkey]
      rfl
    · rw [decided_ID, hkey]
      rfl
    · cases approved <;> rfl
    · simp [approvalEvent, mapGet]
  · intro input userID e w1 h
    have := (StartTask_error_frame env w input userID e (by rw [h])).2.1
    rw [h] at this
    exact this
  · intro taskID stepID approved userID e w1 h
    have := (HandleApproval_error_frame env w taskID stepID approved userID e (by rw [h])).2.1
    rw [h] at this
    exact this

theorem one_audit_event_per_success_witness :
    ∃ ev t1, (HandleApproval sampleEnv waitingWorld "t1" "s2" false "user-42").2.events =
        waitingWorld.events ++ [ev] ∧
      (HandleApproval sampleEnv waitingWorld "t1" "s2" false "user-42").2.repo.GetTask "t1" =
        .ok t1 ∧
      ev.EventType = "APPROVAL_DECISION" ∧ ev.TaskID = t1.ID ∧
      ev.CorrelationID = t1.ID ∧ ev.Actor = "user-42" ∧ ev.Timestamp = t1.UpdatedAt ∧
      mapGet ev.Payload "new_status" = some (.str t1.Status) :=
  (one_audit_event_per_success sampleEnv waitingWorld
    (TaskRepository.Reachable.save NewTaskRepository (some waitingTask)
      TaskRepository.Reachable.new)).2.1 "t1" "s2" false "user-42" _ (by rfl)

theorem StartTask_repo_cases (env : Env) (w : World) (input userID : String) :
    (StartTask env w input userID).2.repo = w.repo ∨
      ((newTask env w input userID).ID ≠ "" ∧
        (StartTask env w input userID).1 = .ok (newTask env w input userID) ∧
        (StartTask env w input userID).2.repo =
          (w.repo.SaveTask (some (newTask env w input userID))).2) := by
  by_cases hin : input = ""
  · exact Or.inl (by simp [StartTask, hin])
  by_cases hu : userID = ""
  · exact Or.inl (by simp [StartTask, hin, hu])
  by_cases hid : env.idGen w.idCalls = ""
  · rw [StartTask_save_fails env w input userID hin hu hid]
    exact Or.inl rfl
  · have hnew : (newTask env w input userID).ID ≠ "" := hid
    rw [StartTask_run env w input userID hin hu hid, SaveTask_some_ok _ _ hnew]
    exact Or.inr ⟨hnew, rfl, rfl⟩

theorem HandleApproval_repo_cases (env : Env) (w : World) (taskID stepID : String)
    (approved : Bool) (userID : String) :
    (HandleApproval env w taskID stepID approved userID).2.repo = w.repo ∨
      ∃ t, w.repo.GetTask taskID = .ok t ∧ t.Status = TaskStatusWaitingApproval ∧
        t.ID ≠ "" ∧
        (HandleApproval env w taskID stepID approved userID).2.repo =
          (w.repo.SaveTask (some (decided t approved (env.clock w.clockCalls)))).2 := by
  rcases HandleApproval_cases env w taskID stepID approved userID with ⟨_, _, hsame⟩ |
    ⟨t, _, _, _, hget, hst, _, hid, _, hrepo⟩
  · exact Or.inl hsame
  · refine Or.inr ⟨t, hget, hst, hid, ?_⟩
    have hid2 : (decided t approved (env.clock w.clockCalls)).ID ≠ "" := by
      rw [decided_ID]
      exact hid
    rw [SaveTask_some_ok _ _ hid2, decided_ID]
    cases hr : (HandleApproval env w taskID stepID approved userID).2.repo
    rw [hr] at hrepo
    simp only at hrepo
    rw [hrepo]

theorem SaveTask_finished_invariant (r : TaskRepository) (t : Task)
    (hinv : FinishedOnlyWhenTerminal r)
    (ht : t.FinishedAt.IsZero = false → TerminalStatus t.Status) :
    FinishedOnlyWhenTerminal (r.SaveTask (some t)).2 := by
  by_cases hid : t.ID = ""
  · rw [SaveTask_some_empty r t hid]
    exact hinv
  · rw [SaveTask_some_ok r t hid]
    intro k x hx hfin
    rcases mapGet_mapSet_cases _ _ _ _ _ hx with h | h
    · subst h
      exact ht hfin
    · exact hinv k x h hfin

/-- C27: FinishedAt is zero until terminal. If every stored task with a non-zero
FinishedAt has Status DONE, FAILED or CANCELED, then the same holds of the store after
`StartTask`, after `GetTaskStatus` and after `HandleApproval`, for any arguments. -/
theorem finished_only_when_terminal_preserved (env : Env) (w : World)
    (hinv : FinishedOnlyWhenTerminal w.repo) :
    (∀ input userID : String,
        FinishedOnlyWhenTerminal (StartTask env w input userID).2.repo) ∧
      (∀ taskID : String, FinishedOnlyWhenTerminal (GetTaskStatus w taskID).2.repo) ∧
      (∀ (taskID stepID : String) (approved : Bool) (userID : String),
        FinishedOnlyWhenTerminal (HandleApproval env w taskID stepID approved userID).2.repo) := by
  refine ⟨?_, ?_, ?_⟩
  · intro input userID
    rcases StartTask_repo_cases env w input userID with h | ⟨_, _, h⟩
    · rw [h]
      exact hinv
    · rw [h]
      refine SaveTask_finished_invariant w.repo _ hinv ?_
      intro hfin
      simp [newTask, Time.IsZero, Time.zero] at hfin
  · intro taskID
    rw [GetTaskStatus_world]
    exact hinv
  · intro taskID stepID approved userID
    rcases HandleApproval_repo_cases env w taskID stepID approved userID with h |
      ⟨t, hget, hst, _, h⟩
    · rw [h]
      exact hinv
    · rw [h]
      refine SaveTask_finished_invariant w.repo _ hinv ?_
      cases approved
      · intro _
        exact Or.inr (Or.inr rfl)
      · intro hfin
        have hstored := ((GetTask_ok_iff _ _ _).1 hget).2
        have hterm := hinv taskID t hstored hfin
        rw [hst] at hterm
        rcases hterm with h1 | h1 | h1 <;> exact absurd h1 (by decide)

theorem finished_only_when_terminal_preserved_witness :
    (∀ input userID : String,
        FinishedOnlyWhenTerminal (StartTask sampleEnv doneWorld input userID).2.repo) ∧
      (∀ taskID : String, FinishedOnlyWhenTerminal (GetTaskStatus doneWorld taskID).2.repo) ∧
      (∀ (taskID stepID : String) (approved : Bool) (userID : String),
        FinishedOnlyWhenTerminal
          (HandleApproval sampleEnv doneWorld taskID stepID approved userID).2.repo) :=
  finished_only_when_terminal_preserved sampleEnv doneWorld (by
    intro k t hk _
    by_cases hkey : k = "t1"
    · subst hkey
      have ht : t = doneTask := by
        have h2 : mapGet doneWorld.repo.tasks "t1" = some doneTask := by rfl
        rw [h2] at hk
        cases hk
        rfl
      subst ht
      exact Or.inl rfl
    · have hnone : mapGet doneWorld.repo.tasks k = none := by
        have hne : ¬ "t1" = k := fun h => hkey h.symm
        simp [doneWorld, emptyWorld, NewTaskRepository, TaskRepository.SaveTask, doneTask,
          waitingTask, mapSet, mapGet, hne]
      rw [hnone] at hk
      cases hk)

/-- C28: a successful `HandleApproval` changes only Status and UpdatedAt, and FinishedAt
on rejection only, of the task stored under `taskID`: the other fields of that task are
unchanged, FinishedAt is unchanged on approval, the map objects on the heap are
unchanged, and the entry of every other key of the store is unchanged. The repository
is any one that can exist at run time (`hreach`). -/
theorem HandleApproval_changes_only (env : Env) (w : World) (taskID stepID : String)
    (approved : Bool) (userID : String) (w1 : World) (hreach : w.repo.Reachable)
    (h : HandleApproval env w taskID stepID approved userID = (none, w1)) :
    ∃ t t1, w.repo.GetTask taskID = .ok t ∧ w1.repo.GetTask taskID = .ok t1 ∧
      t1.ID = t.ID ∧ t1.CreatedAt = t.CreatedAt ∧ t1.Input = t.Input ∧
      t1.NormalizedIntent = t.NormalizedIntent ∧ t1.UserID = t.UserID ∧
      t1.Channel = t.Channel ∧ t1.Role = t.Role ∧ t1.TargetAgent = t.TargetAgent ∧
      t1.PlanID = t.PlanID ∧ t1.CurrentStepID = t.CurrentStepID ∧
      t1.Artifacts = t.Artifacts ∧ t1.Metadata = t.Metadata ∧
      t1.UsageTokens = t.UsageTokens ∧ t1.CostEstimate = t.CostEstimate ∧
      (approved = true → t1.FinishedAt = t.FinishedAt) ∧
      w1.heap = w.heap ∧
      (∀ k : String, k ≠ taskID → mapGet w1.repo.tasks k = mapGet w.repo.tasks k) := by
  obtain ⟨t, ht, _, _, hget, _, _, _, hrepo, hheap, _⟩ :=
    HandleApproval_ok_inv env w taskID stepID approved userID w1 h
  obtain ⟨hkey, _⟩ := Reachable_stored_ID w.repo hreach taskID t hget
  refine ⟨t, decided t approved (env.clock w.clockCalls), hget, ?_, ?_⟩
  · rw [GetTask_ok_iff, hrepo, hkey]
    exact ⟨ht, mapGet_mapSet_same _ _ _⟩
  · cases approved
    · refine ⟨rfl, rfl, rfl, rfl, rfl, rfl, rfl, rfl, rfl, rfl, rfl, rfl, rfl, rfl, ?_, hheap, ?_⟩
      · intro hfalse
        cases hfalse
      · intro k hk
        rw [hrepo, hkey]
        exact mapGet_mapSet_other _ _ _ _ hk
    · refine ⟨rfl, rfl, rfl, rfl, rfl, rfl, rfl, rfl, rfl, rfl, rfl, rfl, rfl, rfl, ?_, hheap, ?_⟩
      · intro _
        rfl
      · intro k hk
        rw [hrepo, hkey]
        exact mapGet_mapSet_other _ _ _ _ hk

theorem HandleApproval_changes_only_witness :
    ∃ t t1, waitingWorld.repo.GetTask "t1" = .ok t ∧
      (HandleApproval sampleEnv waitingWorld "t1" "s2" true "user-42").2.repo.GetTask "t1" =
        .ok t1 ∧
      t1.ID = t.ID ∧ t1.CreatedAt = t.CreatedAt ∧ t1.Input = t.Input ∧
      t1.NormalizedIntent = t.NormalizedIntent ∧ t1.UserID = t.UserID ∧
      t1.Channel = t.Channel ∧ t1.Role = t.Role ∧ t1.TargetAgent = t.TargetAgent ∧
      t1.PlanID = t.PlanID ∧ t1.CurrentStepID = t.CurrentStepID ∧
      t1.Artifacts = t.Artifacts ∧ t1.Metadata = t.Metadata ∧
      t1.UsageTokens = t.UsageTokens ∧ t1.CostEstimate = t.CostEstimate ∧
      (true = true → t1.FinishedAt = t.FinishedAt) ∧
      (HandleApproval sampleEnv waitingWorld "t1" "s2" true "user-42").2.heap =
        waitingWorld.heap ∧
      (∀ k : String, k ≠ "t1" →
        mapGet (HandleApproval sampleEnv waitingWorld "t1" "s2" true "user-42").2.repo.tasks k =
          mapGet waitingWorld.repo.tasks k) :=
  HandleApproval_changes_only sampleEnv waitingWorld "t1" "s2" true "user-42" _
    (TaskRepository.Reachable.save NewTaskRepository (some waitingTask)
      TaskRepository.Reachable.new)
    (by rfl)

/-! ## StartTask and SaveTask as writes to the store -/

theorem mapSet_of_missing {β : Type} (m : List (String × β)) (k : String) (v : β)
    (h : mapGet m k = none) : mapSet m k v = m ++ [(k, v)] := by
  induction m with
  | nil => rfl
  | cons p rest ih =>
    obtain ⟨k0, x⟩ := p
    by_cases hk : k0 = k
    · simp [mapGet, hk] at h
    · simp only [mapGet, hk, if_false] at h
      simp [mapSet, hk, ih h]

/-- C29, counterexample: the empty string is not a key of the store of `doneWorld`, and
input and userID are non-empty; when the ID generator answers the empty string,
`StartTask` fails and the store is as before: it has gained no entry. -/
theorem StartTask_gains_no_entry_on_empty_ID :
    mapGet doneWorld.repo.tasks (emptyIdEnv.idGen doneWorld.idCalls) = none ∧
      (StartTask emptyIdEnv doneWorld "book a flight" "user-42").1 =
        .error (.startSaveFailed .saveEmptyID) ∧
      (StartTask emptyIdEnv doneWorld "book a flight" "user-42").2.repo = doneWorld.repo ∧
      (StartTask emptyIdEnv doneWorld "book a flight" "user-42").2.repo.tasks.length =
        doneWorld.repo.tasks.length := by
  rw [StartTask_save_fails emptyIdEnv doneWorld "book a flight" "user-42" (by decide)
    (by decide) (by rfl)]
  exact ⟨by rfl, rfl, rfl, rfl⟩

/-- C29, amended: `StartTask` never disturbs existing tasks. Provided the ID generator
answers an ID that is not already a key of the store, every task stored before a
`StartTask` call is still stored and unchanged after it; when the call succeeds the
store gains exactly one new entry, the returned task under its ID, and when the call
fails the store is as before. -/
theorem StartTask_adds_one_entry (env : Env) (w : World) (input userID : String)
    (hfresh : mapGet w.repo.tasks (env.idGen w.idCalls) = none) :
    (∀ (k : String) (t : Task), mapGet w.repo.tasks k = some t →
        mapGet (StartTask env w input userID).2.repo.tasks k = some t) ∧
      (∀ t : Task, (StartTask env w input userID).1 = .ok t →
        (StartTask env w input userID).2.repo.tasks = w.repo.tasks ++ [(t.ID, t)] ∧
          (StartTask env w input userID).2.repo.tasks.length = w.repo.tasks.length + 1) ∧
      (∀ e : EngineError, (StartTask env w input userID).1 = .error e →
        (StartTask env w input userID).2.repo = w.repo) := by
  refine ⟨?_, ?_, ?_⟩
  · intro k t hk
    have hne : k ≠ env.idGen w.idCalls := by
      intro h
      rw [h, hfresh] at hk
      cases hk
    rw [StartTask_frame env w input userID k hne]
    exact hk
  · intro t ht
    obtain ⟨hin, hu, hid, hnew, _⟩ :=
      StartTask_ok_inv env w input userID t (StartTask env w input userID).2 (by rw [← ht])
    subst hnew
    rw [StartTask_run env w input userID hin hu hid]
    have happ : mapSet w.repo.tasks (env.idGen w.idCalls) (newTask env w input userID) =
        w.repo.tasks ++ [(env.idGen w.idCalls, newTask env w input userID)] :=
      mapSet_of_missing _ _ _ hfresh
    refine ⟨happ, ?_⟩
    show (mapSet w.repo.tasks (env.idGen w.idCalls) (newTask env w input userID)).length = _
    rw [happ]
    simp
  · intro e he
    exact (StartTask_error_frame env w input userID e he).1

theorem StartTask_adds_one_entry_witness :
    (∀ (k : String) (t : Task), mapGet doneWorld.repo.tasks k = some t →
        mapGet (StartTask sampleEnv doneWorld "book a flight" "user-42").2.repo.tasks k =
          some t) ∧
      (∀ t : Task, (StartTask sampleEnv doneWorld "book a flight" "user-42").1 = .ok t →
        (StartTask sampleEnv doneWorld "book a flight" "user-42").2.repo.tasks =
            doneWorld.repo.tasks ++ [(t.ID, t)] ∧
          (StartTask sampleEnv doneWorld "book a flight" "user-42").2.repo.tasks.length =
            doneWorld.repo.tasks.length + 1) ∧
      (∀ e : EngineError,
        (StartTask sampleEnv doneWorld "book a flight" "user-42").1 = .error e →
          (StartTask sampleEnv doneWorld "book a flight" "user-42").2.repo = doneWorld.repo) :=
  StartTask_adds_one_entry sampleEnv doneWorld "book a flight" "user-42" (by rfl)

theorem GetTask_after_SaveTask_other (r : TaskRepository) (t : Task) (id : String)
    (hid : t.ID ≠ "") (hne : id ≠ t.ID) :
    (r.SaveTask (some t)).2.GetTask id = r.GetTask id := by
  rw [SaveTask_some_ok r t hid]
  unfold TaskRepository.GetTask
  rw [mapGet_mapSet_other _ _ _ _ hne]

/-- C30: `SaveTask` is an upsert keyed by the ID of the task. After a successful
`SaveTask t`, `GetTask t.ID` returns `t` whatever was stored under that ID before, the
result of `GetTask` for every other ID is as before, and every stored task is stored
under its own ID: this holds after the call if it held before, and it holds of every
repository that can exist at run time. -/
theorem SaveTask_upsert (r : TaskRepository) (t : Task)
    (hok : (r.SaveTask (some t)).1 = none) :
    (r.SaveTask (some t)).2.GetTask t.ID = .ok t ∧
      (∀ id : String, id ≠ t.ID → (r.SaveTask (some t)).2.GetTask id = r.GetTask id) ∧
      (r.Keyed → (r.SaveTask (some t)).2.Keyed) ∧
      (r.Reachable → (r.SaveTask (some t)).2.Keyed) := by
  have hid : t.ID ≠ "" := by
    intro h
    rw [SaveTask_some_empty r t h] at hok
    cases hok
  exact ⟨GetTask_after_SaveTask r t hid,
    fun id hne => GetTask_after_SaveTask_other r t id hid hne,
    fun hk => SaveTask_keyed r (some t) hk,
    fun hr => SaveTask_keyed r (some t) (Reachable_keyed r hr)⟩

theorem SaveTask_upsert_witness :
    (doneWorld.repo.SaveTask (some waitingTask)).2.GetTask waitingTask.ID = .ok waitingTask ∧
      (∀ id : String, id ≠ waitingTask.ID →
        (doneWorld.repo.SaveTask (some waitingTask)).2.GetTask id = doneWorld.repo.GetTask id) ∧
      (doneWorld.repo.Keyed → (doneWorld.repo.SaveTask (some waitingTask)).2.Keyed) ∧
      (doneWorld.repo.Reachable → (doneWorld.repo.SaveTask (some waitingTask)).2.Keyed) :=
  SaveTask_upsert doneWorld.repo waitingTask (by rfl)

/-! ## What the three Engine operations can reach -/

theorem EngineCall_run_keeps_NEW (env : Env) (w : World) (id : String) (call : EngineCall)
    (hk : w.repo.Keyed)
    (hnew : ∃ t, w.repo.GetTask id = .ok t ∧ t.Status = TaskStatusNew) :
    (call.run env w).repo.Keyed ∧
      ∃ t, (call.run env w).repo.GetTask id = .ok t ∧ t.Status = TaskStatusNew := by
  obtain ⟨t0, hget0, hst0⟩ := hnew
  cases call with
  | startTask input userID =>
    show (StartTask env w input userID).2.repo.Keyed ∧
      ∃ t, (StartTask env w input userID).2.repo.GetTask id = .ok t ∧ t.Status = TaskStatusNew
    rcases StartTask_repo_cases env w input userID with h | ⟨hid, _, h⟩
    · rw [h]
      exact ⟨hk, t0, hget0, hst0⟩
    · rw [h]
      refine ⟨SaveTask_keyed _ _ hk, ?_⟩
      by_cases hsame : id = (newTask env w input userID).ID
      · rw [hsame]
        exact ⟨_, GetTask_after_SaveTask _ _ hid, rfl⟩
      · rw [GetTask_after_SaveTask_other _ _ _ hid hsame]
        exact ⟨t0, hget0, hst0⟩
  | getTaskStatus taskID =>
    show (GetTaskStatus w taskID).2.repo.Keyed ∧
      ∃ t, (GetTaskStatus w taskID).2.repo.GetTask id = .ok t ∧ t.Status = TaskStatusNew
    rw [GetTaskStatus_world]
    exact ⟨hk, t0, hget0, hst0⟩
  | handleApproval taskID stepID approved userID =>
    show (HandleApproval env w taskID stepID approved userID).2.repo.Keyed ∧
      ∃ t, (HandleApproval env w taskID stepID approved userID).2.repo.GetTask id = .ok t ∧
        t.Status = TaskStatusNew
    rcases HandleApproval_repo_cases env w taskID stepID approved userID with h |
      ⟨t, hget, hst, hid, h⟩
    · rw [h]
      exact ⟨hk, t0, hget0, hst0⟩
    · rw [h]
      refine ⟨SaveTask_keyed _ _ hk, ?_⟩
      have hkey : t.ID = taskID := hk taskID t ((GetTask_ok_iff _ _ _).1 hget).2
      have hne : id ≠ (decided t approved (env.clock w.clockCalls)).ID := by
        rw [decided_ID, hkey]
        intro hsame
        subst hsame
        rw [hget0] at hget
        cases hget
        rw [hst0] at hst
        exact absurd hst (by decide)
      have hid2 : (decided t approved (env.clock w.clockCalls)).ID ≠ "" := by
        rw [decided_ID]
        exact hid
      rw [GetTask_after_SaveTask_other _ _ _ hid2 hne]
      exact ⟨t0, hget0, hst0⟩

theorem runCalls_keeps_NEW (env : Env) (id : String) (calls : List EngineCall) :
    ∀ w : World, w.repo.Keyed →
      (∃ t, w.repo.GetTask id = .ok t ∧ t.Status = TaskStatusNew) →
      ∃ t, (runCalls env w calls).repo.GetTask id = .ok t ∧ t.Status = TaskStatusNew := by
  induction calls with
  | nil =>
    intro w _ hnew
    exact hnew
  | cons call rest ih =>
    intro w hk hnew
    obtain ⟨hk1, hnew1⟩ := EngineCall_run_keeps_NEW env w id call hk hnew
    exact ih (call.run env w) hk1 hnew1

theorem startedWorld_repo :
    startedWorld.repo =
      (NewTaskRepository.SaveTask
        (some (newTask sampleEnv emptyWorld "book a flight" "user-42"))).2 := by
  rfl

/-- C25: the end-to-end scenario cannot be run on the engine as written. The task `id-0`
created by `StartTask "book a flight" "user-42"` on a fresh engine is in status NEW, and
there is no environment and no sequence of Engine calls (`StartTask`, `GetTaskStatus`,
`HandleApproval`, any arguments) after which the task stored under `id-0` has another
status: PLANNING, EXECUTING and WAITING_APPROVAL are never reached, because no Engine
operation calls the planner or the executor the service is built with. -/
theorem started_task_never_leaves_NEW :
    (∃ t, startedWorld.repo.GetTask "id-0" = .ok t ∧ t.Status = TaskStatusNew) ∧
      ¬ ∃ (env : Env) (calls : List EngineCall) (t : Task),
        (runCalls env startedWorld calls).repo.GetTask "id-0" = .ok t ∧
          t.Status ≠ TaskStatusNew := by
  have hstart : ∃ t, startedWorld.repo.GetTask "id-0" = .ok t ∧ t.Status = TaskStatusNew :=
    ⟨newTask sampleEnv emptyWorld "book a flight" "user-42", by rfl, rfl⟩
  have hk : startedWorld.repo.Keyed := by
    rw [startedWorld_repo]
    exact SaveTask_keyed _ _ (Reachable_keyed _ TaskRepository.Reachable.new)
  refine ⟨hstart, ?_⟩
  rintro ⟨env, calls, t, hget, hst⟩
  obtain ⟨t2, hget2, hst2⟩ := runCalls_keeps_NEW env "id-0" calls startedWorld hk hstart
  rw [hget] at hget2
  cases hget2
  exact hst hst2

/-- What the three Engine operations do reach, for any engine and any created task:
only the last leg of the end-to-end scenario. A task created by `StartTask` stays in
status NEW under every sequence of
`StartTask`, `GetTaskStatus` and `HandleApproval` calls: no Engine operation advances a
task to PLANNING, EXECUTING or WAITING_APPROVAL. For a task that is stored in
WAITING_APPROVAL with CurrentStepID set to a step, `HandleApproval` with that step and
`approved = true` moves it to EXECUTING. The repository in which the task is created is
any one that can exist at run time (`hreach`). -/
theorem engine_reaches_only_last_leg (env : Env) (w : World) (input userID : String)
    (t : Task) (w1 : World) (hreach : w.repo.Reachable)
    (hstart : StartTask env w input userID = (.ok t, w1)) :
    t.Status = TaskStatusNew ∧
      (∀ (env2 : Env) (calls : List EngineCall),
        ∃ t2, (runCalls env2 w1 calls).repo.GetTask t.ID = .ok t2 ∧
          t2.Status = TaskStatusNew) ∧
      (∀ (env2 : Env) (w2 : World) (t2 : Task) (stepID approver : String),
        w2.repo.GetTask t2.ID = .ok t2 → t2.Status = TaskStatusWaitingApproval →
        t2.CurrentStepID = stepID → stepID ≠ "" → approver ≠ "" →
        ∃ w3 t3, HandleApproval env2 w2 t2.ID stepID true approver = (none, w3) ∧
          w3.repo.GetTask t2.ID = .ok t3 ∧ t3.Status = TaskStatusExecuting) := by
  obtain ⟨hin, hu, hid, ht, hw⟩ := StartTask_ok_inv env w input userID t w1 hstart
  subst ht
  have hnewid : (newTask env w input userID).ID ≠ "" := hid
  have hrepo : w1.repo = (w.repo.SaveTask (some (newTask env w input userID))).2 := by
    rw [hw, StartTask_run env w input userID hin hu hid, SaveTask_some_ok _ _ hnewid]
    rfl
  refine ⟨rfl, ?_, ?_⟩
  · intro env2 calls
    refine runCalls_keeps_NEW env2 _ calls w1 ?_ ?_
    · rw [hrepo]
      exact SaveTask_keyed _ _ (Reachable_keyed _ hreach)
    · rw [hrepo]
      exact ⟨_, GetTask_after_SaveTask _ _ hnewid, rfl⟩
  · intro env2 w2 t2 stepID approver hstored hst hstep hs hu2
    obtain ⟨w3, hrun, hget⟩ :=
      HandleApproval_stored_after env2 w2 stepID true approver t2 hstored hst hstep hs hu2
    exact ⟨w3, _, hrun, hget, rfl⟩

theorem engine_reaches_only_last_leg_witness :
    (newTask sampleEnv emptyWorld "book a flight" "user-42").Status = TaskStatusNew ∧
      (∀ (env2 : Env) (calls : List EngineCall),
        ∃ t2, (runCalls env2 (StartTask sampleEnv emptyWorld "book a flight" "user-42").2
            calls).repo.GetTask (newTask sampleEnv emptyWorld "book a flight" "user-42").ID =
              .ok t2 ∧
          t2.Status = TaskStatusNew) ∧
      (∀ (env2 : Env) (w2 : World) (t2 : Task) (stepID approver : String),
        w2.repo.GetTask t2.ID = .ok t2 → t2.Status = TaskStatusWaitingApproval →
        t2.CurrentStepID = stepID → stepID ≠ "" → approver ≠ "" →
        ∃ w3 t3, HandleApproval env2 w2 t2.ID stepID true approver = (none, w3) ∧
          w3.repo.GetTask t2.ID = .ok t3 ∧ t3.Status = TaskStatusExecuting) :=
  engine_reaches_only_last_leg sampleEnv emptyWorld "book a flight" "user-42" _ _
    TaskRepository.Reachable.new
    (StartTask_run sampleEnv emptyWorld "book a flight" "user-42" (by decide) (by decide)
      (by decide))

/-- C26, failing input: `StartTask "book a flight" "user-42"` on a fresh engine succeeds
and returns a task in status NEW whose PlanID and CurrentStepID are empty: no plan is
linked to it. `StartTask` has no call to the planner at all, so its embedding has no
planner to consult. -/
theorem StartTask_links_no_plan :
    ∃ t w1, StartTask sampleEnv emptyWorld "book a flight" "user-42" = (.ok t, w1) ∧
      t.Status = TaskStatusNew ∧ t.PlanID = "" ∧ t.CurrentStepID = "" ∧
      w1.repo.GetTask t.ID = .ok t :=
  ⟨_, _, StartTask_run sampleEnv emptyWorld "book a flight" "user-42" (by decide) (by decide)
      (by decide), rfl, rfl, rfl, by rfl⟩

/-! ## Configuration -/

theorem validLevels_lookup (level : String) :
    (mapGet validLevels level).getD false = true ↔
      level = "debug" ∨ level = "info" ∨ level = "warn" ∨ level = "error" := by
  unfold validLevels
  by_cases h1 : "debug" = level
  · subst h1
    simp [mapGet]
  by_cases h2 : "info" = level
  · subst h2
    simp [mapGet]
  by_cases h3 : "warn" = level
  · subst h3
    simp [mapGet]
  by_cases h4 : "error" = level
  · subst h4
    simp [mapGet]
  have e1 : ¬ level = "debug" := fun h => h1 h.symm
  have e2 : ¬ level = "info" := fun h => h2 h.symm
  have e3 : ¬ level = "warn" := fun h => h3 h.symm
  have e4 : ¬ level = "error" := fun h => h4 h.symm
  simp [mapGet, h1, h2, h3, h4, e1, e2, e3, e4]

theorem Validate_none_iff (c : Config) :
    Validate c = none ↔
      (1 ≤ c.ServerPort ∧ c.ServerPort ≤ 65535) ∧ c.ServerHost ≠ "" ∧
        Second ≤ c.RequestTimeout ∧ Second ≤ c.IdleTimeout ∧ Second ≤ c.LLMTimeout ∧
        1024 ≤ c.MaxBodySize ∧ 1024 ≤ c.MaxFileUploadSize ∧
        (c.LogLevel = "debug" ∨ c.LogLevel = "info" ∨ c.LogLevel = "warn" ∨
          c.LogLevel = "error") ∧
        0 ≤ c.LLMMaxRetries := by
  rw [← validLevels_lookup]
  unfold Validate
  constructor
  · intro h
    split at h
    · cases h
    split at h
    · cases h
    split at h
    · cases h
    split at h
    · cases h
    split at h
    · cases h
    split at h
    · cases h
    split at h
    · cases h
    split at h
    · cases h
    split at h
    · cases h
    rename_i h1 h2 h3 h4 h5 h6 h7 h8 h9
    refine ⟨⟨by omega, by omega⟩, h2, Int.not_lt.1 h3, Int.not_lt.1 h4, Int.not_lt.1 h8,
      by omega, by omega, ?_, by omega⟩
    exact Classical.not_not.1 h7
  · rintro ⟨⟨h1, h1b⟩, h2, h3, h4, h8, h5, h6, h7, h9⟩
    have p1 : ¬ (c.ServerPort < 1 ∨ c.ServerPort > 65535) := by omega
    have p3 : ¬ c.RequestTimeout < Second := Int.not_lt.2 h3
    have p4 : ¬ c.IdleTimeout < Second := Int.not_lt.2 h4
    have p5 : ¬ c.MaxBodySize < 1024 := by omega
    have p6 : ¬ c.MaxFileUploadSize < 1024 := by omega
    have p8 : ¬ c.LLMTimeout < Second := Int.not_lt.2 h8
    have p9 : ¬ c.LLMMaxRetries < 0 := by omega
    simp only [p1, h2, p3, p4, p5, p6, h7, p8, p9, if_false, not_true_eq_false]

/-- C31: `Validate` returns nil if and only if 1 <= ServerPort <= 65535, ServerHost is
non-empty, RequestTimeout, IdleTimeout and LLMTimeout are each at least one second,
MaxBodySize and MaxFileUploadSize are each at least 1024, LogLevel is one of debug, info,
warn, error, and LLMMaxRetries is non-negative; otherwise it returns an error. -/
theorem Validate_nil_iff (c : Config) :
    (Validate c = none ↔
      (1 ≤ c.ServerPort ∧ c.ServerPort ≤ 65535) ∧ c.ServerHost ≠ "" ∧
        Second ≤ c.RequestTimeout ∧ Second ≤ c.IdleTimeout ∧ Second ≤ c.LLMTimeout ∧
        1024 ≤ c.MaxBodySize ∧ 1024 ≤ c.MaxFileUploadSize ∧
        (c.LogLevel = "debug" ∨ c.LogLevel = "info" ∨ c.LogLevel = "warn" ∨
          c.LogLevel = "error") ∧
        0 ≤ c.LLMMaxRetries) ∧
      (¬ ((1 ≤ c.ServerPort ∧ c.ServerPort ≤ 65535) ∧ c.ServerHost ≠ "" ∧
          Second ≤ c.RequestTimeout ∧ Second ≤ c.IdleTimeout ∧ Second ≤ c.LLMTimeout ∧
          1024 ≤ c.MaxBodySize ∧ 1024 ≤ c.MaxFileUploadSize ∧
          (c.LogLevel = "debug" ∨ c.LogLevel = "info" ∨ c.LogLevel = "warn" ∨
            c.LogLevel = "error") ∧
          0 ≤ c.LLMMaxRetries) →
        ∃ err, Validate c = some err) := by
  refine ⟨Validate_none_iff c, ?_⟩
  intro hbad
  cases hv : Validate c with
  | none => exact absurd ((Validate_none_iff c).1 hv) hbad
  | some err => exact ⟨err, rfl⟩

/-- C32: the default configuration is valid and has its documented values:
`Validate` returns nil on `NewDefaultConfig`, whose ServerPort is 8080, ServerHost
`0.0.0.0`, RequestTimeout 30 s, IdleTimeout 60 s, MaxBodySize 10 MiB, MaxFileUploadSize
50 MiB, LogLevel `info`, EnableMetrics false, LLMTimeout 60 s and LLMMaxRetries 3. -/
theorem NewDefaultConfig_valid :
    Validate NewDefaultConfig = none ∧
      NewDefaultConfig.ServerPort = 8080 ∧ NewDefaultConfig.ServerHost = "0.0.0.0" ∧
      NewDefaultConfig.RequestTimeout = 30 * Second ∧
      NewDefaultConfig.IdleTimeout = 60 * Second ∧
      NewDefaultConfig.MaxBodySize = 10 * (1024 * 1024) ∧
      NewDefaultConfig.MaxFileUploadSize = 50 * (1024 * 1024) ∧
      NewDefaultConfig.LogLevel = "info" ∧ NewDefaultConfig.EnableMetrics = false ∧
      NewDefaultConfig.LLMTimeout = 60 * Second ∧ NewDefaultConfig.LLMMaxRetries = 3 ∧
      Second = 1000000000 := by
  refine ⟨by decide, rfl, rfl, rfl, rfl, by decide, by decide, rfl, rfl, rfl, rfl, rfl⟩

/-! ## LoadFromEnv, block by block -/

theorem loadServerPort_ok (getenv : String → String) (cfg cfg1 : Config)
    (h : loadServerPort getenv cfg = .ok cfg1) :
    ∃ v, cfg1 = { cfg with ServerPort := v } ∧
      (getenv "SERVER_PORT" = "" → v = cfg.ServerPort) ∧
      (getenv "SERVER_PORT" ≠ "" → Atoi (getenv "SERVER_PORT") = .ok v) := by
  unfold loadServerPort at h
  by_cases hset : getenv "SERVER_PORT" = ""
  · simp only [hset, ne_eq, not_true_eq_false, if_false] at h
    cases h
    exact ⟨cfg.ServerPort, rfl, fun _ => rfl, fun hne => absurd hset hne⟩
  · simp only [hset, ne_eq, not_false_eq_true, if_true] at h
    cases hp : Atoi (getenv "SERVER_PORT") with
    | error err =>
      rw [hp] at h
      cases h
    | ok v =>
      rw [hp] at h
      cases h
      exact ⟨v, rfl, fun hu => absurd hu hset, fun _ => rfl⟩

theorem loadRequestTimeout_ok (lib : Stdlib) (getenv : String → String) (cfg cfg1 : Config)
    (h : loadRequestTimeout lib getenv cfg = .ok cfg1) :
    ∃ v, cfg1 = { cfg with RequestTimeout := v } ∧
      (getenv "REQUEST_TIMEOUT" = "" → v = cfg.RequestTimeout) ∧
      (getenv "REQUEST_TIMEOUT" ≠ "" → lib.ParseDuration (getenv "REQUEST_TIMEOUT") = .ok v) := by
  unfold loadRequestTimeout at h
  by_cases hset : getenv "REQUEST_TIMEOUT" = ""
  · simp only [hset, ne_eq, not_true_eq_false, if_false] at h
    cases h
    exact ⟨cfg.RequestTimeout, rfl, fun _ => rfl, fun hne => absurd hset hne⟩
  · simp only [hset, ne_eq, not_false_eq_true, if_true] at h
    cases hp : lib.ParseDuration (getenv "REQUEST_TIMEOUT") with
    | error err =>
      rw [hp] at h
      cases h
    | ok v =>
      rw [hp] at h
      cases h
      exact ⟨v, rfl, fun hu => absurd hu hset, fun _ => rfl⟩

theorem loadIdleTimeout_ok (lib : Stdlib) (getenv : String → String) (cfg cfg1 : Config)
    (h : loadIdleTimeout lib getenv cfg = .ok cfg1) :
    ∃ v, cfg1 = { cfg with IdleTimeout := v } ∧
      (getenv "IDLE_TIMEOUT" = "" → v = cfg.IdleTimeout) ∧
      (getenv "IDLE_TIMEOUT" ≠ "" → lib.ParseDuration (getenv "IDLE_TIMEOUT") = .ok v) := by
  unfold loadIdleTimeout at h
  by_cases hset : getenv "IDLE_TIMEOUT" = ""
  · simp only [hset, ne_eq, not_true_eq_false, if_false] at h
    cases h
    exact ⟨cfg.IdleTimeout, rfl, fun _ => rfl, fun hne => absurd hset hne⟩
  · simp only [hset, ne_eq, not_false_eq_true, if_true] at h
    cases hp : lib.ParseDuration (getenv "IDLE_TIMEOUT") with
    | error err =>
      rw [hp] at h
      cases h
    | ok v =>
      rw [hp] at h
      cases h
      exact ⟨v, rfl, fun hu => absurd hu hset, fun _ => rfl⟩

theorem loadMaxBodySize_ok (getenv : String → String) (cfg cfg1 : Config)
    (h : loadMaxBodySize getenv cfg = .ok cfg1) :
    ∃ v, cfg1 = { cfg with MaxBodySize := v } ∧
      (getenv "MAX_BODY_SIZE" = "" → v = cfg.MaxBodySize) ∧
      (getenv "MAX_BODY_SIZE" ≠ "" → ParseInt64 (getenv "MAX_BODY_SIZE") = .ok v) := by
  unfold loadMaxBodySize at h
  by_cases hset : getenv "MAX_BODY_SIZE" = ""
  · simp only [hset, ne_eq, not_true_eq_false, if_false] at h
    cases h
    exact ⟨cfg.MaxBodySize, rfl, fun _ => rfl, fun hne => absurd hset hne⟩
  · simp only [hset, ne_eq, not_false_eq_true, if_true] at h
    cases hp : ParseInt64 (getenv "MAX_BODY_SIZE") with
    | error err =>
      rw [hp] at h
      cases h
    | ok v =>
      rw [hp] at h
      cases h
      exact ⟨v, rfl, fun hu => absurd hu hset, fun _ => rfl⟩

theorem loadMaxFileSize_ok (getenv : String → String) (cfg cfg1 : Config)
    (h : loadMaxFileSize getenv cfg = .ok cfg1) :
    ∃ v, cfg1 = { cfg with MaxFileUploadSize := v } ∧
      (getenv "MAX_FILE_SIZE" = "" → v = cfg.MaxFileUploadSize) ∧
      (getenv "MAX_FILE_SIZE" ≠ "" → ParseInt64 (getenv "MAX_FILE_SIZE") = .ok v) := by
  unfold loadMaxFileSize at h
  by_cases hset : getenv "MAX_FILE_SIZE" = ""
  · simp only [hset, ne_eq, not_true_eq_false, if_false] at h
    cases h
    exact ⟨cfg.MaxFileUploadSize, rfl, fun _ => rfl, fun hne => absurd hset hne⟩
  · simp only [hset, ne_eq, not_false_eq_true, if_true] at h
    cases hp : ParseInt64 (getenv "MAX_FILE_SIZE") with
    | error err =>
      rw [hp] at h
      cases h
    | ok v =>
      rw [hp] at h
      cases h
      exact ⟨v, rfl, fun hu => absurd hu hset, fun _ => rfl⟩

theorem loadLLMTimeout_ok (lib : Stdlib) (getenv : String → String) (cfg cfg1 : Config)
    (h : loadLLMTimeout lib getenv cfg = .ok cfg1) :
    ∃ v, cfg1 = { cfg with LLMTimeout := v } ∧
      (getenv "LLM_TIMEOUT" = "" → v = cfg.LLMTimeout) ∧
      (getenv "LLM_TIMEOUT" ≠ "" → lib.ParseDuration (getenv "LLM_TIMEOUT") = .ok v) := by
  unfold loadLLMTimeout at h
  by_cases hset : getenv "LLM_TIMEOUT" = ""
  · simp only [hset, ne_eq, not_true_eq_false, if_false] at h
    cases h
    exact ⟨cfg.LLMTimeout, rfl, fun _ => rfl, fun hne => absurd hset hne⟩
  · simp only [hset, ne_eq, not_false_eq_true, if_true] at h
    cases hp : lib.ParseDuration (getenv "LLM_TIMEOUT") with
    | error err =>
      rw [hp] at h
      cases h
    | ok v =>
      rw [hp] at h
      cases h
      exact ⟨v, rfl, fun hu => absurd hu hset, fun _ => rfl⟩

theorem loadLLMMaxRetries_ok (getenv : String → String) (cfg cfg1 : Config)
    (h : loadLLMMaxRetries getenv cfg = .ok cfg1) :
    ∃ v, cfg1 = { cfg with LLMMaxRetries := v } ∧
      (getenv "LLM_MAX_RETRIES" = "" → v = cfg.LLMMaxRetries) ∧
      (getenv "LLM_MAX_RETRIES" ≠ "" → Atoi (getenv "LLM_MAX_RETRIES") = .ok v) := by
  unfold loadLLMMaxRetries at h
  by_cases hset : getenv "LLM_MAX_RETRIES" = ""
  · simp only [hset, ne_eq, not_true_eq_false, if_false] at h
    cases h
    exact ⟨cfg.LLMMaxRetries, rfl, fun _ => rfl, fun hne => absurd hset hne⟩
  · simp only [hset, ne_eq, not_false_eq_true, if_true] at h
    cases hp : Atoi (getenv "LLM_MAX_RETRIES") with
    | error err =>
      rw [hp] at h
      cases h
    | ok v =>
      rw [hp] at h
      cases h
      exact ⟨v, rfl, fun hu => absurd hu hset, fun _ => rfl⟩

theorem loadServerHost_eq (getenv : String → String) (cfg : Config) :
    ∃ v, loadServerHost getenv cfg = { cfg with ServerHost := v } ∧
      (getenv "SERVER_HOST" = "" → v = cfg.ServerHost) ∧
      (getenv "SERVER_HOST" ≠ "" → v = getenv "SERVER_HOST") := by
  unfold loadServerHost
  by_cases hset : getenv "SERVER_HOST" = ""
  · refine ⟨cfg.ServerHost, ?_, fun _ => rfl, fun hne => absurd hset hne⟩
    rw [if_neg (fun hne => hne hset)]
  · refine ⟨_, ?_, fun hu => absurd hu hset, fun _ => rfl⟩
    rw [if_pos hset]

theorem loadAllowedMimes_eq (lib : Stdlib) (getenv : String → String) (cfg : Config) :
    ∃ v, loadAllowedMimes lib getenv cfg = { cfg with AllowedMIMETypes := v } ∧
      (getenv "ALLOWED_MIMES" = "" → v = cfg.AllowedMIMETypes) ∧
      (getenv "ALLOWED_MIMES" ≠ "" → v = (lib.Split (getenv "ALLOWED_MIMES") ",").map lib.TrimSpace) := by
  unfold loadAllowedMimes
  by_cases hset : getenv "ALLOWED_MIMES" = ""
  · refine ⟨cfg.AllowedMIMETypes, ?_, fun _ => rfl, fun hne => absurd hset hne⟩
    rw [if_neg (fun hne => hne hset)]
  · refine ⟨_, ?_, fun hu => absurd hu hset, fun _ => rfl⟩
    rw [if_pos hset]

theorem loadLogLevel_eq (getenv : String → String) (cfg : Config) :
    ∃ v, loadLogLevel getenv cfg = { cfg with LogLevel := v } ∧
      (getenv "LOG_LEVEL" = "" → v = cfg.LogLevel) ∧
      (getenv "LOG_LEVEL" ≠ "" → v = getenv "LOG_LEVEL") := by
  unfold loadLogLevel
  by_cases hset : getenv "LOG_LEVEL" = ""
  · refine ⟨cfg.LogLevel, ?_, fun _ => rfl, fun hne => absurd hset hne⟩
    rw [if_neg (fun hne => hne hset)]
  · refine ⟨_, ?_, fun hu => absurd hu hset, fun _ => rfl⟩
    rw [if_pos hset]

theorem loadEnableMetrics_eq (getenv : String → String) (cfg : Config) :
    ∃ v, loadEnableMetrics getenv cfg = { cfg with EnableMetrics := v } ∧
      (getenv "ENABLE_METRICS" = "" → v = cfg.EnableMetrics) ∧
      (getenv "ENABLE_METRICS" ≠ "" → v = (decide (getenv "ENABLE_METRICS" = "true") || decide (getenv "ENABLE_METRICS" = "1"))) := by
  unfold loadEnableMetrics
  by_cases hset : getenv "ENABLE_METRICS" = ""
  · refine ⟨cfg.EnableMetrics, ?_, fun _ => rfl, fun hne => absurd hset hne⟩
    rw [if_neg (fun hne => hne hset)]
  · refine ⟨_, ?_, fun hu => absurd hu hset, fun _ => rfl⟩
    rw [if_pos hset]

theorem loadOpenAIKey_eq (getenv : String → String) (cfg : Config) :
    ∃ v, loadOpenAIKey getenv cfg = { cfg with OpenAIAPIKey := v } ∧
      (getenv "OPENAI_API_KEY" = "" → v = cfg.OpenAIAPIKey) ∧
      (getenv "OPENAI_API_KEY" ≠ "" → v = getenv "OPENAI_API_KEY") := by
  unfold loadOpenAIKey
  by_cases hset : getenv "OPENAI_API_KEY" = ""
  · refine ⟨cfg.OpenAIAPIKey, ?_, fun _ => rfl, fun hne => absurd hset hne⟩
    rw [if_neg (fun hne => hne hset)]
  · refine ⟨_, ?_, fun hu => absurd hu hset, fun _ => rfl⟩
    rw [if_pos hset]

theorem loadAnthropicKey_eq (getenv : String → String) (cfg : Config) :
    ∃ v, loadAnthropicKey getenv cfg = { cfg with AnthropicAPIKey := v } ∧
      (getenv "ANTHROPIC_API_KEY" = "" → v = cfg.AnthropicAPIKey) ∧
      (getenv "ANTHROPIC_API_KEY" ≠ "" → v = getenv "ANTHROPIC_API_KEY") := by
  unfold loadAnthropicKey
  by_cases hset : getenv "ANTHROPIC_API_KEY" = ""
  · refine ⟨cfg.AnthropicAPIKey, ?_, fun _ => rfl, fun hne => absurd hset hne⟩
    rw [if_neg (fun hne => hne hset)]
  · refine ⟨_, ?_, fun hu => absurd hu hset, fun _ => rfl⟩
    rw [if_pos hset]

theorem loadDefaultModel_eq (getenv : String → String) (cfg : Config) :
    ∃ v, loadDefaultModel getenv cfg = { cfg with DefaultLLMModel := v } ∧
      (getenv "DEFAULT_LLM_MODEL" = "" → v = cfg.DefaultLLMModel) ∧
      (getenv "DEFAULT_LLM_MODEL" ≠ "" → v = getenv "DEFAULT_LLM_MODEL") := by
  unfold loadDefaultModel
  by_cases hset : getenv "DEFAULT_LLM_MODEL" = ""
  · refine ⟨cfg.DefaultLLMModel, ?_, fun _ => rfl, fun hne => absurd hset hne⟩
    rw [if_neg (fun hne => hne hset)]
  · refine ⟨_, ?_, fun hu => absurd hu hset, fun _ => rfl⟩
    rw [if_pos hset]

theorem LoadFromEnv_ok (lib : Stdlib) (getenv : String → String) (cfg : Config)
    (h : LoadFromEnv lib getenv = .ok cfg) :
    Validate cfg = none ∧
      (getenv "SERVER_PORT" = "" → cfg.ServerPort = NewDefaultConfig.ServerPort) ∧
      (getenv "SERVER_HOST" = "" → cfg.ServerHost = NewDefaultConfig.ServerHost) ∧
      (getenv "REQUEST_TIMEOUT" = "" → cfg.RequestTimeout = NewDefaultConfig.RequestTimeout) ∧
      (getenv "IDLE_TIMEOUT" = "" → cfg.IdleTimeout = NewDefaultConfig.IdleTimeout) ∧
      (getenv "MAX_BODY_SIZE" = "" → cfg.MaxBodySize = NewDefaultConfig.MaxBodySize) ∧
      (getenv "MAX_FILE_SIZE" = "" →
        cfg.MaxFileUploadSize = NewDefaultConfig.MaxFileUploadSize) ∧
      (getenv "ALLOWED_MIMES" = "" →
        cfg.AllowedMIMETypes = NewDefaultConfig.AllowedMIMETypes) ∧
      (getenv "LOG_LEVEL" = "" → cfg.LogLevel = NewDefaultConfig.LogLevel) ∧
      (getenv "ENABLE_METRICS" = "" → cfg.EnableMetrics = NewDefaultConfig.EnableMetrics) ∧
      (getenv "OPENAI_API_KEY" = "" → cfg.OpenAIAPIKey = NewDefaultConfig.OpenAIAPIKey) ∧
      (getenv "ANTHROPIC_API_KEY" = "" →
        cfg.AnthropicAPIKey = NewDefaultConfig.AnthropicAPIKey) ∧
      (getenv "DEFAULT_LLM_MODEL" = "" →
        cfg.DefaultLLMModel = NewDefaultConfig.DefaultLLMModel) ∧
      (getenv "LLM_TIMEOUT" = "" → cfg.LLMTimeout = NewDefaultConfig.LLMTimeout) ∧
      (getenv "LLM_MAX_RETRIES" = "" → cfg.LLMMaxRetries = NewDefaultConfig.LLMMaxRetries) ∧
      (getenv "SERVER_PORT" ≠ "" → Atoi (getenv "SERVER_PORT") = .ok cfg.ServerPort) ∧
      (getenv "REQUEST_TIMEOUT" ≠ "" →
        lib.ParseDuration (getenv "REQUEST_TIMEOUT") = .ok cfg.RequestTimeout) ∧
      (getenv "IDLE_TIMEOUT" ≠ "" →
        lib.ParseDuration (getenv "IDLE_TIMEOUT") = .ok cfg.IdleTimeout) ∧
      (getenv "MAX_BODY_SIZE" ≠ "" →
        ParseInt64 (getenv "MAX_BODY_SIZE") = .ok cfg.MaxBodySize) ∧
      (getenv "MAX_FILE_SIZE" ≠ "" →
        ParseInt64 (getenv "MAX_FILE_SIZE") = .ok cfg.MaxFileUploadSize) ∧
      (getenv "LLM_TIMEOUT" ≠ "" →
        lib.ParseDuration (getenv "LLM_TIMEOUT") = .ok cfg.LLMTimeout) ∧
      (getenv "LLM_MAX_RETRIES" ≠ "" →
        Atoi (getenv "LLM_MAX_RETRIES") = .ok cfg.LLMMaxRetries) ∧
      (getenv "SERVER_HOST" ≠ "" → cfg.ServerHost = getenv "SERVER_HOST") ∧
      (getenv "LOG_LEVEL" ≠ "" → cfg.LogLevel = getenv "LOG_LEVEL") := by
  unfold LoadFromEnv at h
  cases h1 : loadServerPort getenv NewDefaultConfig with
  | error err => rw [h1] at h; cases h
  | ok c1 =>
  rw [h1] at h
  obtain ⟨v1, e1, u1, p1⟩ := loadServerPort_ok getenv _ _ h1
  subst e1
  obtain ⟨v2, e2, u2, p2⟩ := loadServerHost_eq getenv { NewDefaultConfig with ServerPort := v1 }
  simp only [e2] at h
  cases h3 : loadRequestTimeout lib getenv
      { { NewDefaultConfig with ServerPort := v1 } with ServerHost := v2 } with
  | error err => rw [h3] at h; cases h
  | ok c3 =>
  rw [h3] at h
  obtain ⟨v3, e3, u3, p3⟩ := loadRequestTimeout_ok lib getenv _ _ h3
  subst e3
  simp only at h
  cases h4 : loadIdleTimeout lib getenv
      { { { NewDefaultConfig with ServerPort := v1 } with ServerHost := v2 } with
        RequestTimeout := v3 } with
  | error err => rw [h4] at h; cases h
  | ok c4 =>
  rw [h4] at h
  obtain ⟨v4, e4, u4, p4⟩ := loadIdleTimeout_ok lib getenv _ _ h4
  subst e4
  simp only at h
  cases h5 : loadMaxBodySize getenv
      { { { { NewDefaultConfig with ServerPort := v1 } with ServerHost := v2 } with
        RequestTimeout := v3 } with IdleTimeout := v4 } with
  | error err => rw [h5] at h; cases h
  | ok c5 =>
  rw [h5] at h
  obtain ⟨v5, e5, u5, p5⟩ := loadMaxBodySize_ok getenv _ _ h5
  subst e5
  simp only at h
  cases h6 : loadMaxFileSize getenv
      { { { { { NewDefaultConfig with ServerPort := v1 } with ServerHost := v2 } with
        RequestTimeout := v3 } with IdleTimeout := v4 } with MaxBodySize := v5 } with
  | error err => rw [h6] at h; cases h
  | ok c6 =>
  rw [h6] at h
  obtain ⟨v6, e6, u6, p6⟩ := loadMaxFileSize_ok getenv _ _ h6
  subst e6
  simp only at h
  obtain ⟨v7, e7, u7, _⟩ := loadAllowedMimes_eq lib getenv
    { { { { { { NewDefaultConfig with ServerPort := v1 } with ServerHost := v2 } with
        RequestTimeout := v3 } with IdleTimeout := v4 } with MaxBodySize := v5 } with
        MaxFileUploadSize := v6 }
  simp only [e7] at h
  obtain ⟨v8, e8, u8, p8⟩ := loadLogLevel_eq getenv
    { { { { { { { NewDefaultConfig with ServerPort := v1 } with ServerHost := v2 } with
        RequestTimeout := v3 } with IdleTimeout := v4 } with MaxBodySize := v5 } with
        MaxFileUploadSize := v6 } with AllowedMIMETypes := v7 }
  simp only [e8] at h
  obtain ⟨v9, e9, u9, _⟩ := loadEnableMetrics_eq getenv
    { { { { { { { { NewDefaultConfig with ServerPort := v1 } with ServerHost := v2 } with
        RequestTimeout := v3 } with IdleTimeout := v4 } with MaxBodySize := v5 } with
        MaxFileUploadSize := v6 } with AllowedMIMETypes := v7 } with LogLevel := v8 }
  simp only [e9] at h
  obtain ⟨v10, e10, u10, _⟩ := loadOpenAIKey_eq getenv
    { { { { { { { { { NewDefaultConfig with ServerPort := v1 } with ServerHost := v2 } with
        RequestTimeout := v3 } with IdleTimeout := v4 } with MaxBodySize := v5 } with
        MaxFileUploadSize := v6 } with AllowedMIMETypes := v7 } with LogLevel := v8 } with
        EnableMetrics := v9 }
  simp only [e10] at h
  obtain ⟨v11, e11, u11, _⟩ := loadAnthropicKey_eq getenv
    { { { { { { { { { { NewDefaultConfig with ServerPort := v1 } with ServerHost := v2 } with
        RequestTimeout := v3 } with IdleTimeout := v4 } with MaxBodySize := v5 } with
        MaxFileUploadSize := v6 } with AllowedMIMETypes := v7 } with LogLevel := v8 } with
        EnableMetrics := v9 } with OpenAIAPIKey := v10 }
  simp only [e11] at h
  obtain ⟨v12, e12, u12, _⟩ := loadDefaultModel_eq getenv
    { { { { { { { { { { { NewDefaultConfig with ServerPort := v1 } with ServerHost := v2 } with
        RequestTimeout := v3 } with IdleTimeout := v4 } with MaxBodySize := v5 } with
        MaxFileUploadSize := v6 } with AllowedMIMETypes := v7 } with LogLevel := v8 } with
        EnableMetrics := v9 } with OpenAIAPIKey := v10 } with AnthropicAPIKey := v11 }
  simp only [e12] at h
  cases h13 : loadLLMTimeout lib getenv
    { { { { { { { { { { { { NewDefaultConfig with ServerPort := v1 } with ServerHost := v2 } with
        RequestTimeout := v3 } with IdleTimeout := v4 } with MaxBodySize := v5 } with
        MaxFileUploadSize := v6 } with AllowedMIMETypes := v7 } with LogLevel := v8 } with
        EnableMetrics := v9 } with OpenAIAPIKey := v10 } with AnthropicAPIKey := v11 } with
        DefaultLLMModel := v12 } with
  | error err => rw [h13] at h; cases h
  | ok c13 =>
  rw [h13] at h
  obtain ⟨v13, e13, u13, p13⟩ := loadLLMTimeout_ok lib getenv _ _ h13
  subst e13
  simp only at h
  cases h14 : loadLLMMaxRetries getenv
    { { { { { { { { { { { { { NewDefaultConfig with ServerPort := v1 } with ServerHost := v2 } with
        RequestTimeout := v3 } with IdleTimeout := v4 } with MaxBodySize := v5 } with
        MaxFileUploadSize := v6 } with AllowedMIMETypes := v7 } with LogLevel := v8 } with
        EnableMetrics := v9 } with OpenAIAPIKey := v10 } with AnthropicAPIKey := v11 } with
        DefaultLLMModel := v12 } with LLMTimeout := v13 } with
  | error err => rw [h14] at h; cases h
  | ok c14 =>
  rw [h14] at h
  obtain ⟨v14, e14, u14, p14⟩ := loadLLMMaxRetries_ok getenv _ _ h14
  subst e14
  simp only at h
  split at h
  · cases h
  · rename_i hv
    cases h
    exact ⟨hv, u1, u2, u3, u4, u5, u6, u7, u8, u9, u10, u11, u12, u13, u14, p1, p3, p4, p5, p6,
      p13, p14, p2, p8⟩

theorem LoadFromEnv_no_variables (lib : Stdlib) (getenv : String → String)
    (hunset : ∀ name, getenv name = "") : LoadFromEnv lib getenv = .ok NewDefaultConfig := by
  have hv : Validate NewDefaultConfig = none := by decide
  simp [LoadFromEnv, loadServerPort, loadServerHost, loadRequestTimeout, loadIdleTimeout,
    loadMaxBodySize, loadMaxFileSize, loadAllowedMimes, loadLogLevel, loadEnableMetrics,
    loadOpenAIKey, loadAnthropicKey, loadDefaultModel, loadLLMTimeout, loadLLMMaxRetries,
    hunset, hv]

theorem LoadFromEnv_fails_of (lib : Stdlib) (getenv : String → String)
    (h : ∀ cfg, LoadFromEnv lib getenv = .ok cfg → False) :
    ∃ err, LoadFromEnv lib getenv = .error err := by
  cases hres : LoadFromEnv lib getenv with
  | error err => exact ⟨err, rfl⟩
  | ok cfg => exact absurd hres (fun hok => h cfg hok)

theorem Atoi_zero : Atoi "0" = .ok 0 := by rfl

theorem Atoi_abc : Atoi "abc" = .error .badSyntax := by rfl

/-- The loop of `ParseUint` stops at the first failure: an overflow met before a bad
character is a range error, a bad character met first is a syntax error. -/
theorem ParseInt64_first_failure :
    ParseInt64 "99999999999999999999x" = .error .outOfRange ∧
      ParseInt64 "9x9999999999999999999" = .error .badSyntax := by
  exact ⟨by rfl, by rfl⟩

theorem ParseInt64_bounds :
    ParseInt64 "-9223372036854775808" = .ok (-9223372036854775808) ∧
      ParseInt64 "9223372036854775807" = .ok 9223372036854775807 ∧
      ParseInt64 "-9223372036854775809" = .error .outOfRange ∧
      ParseInt64 "9223372036854775808" = .error .outOfRange := by
  exact ⟨by rfl, by rfl, by rfl, by rfl⟩

/-- C33: for every environment (and whatever `ParseDuration`, `Split` and `TrimSpace`
compute), if `LoadFromEnv` succeeds then the configuration it returns passes `Validate`,
every setting whose variable is unset or empty has its `NewDefaultConfig` value, and
every other parsed setting is what its parser made of the variable; with no variable set
the result is `NewDefaultConfig`. A variable that is set to a value its parser rejects,
or to a value that `Validate` rejects as out of range, makes `LoadFromEnv` fail and
return no configuration, as `SERVER_PORT` set to `0` or to `abc` does. -/
theorem LoadFromEnv_contract (lib : Stdlib) (getenv : String → String) :
    (∀ cfg, LoadFromEnv lib getenv = .ok cfg →
      Validate cfg = none ∧
        (getenv "SERVER_PORT" = "" → cfg.ServerPort = NewDefaultConfig.ServerPort) ∧
        (getenv "SERVER_HOST" = "" → cfg.ServerHost = NewDefaultConfig.ServerHost) ∧
        (getenv "REQUEST_TIMEOUT" = "" → cfg.RequestTimeout = NewDefaultConfig.RequestTimeout) ∧
        (getenv "IDLE_TIMEOUT" = "" → cfg.IdleTimeout = NewDefaultConfig.IdleTimeout) ∧
        (getenv "MAX_BODY_SIZE" = "" → cfg.MaxBodySize = NewDefaultConfig.MaxBodySize) ∧
        (getenv "MAX_FILE_SIZE" = "" →
          cfg.MaxFileUploadSize = NewDefaultConfig.MaxFileUploadSize) ∧
        (getenv "ALLOWED_MIMES" = "" →
          cfg.AllowedMIMETypes = NewDefaultConfig.AllowedMIMETypes) ∧
        (getenv "LOG_LEVEL" = "" → cfg.LogLevel = NewDefaultConfig.LogLevel) ∧
        (getenv "ENABLE_METRICS" = "" → cfg.EnableMetrics = NewDefaultConfig.EnableMetrics) ∧
        (getenv "OPENAI_API_KEY" = "" → cfg.OpenAIAPIKey = NewDefaultConfig.OpenAIAPIKey) ∧
        (getenv "ANTHROPIC_API_KEY" = "" →
          cfg.AnthropicAPIKey = NewDefaultConfig.AnthropicAPIKey) ∧
        (getenv "DEFAULT_LLM_MODEL" = "" →
          cfg.DefaultLLMModel = NewDefaultConfig.DefaultLLMModel) ∧
        (getenv "LLM_TIMEOUT" = "" → cfg.LLMTimeout = NewDefaultConfig.LLMTimeout) ∧
        (getenv "LLM_MAX_RETRIES" = "" → cfg.LLMMaxRetries = NewDefaultConfig.LLMMaxRetries) ∧
        (getenv "SERVER_PORT" ≠ "" → Atoi (getenv "SERVER_PORT") = .ok cfg.ServerPort) ∧
        (getenv "REQUEST_TIMEOUT" ≠ "" →
          lib.ParseDuration (getenv "REQUEST_TIMEOUT") = .ok cfg.RequestTimeout) ∧
        (getenv "IDLE_TIMEOUT" ≠ "" →
          lib.ParseDuration (getenv "IDLE_TIMEOUT") = .ok cfg.IdleTimeout) ∧
        (getenv "MAX_BODY_SIZE" ≠ "" →
          ParseInt64 (getenv "MAX_BODY_SIZE") = .ok cfg.MaxBodySize) ∧
        (getenv "MAX_FILE_SIZE" ≠ "" →
          ParseInt64 (getenv "MAX_FILE_SIZE") = .ok cfg.MaxFileUploadSize) ∧
        (getenv "LLM_TIMEOUT" ≠ "" →
          lib.ParseDuration (getenv "LLM_TIMEOUT") = .ok cfg.LLMTimeout) ∧
        (getenv "LLM_MAX_RETRIES" ≠ "" →
          Atoi (getenv "LLM_MAX_RETRIES") = .ok cfg.LLMMaxRetries) ∧
        (getenv "SERVER_HOST" ≠ "" → cfg.ServerHost = getenv "SERVER_HOST") ∧
        (getenv "LOG_LEVEL" ≠ "" → cfg.LogLevel = getenv "LOG_LEVEL")) ∧
      ((∀ name, getenv name = "") → LoadFromEnv lib getenv = .ok NewDefaultConfig) ∧
      (∀ e, getenv "SERVER_PORT" ≠ "" → Atoi (getenv "SERVER_PORT") = .error e →
        ∃ err, LoadFromEnv lib getenv = .error err) ∧
      (∀ e, getenv "REQUEST_TIMEOUT" ≠ "" → lib.ParseDuration (getenv "REQUEST_TIMEOUT") = .error e →
        ∃ err, LoadFromEnv lib getenv = .error err) ∧
      (∀ e, getenv "IDLE_TIMEOUT" ≠ "" → lib.ParseDuration (getenv "IDLE_TIMEOUT") = .error e →
        ∃ err, LoadFromEnv lib getenv = .error err) ∧
      (∀ e, getenv "MAX_BODY_SIZE" ≠ "" → ParseInt64 (getenv "MAX_BODY_SIZE") = .error e →
        ∃ err, LoadFromEnv lib getenv = .error err) ∧
      (∀ e, getenv "MAX_FILE_SIZE" ≠ "" → ParseInt64 (getenv "MAX_FILE_SIZE") = .error e →
        ∃ err, LoadFromEnv lib getenv = .error err) ∧
      (∀ e, getenv "LLM_TIMEOUT" ≠ "" → lib.ParseDuration (getenv "LLM_TIMEOUT") = .error e →
        ∃ err, LoadFromEnv lib getenv = .error err) ∧
      (∀ e, getenv "LLM_MAX_RETRIES" ≠ "" → Atoi (getenv "LLM_MAX_RETRIES") = .error e →
        ∃ err, LoadFromEnv lib getenv = .error err) ∧
      (∀ p, getenv "SERVER_PORT" ≠ "" → Atoi (getenv "SERVER_PORT") = .ok p → (p < 1 ∨ 65535 < p) →
        ∃ err, LoadFromEnv lib getenv = .error err) ∧
      (∀ p, getenv "REQUEST_TIMEOUT" ≠ "" → lib.ParseDuration (getenv "REQUEST_TIMEOUT") = .ok p → p < Second →
        ∃ err, LoadFromEnv lib getenv = .error err) ∧
      (∀ p, getenv "IDLE_TIMEOUT" ≠ "" → lib.ParseDuration (getenv "IDLE_TIMEOUT") = .ok p → p < Second →
        ∃ err, LoadFromEnv lib getenv = .error err) ∧
      (∀ p, getenv "MAX_BODY_SIZE" ≠ "" → ParseInt64 (getenv "MAX_BODY_SIZE") = .ok p → p < 1024 →
        ∃ err, LoadFromEnv lib getenv = .error err) ∧
      (∀ p, getenv "MAX_FILE_SIZE" ≠ "" → ParseInt64 (getenv "MAX_FILE_SIZE") = .ok p → p < 1024 →
        ∃ err, LoadFromEnv lib getenv = .error err) ∧
      (∀ p, getenv "LLM_TIMEOUT" ≠ "" → lib.ParseDuration (getenv "LLM_TIMEOUT") = .ok p → p < Second →
        ∃ err, LoadFromEnv lib getenv = .error err) ∧
      (∀ p, getenv "LLM_MAX_RETRIES" ≠ "" → Atoi (getenv "LLM_MAX_RETRIES") = .ok p → p < 0 →
        ∃ err, LoadFromEnv lib getenv = .error err) ∧
      (getenv "LOG_LEVEL" ≠ "" →
        ¬ (getenv "LOG_LEVEL" = "debug" ∨ getenv "LOG_LEVEL" = "info" ∨
          getenv "LOG_LEVEL" = "warn" ∨ getenv "LOG_LEVEL" = "error") →
        ∃ err, LoadFromEnv lib getenv = .error err) ∧
      (getenv "SERVER_PORT" = "0" → ∃ err, LoadFromEnv lib getenv = .error err) ∧
      (getenv "SERVER_PORT" = "abc" → ∃ err, LoadFromEnv lib getenv = .error err) := by
  refine ⟨fun cfg h => LoadFromEnv_ok lib getenv cfg h,
    fun hunset => LoadFromEnv_no_variables lib getenv hunset, ?_⟩
  refine ⟨?_, ?_, ?_, ?_, ?_, ?_, ?_, ?_, ?_, ?_, ?_, ?_, ?_, ?_, ?_, ?_, ?_⟩
  · intro e hset hp
    refine LoadFromEnv_fails_of lib getenv (fun cfg hok => ?_)
    have hf := LoadFromEnv_ok lib getenv cfg hok
    have hparse := hf.2.2.2.2.2.2.2.2.2.2.2.2.2.2.2.1 hset
    rw [hp] at hparse
    cases hparse
  · intro e hset hp
    refine LoadFromEnv_fails_of lib getenv (fun cfg hok => ?_)
    have hf := LoadFromEnv_ok lib getenv cfg hok
    have hparse := hf.2.2.2.2.2.2.2.2.2.2.2.2.2.2.2.2.1 hset
    rw [hp] at hparse
    cases hparse
  · intro e hset hp
    refine LoadFromEnv_fails_of lib getenv (fun cfg hok => ?_)
    have hf := LoadFromEnv_ok lib getenv cfg hok
    have hparse := hf.2.2.2.2.2.2.2.2.2.2.2.2.2.2.2.2.2.1 hset
    rw [hp] at hparse
    cases hparse
  · intro e hset hp
    refine LoadFromEnv_fails_of lib getenv (fun cfg hok => ?_)
    have hf := LoadFromEnv_ok lib getenv cfg hok
    have hparse := hf.2.2.2.2.2.2.2.2.2.2.2.2.2.2.2.2.2.2.1 hset
    rw [hp] at hparse
    cases hparse
  · intro e hset hp
    refine LoadFromEnv_fails_of lib getenv (fun cfg hok => ?_)
    have hf := LoadFromEnv_ok lib getenv cfg hok
    have hparse := hf.2.2.2.2.2.2.2.2.2.2.2.2.2.2.2.2.2.2.2.1 hset
    rw [hp] at hparse
    cases hparse
  · intro e hset hp
    refine LoadFromEnv_fails_of lib getenv (fun cfg hok => ?_)
    have hf := LoadFromEnv_ok lib getenv cfg hok
    have hparse := hf.2.2.2.2.2.2.2.2.2.2.2.2.2.2.2.2.2.2.2.2.1 hset
    rw [hp] at hparse
    cases hparse
  · intro e hset hp
    refine LoadFromEnv_fails_of lib getenv (fun cfg hok => ?_)
    have hf := LoadFromEnv_ok lib getenv cfg hok
    have hparse := hf.2.2.2.2.2.2.2.2.2.2.2.2.2.2.2.2.2.2.2.2.2.1 hset
    rw [hp] at hparse
    cases hparse
  · intro p hset hp hrange
    refine LoadFromEnv_fails_of lib getenv (fun cfg hok => ?_)
    have hf := LoadFromEnv_ok lib getenv cfg hok
    have hparse := hf.2.2.2.2.2.2.2.2.2.2.2.2.2.2.2.1 hset
    rw [hp] at hparse
    cases hparse
    obtain ⟨hport, _, hrt, hit, hlt, hmb, hmf, _, hlr⟩ := (Validate_none_iff _).1 hf.1
    rcases hrange with h1 | h1
    · exact absurd hport.1 (Int.not_le.2 h1)
    · exact absurd hport.2 (Int.not_le.2 h1)
  · intro p hset hp hrange
    refine LoadFromEnv_fails_of lib getenv (fun cfg hok => ?_)
    have hf := LoadFromEnv_ok lib getenv cfg hok
    have hparse := hf.2.2.2.2.2.2.2.2.2.2.2.2.2.2.2.2.1 hset
    rw [hp] at hparse
    cases hparse
    obtain ⟨hport, _, hrt, hit, hlt, hmb, hmf, _, hlr⟩ := (Validate_none_iff _).1 hf.1
    exact absurd hrt (Int.not_le.2 hrange)
  · intro p hset hp hrange
    refine LoadFromEnv_fails_of lib getenv (fun cfg hok => ?_)
    have hf := LoadFromEnv_ok lib getenv cfg hok
    have hparse := hf.2.2.2.2.2.2.2.2.2.2.2.2.2.2.2.2.2.1 hset
    rw [hp] at hparse
    cases hparse
    obtain ⟨hport, _, hrt, hit, hlt, hmb, hmf, _, hlr⟩ := (Validate_none_iff _).1 hf.1
    exact absurd hit (Int.not_le.2 hrange)
  · intro p hset hp hrange
    refine LoadFromEnv_fails_of lib getenv (fun cfg hok => ?_)
    have hf := LoadFromEnv_ok lib getenv cfg hok
    have hparse := hf.2.2.2.2.2.2.2.2.2.2.2.2.2.2.2.2.2.2.1 hset
    rw [hp] at hparse
    cases hparse
    obtain ⟨hport, _, hrt, hit, hlt, hmb, hmf, _, hlr⟩ := (Validate_none_iff _).1 hf.1
    exact absurd hmb (Int.not_le.2 hrange)
  · intro p hset hp hrange
    refine LoadFromEnv_fails_of lib getenv (fun cfg hok => ?_)
    have hf := LoadFromEnv_ok lib getenv cfg hok
    have hparse := hf.2.2.2.2.2.2.2.2.2.2.2.2.2.2.2.2.2.2.2.1 hset
    rw [hp] at hparse
    cases hparse
    obtain ⟨hport, _, hrt, hit, hlt, hmb, hmf, _, hlr⟩ := (Validate_none_iff _).1 hf.1
    exact absurd hmf (Int.not_le.2 hrange)
  · intro p hset hp hrange
    refine LoadFromEnv_fails_of lib getenv (fun cfg hok => ?_)
    have hf := LoadFromEnv_ok lib getenv cfg hok
    have hparse := hf.2.2.2.2.2.2.2.2.2.2.2.2.2.2.2.2.2.2.2.2.1 hset
    rw [hp] at hparse
    cases hparse
    obtain ⟨hport, _, hrt, hit, hlt, hmb, hmf, _, hlr⟩ := (Validate_none_iff _).1 hf.1
    exact absurd hlt (Int.not_le.2 hrange)
  · intro p hset hp hrange
    refine LoadFromEnv_fails_of lib getenv (fun cfg hok => ?_)
    have hf := LoadFromEnv_ok lib getenv cfg hok
    have hparse := hf.2.2.2.2.2.2.2.2.2.2.2.2.2.2.2.2.2.2.2.2.2.1 hset
    rw [hp] at hparse
    cases hparse
    obtain ⟨hport, _, hrt, hit, hlt, hmb, hmf, _, hlr⟩ := (Validate_none_iff _).1 hf.1
    exact absurd hlr (Int.not_le.2 hrange)
  · intro hset hbad
    refine LoadFromEnv_fails_of lib getenv (fun cfg hok => ?_)
    have hf := LoadFromEnv_ok lib getenv cfg hok
    have hlevel := hf.2.2.2.2.2.2.2.2.2.2.2.2.2.2.2.2.2.2.2.2.2.2.2 hset
    obtain ⟨_, _, _, _, _, _, _, hlv, _⟩ := (Validate_none_iff _).1 hf.1
    rw [hlevel] at hlv
    exact hbad hlv
  · intro hzero
    refine LoadFromEnv_fails_of lib getenv (fun cfg hok => ?_)
    have hf := LoadFromEnv_ok lib getenv cfg hok
    have hparse := hf.2.2.2.2.2.2.2.2.2.2.2.2.2.2.2.1 (by rw [hzero]; decide)
    rw [hzero, Atoi_zero] at hparse
    have hzeroPort : cfg.ServerPort = 0 := by
      injection hparse with h0
      exact h0.symm
    obtain ⟨hport, _⟩ := (Validate_none_iff _).1 hf.1
    rw [hzeroPort] at hport
    exact absurd hport.1 (by decide)
  · intro habc
    refine LoadFromEnv_fails_of lib getenv (fun cfg hok => ?_)
    have hf := LoadFromEnv_ok lib getenv cfg hok
    have hparse := hf.2.2.2.2.2.2.2.2.2.2.2.2.2.2.2.1 (by rw [habc]; decide)
    rw [habc, Atoi_abc] at hparse
    cases hparse

theorem LoadFromEnv_contract_witness :
    LoadFromEnv sampleStdlib noEnv = .ok NewDefaultConfig ∧
      ∃ err, LoadFromEnv sampleStdlib (onlyEnv "SERVER_PORT" "0") = .error err :=
  ⟨(LoadFromEnv_contract sampleStdlib noEnv).2.1 (fun _ => rfl),
    (LoadFromEnv_contract sampleStdlib (onlyEnv "SERVER_PORT" "0")).2.2.2.2.2.2.2.2.2.2.2.2.2.2.2.2.2.1
      (by rfl)⟩

/-- `ENABLE_METRICS` goes through no parser: a value other than `true` and `1`, such as
`maybe`, is read as false and `LoadFromEnv` succeeds. -/
theorem LoadFromEnv_unrecognised_ENABLE_METRICS :
    LoadFromEnv sampleStdlib (onlyEnv "ENABLE_METRICS" "maybe") = .ok NewDefaultConfig := by
  rfl

/-! ## The naive planner -/

/-- C34: for every task, `CreatePlan` of the naive planner does not fail and returns a
plan whose TaskID is the ID of the task, whose Goal is its NormalizedIntent, and whose
steps are exactly two, a THINK step then a TOOL_CALL step, each PENDING, of LOW risk, with
RequiresApproval false, RetryCount 0 and ToolInput the Input of the task; so on each step
RequiresApproval is true exactly when the risk is HIGH. -/
theorem CreatePlan_naive (uuid : Nat → String) (task : Task) (tools : List ToolMetadata) :
    ∃ plan s1 s2, CreatePlan uuid task tools = .ok plan ∧
      plan.TaskID = task.ID ∧ plan.Goal = task.NormalizedIntent ∧
      plan.Steps = [s1, s2] ∧ plan.Steps.length = 2 ∧
      s1.Type_ = StepTypeThink ∧ s2.Type_ = StepTypeToolCall ∧
      (∀ s, s ∈ plan.Steps →
        s.Status = StepStatusPending ∧ s.RiskLevel = RiskLevelLow ∧
          s.RequiresApproval = false ∧ s.RetryCount = 0 ∧ s.ToolInput = task.Input ∧
          (s.RequiresApproval = true ↔ s.RiskLevel = RiskLevelHigh)) := by
  refine ⟨_, _, _, rfl, rfl, rfl, rfl, rfl, rfl, rfl, ?_⟩
  intro s hs
  have hlow : ¬ RiskLevelLow = RiskLevelHigh := by decide
  simp only [List.mem_cons, List.mem_singleton, List.not_mem_nil, or_false] at hs
  rcases hs with h | h
  · subst h
    exact ⟨rfl, rfl, rfl, rfl, rfl, ⟨fun hreq => Bool.noConfusion hreq, fun hrisk => absurd hrisk hlow⟩⟩
  · subst h
    exact ⟨rfl, rfl, rfl, rfl, rfl, ⟨fun hreq => Bool.noConfusion hreq, fun hrisk => absurd hrisk hlow⟩⟩

/-! ## The HTTP adapter -/

theorem containsChars_append (a substr b : List Char) :
    containsChars (a ++ (substr ++ b)) substr = true := by
  induction a with
  | nil =>
    have hpre : substr.isPrefixOf (substr ++ b) = true :=
      List.isPrefixOf_iff_prefix.2 (List.prefix_append substr b)
    cases hsb : substr ++ b with
    | nil =>
      have hnil : substr = [] := (List.append_eq_nil.1 hsb).1
      subst hnil
      rfl
    | cons c rest =>
      rw [hsb] at hpre
      simp [containsChars, hpre]
  | cons c rest ih =>
    simp only [List.cons_append, containsChars, Bool.or_eq_true]
    exact Or.inr ih

theorem unknown_task_message_contains_not_found (taskID : String) :
    Contains (EngineError.statusGetFailed (.getNotFound taskID)).Error "not found" = true := by
  have hdata : (EngineError.statusGetFailed (.getNotFound taskID)).Error.data =
      "failed to get task status: task ".data ++ ("not found".data ++ (": ".data ++ taskID.data)) := by
    simp [EngineError.Error, RepoError.Error, String.data_append]
  unfold Contains
  rw [hdata]
  exact containsChars_append _ _ _

theorem engineGetTaskStatus_unknown (w : World) (taskID : String) (hid : taskID ≠ "")
    (hmissing : mapGet w.repo.tasks taskID = none) :
    engineGetTaskStatus w taskID =
      .error (EngineError.statusGetFailed (.getNotFound taskID)).Error := by
  simp [engineGetTaskStatus, GetTaskStatus, hid, GetTask_missing w.repo taskID hid hmissing]

/-- C35: in the HTTP adapter, GET /tasks/:id for a non-empty id with no stored task
responds 404 and not 500: the error `GetTaskStatus` returns for an unknown ID, wrapped by
the orchestrator, contains the text `not found` that the handler tests for, whatever the
ID. With any orchestrator, an error whose text contains `not found` maps to 404 and an
error whose text lacks it maps to 500. -/
theorem getTaskStatusHandler_unknown_task (w : World) (taskID : String)
    (hid : taskID ≠ "") (hmissing : mapGet w.repo.tasks taskID = none) :
    (getTaskStatusHandler (engineGetTaskStatus w) taskID).status = 404 ∧
      (getTaskStatusHandler (engineGetTaskStatus w) taskID).status ≠ 500 ∧
      Contains (EngineError.statusGetFailed (.getNotFound taskID)).Error "not found" = true ∧
      (∀ (orchestrator : String → Except String Task) (errMsg : String),
        orchestrator taskID = .error errMsg →
          (Contains errMsg "not found" = true →
            (getTaskStatusHandler orchestrator taskID).status = 404) ∧
          (Contains errMsg "not found" = false →
            (getTaskStatusHandler orchestrator taskID).status = 500)) := by
  have hcontains := unknown_task_message_contains_not_found taskID
  have hstatus : (getTaskStatusHandler (engineGetTaskStatus w) taskID).status = 404 := by
    simp [getTaskStatusHandler, hid, engineGetTaskStatus_unknown w taskID hid hmissing,
      hcontains]
  refine ⟨hstatus, by rw [hstatus]; decide, hcontains, ?_⟩
  intro orchestrator errMsg herr
  constructor
  · intro hc
    simp [getTaskStatusHandler, hid, herr, hc]
  · intro hc
    simp [getTaskStatusHandler, hid, herr, hc]

theorem getTaskStatusHandler_unknown_task_witness :
    (getTaskStatusHandler (engineGetTaskStatus doneWorld) "t2").status = 404 ∧
      (getTaskStatusHandler (engineGetTaskStatus doneWorld) "t2").status ≠ 500 ∧
      Contains (EngineError.statusGetFailed (.getNotFound "t2")).Error "not found" = true ∧
      (∀ (orchestrator : String → Except String Task) (errMsg : String),
        orchestrator "t2" = .error errMsg →
          (Contains errMsg "not found" = true →
            (getTaskStatusHandler orchestrator "t2").status = 404) ∧
          (Contains errMsg "not found" = false →
            (getTaskStatusHandler orchestrator "t2").status = 500)) :=
  getTaskStatusHandler_unknown_task doneWorld "t2" (by decide) (by rfl)

/-! ## Concurrent calls of `HandleApproval` -/

theorem HandleApproval_load_commit (env : Env) (w : World) (taskID stepID : String)
    (approved : Bool) (userID : String) :
    HandleApproval env w taskID stepID approved userID =
      match approvalLoad w taskID stepID userID with
      | .error err => (some err, w)
      | .ok task => approvalCommit env w task taskID stepID approved userID := by
  unfold HandleApproval approvalLoad
  by_cases h1 : taskID = ""
  · simp only [h1, if_true]
  · by_cases h2 : stepID = ""
    · simp only [h1, h2, if_true, if_false]
    · by_cases h3 : userID = ""
      · simp only [h1, h2, h3, if_true, if_false]
      · simp only [h1, h2, h3, if_false]
        cases w.repo.GetTask taskID with
        | error err => rfl
        | ok task => rfl

theorem approvalLoad_stored (w : World) (taskID stepID userID : String) (t : Task)
    (ht : taskID ≠ "") (hs : stepID ≠ "") (hu : userID ≠ "")
    (hget : w.repo.GetTask taskID = .ok t) :
    approvalLoad w taskID stepID userID = .ok t := by
  simp [approvalLoad, ht, hs, hu, hget]

theorem approvalCommit_run (env : Env) (w : World) (taskID stepID : String)
    (approved : Bool) (userID : String) (t : Task)
    (hst : t.Status = TaskStatusWaitingApproval)
    (hstep : t.CurrentStepID = stepID) (hid : t.ID ≠ "") :
    approvalCommit env w t taskID stepID approved userID =
      (none,
        { repo := { tasks := mapSet w.repo.tasks t.ID
                      (decided t approved (env.clock w.clockCalls)) }
          heap := w.heap
          events := w.events ++ [approvalEvent env w taskID stepID approved userID
            (decided t approved (env.clock w.clockCalls)).Status]
          warnings := warningsAfter w.warnings
            (env.auditErr w.events.length (approvalEvent env w taskID stepID approved userID
              (decided t approved (env.clock w.clockCalls)).Status))
            [("task_id", .str taskID), ("step_id", .str stepID)]
          clockCalls := w.clockCalls + 1
          idCalls := w.idCalls + 1 }) := by
  subst hstep
  unfold approvalCommit
  cases approved
  · simp only [hst, clockNow, generate, saveEvent, logWarn,
      TaskRepository.SaveTask, hid, if_false, ne_eq, not_true_eq_false, Bool.false_eq_true]
    cases haud : env.auditErr w.events.length
        (approvalEvent env w taskID t.CurrentStepID false userID TaskStatusCanceled) with
    | none =>
      simp only [approvalEvent] at haud
      simp [haud, decided, approvalEvent, warningsAfter]
    | some msg =>
      simp only [approvalEvent] at haud
      simp [haud, decided, approvalEvent, warningsAfter]
  · simp only [hst, clockNow, generate, saveEvent, logWarn,
      TaskRepository.SaveTask, hid, if_false, ne_eq, not_true_eq_false, if_true]
    cases haud : env.auditErr w.events.length
        (approvalEvent env w taskID t.CurrentStepID true userID TaskStatusExecuting) with
    | none =>
      simp only [approvalEvent] at haud
      simp [haud, decided, approvalEvent, warningsAfter]
    | some msg =>
      simp only [approvalEvent] at haud
      simp [haud, decided, approvalEvent, warningsAfter]

/-- A call that runs its two parts with no other call in between does what
`HandleApproval` does. -/
theorem runConcurrently_one_call (env : Env) (w : World) (call : ApprovalCall) :
    runConcurrently env w [call] [0, 0] =
      ((HandleApproval env w call.taskID call.stepID call.approved call.userID).2,
        [.returned (HandleApproval env w call.taskID call.stepID call.approved call.userID).1]) := by
  rw [HandleApproval_load_commit]
  cases hload : approvalLoad w call.taskID call.stepID call.userID with
  | error err => simp [runConcurrently, runSchedule, stepCall, hload]
  | ok task => simp [runConcurrently, runSchedule, stepCall, hload]

theorem runConcurrently_interleaved (env : Env) (w : World) (taskID stepID : String)
    (a1 a2 : Bool) (u1 u2 : String) (t : Task)
    (ht : taskID ≠ "") (hs : stepID ≠ "") (hu1 : u1 ≠ "") (hu2 : u2 ≠ "")
    (hget : w.repo.GetTask taskID = .ok t) :
    runConcurrently env w [⟨taskID, stepID, a1, u1⟩, ⟨taskID, stepID, a2, u2⟩] [0, 1, 0, 1] =
      ((approvalCommit env (approvalCommit env w t taskID stepID a1 u1).2 t taskID stepID
          a2 u2).2,
        [.returned (approvalCommit env w t taskID stepID a1 u1).1,
         .returned (approvalCommit env (approvalCommit env w t taskID stepID a1 u1).2 t taskID
           stepID a2 u2).1]) := by
  have hl1 := approvalLoad_stored w taskID stepID u1 t ht hs hu1 hget
  have hl2 := approvalLoad_stored w taskID stepID u2 t ht hs hu2 hget
  simp [runConcurrently, runSchedule, stepCall, hl1, hl2]

theorem runConcurrently_serial (env : Env) (w : World) (c1 c2 : ApprovalCall) :
    runConcurrently env w [c1, c2] [0, 0, 1, 1] =
      ((HandleApproval env
          (HandleApproval env w c1.taskID c1.stepID c1.approved c1.userID).2
          c2.taskID c2.stepID c2.approved c2.userID).2,
        [.returned (HandleApproval env w c1.taskID c1.stepID c1.approved c1.userID).1,
         .returned (HandleApproval env
           (HandleApproval env w c1.taskID c1.stepID c1.approved c1.userID).2
           c2.taskID c2.stepID c2.approved c2.userID).1]) := by
  rw [HandleApproval_load_commit env w]
  cases hl1 : approvalLoad w c1.taskID c1.stepID c1.userID with
  | error err =>
    simp only []
    rw [HandleApproval_load_commit env w]
    cases hl2 : approvalLoad w c2.taskID c2.stepID c2.userID with
    | error err2 => simp [runConcurrently, runSchedule, stepCall, hl1, hl2]
    | ok task2 => simp [runConcurrently, runSchedule, stepCall, hl1, hl2]
  | ok task1 =>
    simp only []
    rw [HandleApproval_load_commit env (approvalCommit env w task1 c1.taskID c1.stepID
      c1.approved c1.userID).2]
    cases hl2 : approvalLoad (approvalCommit env w task1 c1.taskID c1.stepID c1.approved
        c1.userID).2 c2.taskID c2.stepID c2.userID with
    | error err2 => simp [runConcurrently, runSchedule, stepCall, hl1, hl2]
    | ok task2 => simp [runConcurrently, runSchedule, stepCall, hl1, hl2]

/-- C9: the load-validate-mutate-persist cycle of `HandleApproval` is not atomic per
task ID, and two concurrent calls for the same task and step can both succeed. For every
task stored in WAITING_APPROVAL at the step, and any two decisions by any two users, the
schedule in which both calls return from `GetTask` before either calls `SaveTask` lets
both calls return nil: each validates its own copy, which still reads WAITING_APPROVAL,
the store ends with the decision written last, and two decision events are emitted. Run
one after the other, the same two calls give one success and one error of kind
FailedPrecondition. -/
theorem HandleApproval_not_atomic (env : Env) (w : World) (taskID stepID : String)
    (a1 a2 : Bool) (u1 u2 : String) (t : Task)
    (hreach : w.repo.Reachable) (hget : w.repo.GetTask taskID = .ok t)
    (hst : t.Status = TaskStatusWaitingApproval) (hstep : t.CurrentStepID = stepID)
    (hs : stepID ≠ "") (hu1 : u1 ≠ "") (hu2 : u2 ≠ "") :
    (∃ w2,
        runConcurrently env w [⟨taskID, stepID, a1, u1⟩, ⟨taskID, stepID, a2, u2⟩]
            [0, 1, 0, 1] = (w2, [.returned none, .returned none]) ∧
          w2.repo.GetTask taskID = .ok (decided t a2 (env.clock (w.clockCalls + 1))) ∧
          w2.events.length = w.events.length + 2) ∧
      successes (runConcurrently env w [⟨taskID, stepID, a1, u1⟩, ⟨taskID, stepID, a2, u2⟩]
        [0, 1, 0, 1]).2 = 2 ∧
      (∃ e,
        (runConcurrently env w [⟨taskID, stepID, a1, u1⟩, ⟨taskID, stepID, a2, u2⟩]
            [0, 0, 1, 1]).2 = [.returned none, .returned (some e)] ∧
          e.kind = .FailedPrecondition) := by
  obtain ⟨hkey, ht⟩ := Reachable_stored_ID w.repo hreach taskID t hget
  have hid : t.ID ≠ "" := by rw [hkey]; exact ht
  have hrun : runConcurrently env w [⟨taskID, stepID, a1, u1⟩, ⟨taskID, stepID, a2, u2⟩]
      [0, 1, 0, 1] =
        ((approvalCommit env (approvalCommit env w t taskID stepID a1 u1).2 t taskID stepID
          a2 u2).2, [.returned none, .returned none]) := by
    rw [runConcurrently_interleaved env w taskID stepID a1 a2 u1 u2 t ht hs hu1 hu2 hget,
      approvalCommit_run env _ taskID stepID a2 u2 t hst hstep hid,
      approvalCommit_run env w taskID stepID a1 u1 t hst hstep hid]
  refine ⟨⟨_, hrun, ?_, ?_⟩, ?_, ?_⟩
  · rw [approvalCommit_run env _ taskID stepID a2 u2 t hst hstep hid,
      approvalCommit_run env w taskID stepID a1 u1 t hst hstep hid, GetTask_ok_iff]
    refine ⟨ht, ?_⟩
    show mapGet (mapSet (mapSet w.repo.tasks t.ID _) t.ID _) taskID = _
    rw [hkey]
    exact mapGet_mapSet_same _ _ _
  · rw [approvalCommit_run env _ taskID stepID a2 u2 t hst hstep hid,
      approvalCommit_run env w taskID stepID a1 u1 t hst hstep hid]
    simp
  · rw [hrun]
    rfl
  · rw [runConcurrently_serial]
    have hfirst := HandleApproval_run env w taskID stepID a1 u1 t ht hs hu1 hget hst hstep hid
    have hstored : (HandleApproval env w taskID stepID a1 u1).2.repo.GetTask taskID =
        .ok (decided t a1 (env.clock w.clockCalls)) := by
      rw [hfirst, GetTask_ok_iff]
      refine ⟨ht, ?_⟩
      show mapGet (mapSet w.repo.tasks t.ID _) taskID = _
      rw [hkey]
      exact mapGet_mapSet_same _ _ _
    obtain ⟨e, hsecond, hfp, _⟩ :=
      HandleApproval_rejected_when_not_waiting env (HandleApproval env w taskID stepID a1 u1).2
        taskID stepID a2 u2 _ hstored (decided_Status_ne_waiting _ _ _)
    refine ⟨e, ?_, hfp ⟨hs, hu2⟩⟩
    show [CallState.returned (HandleApproval env w taskID stepID a1 u1).1,
      CallState.returned (HandleApproval env (HandleApproval env w taskID stepID a1 u1).2
        taskID stepID a2 u2).1] = _
    rw [hsecond, hfirst]

theorem HandleApproval_not_atomic_witness :
    (∃ w2,
        runConcurrently sampleEnv waitingWorld
            [⟨"t1", "s2", true, "user-42"⟩, ⟨"t1", "s2", false, "user-7"⟩]
            [0, 1, 0, 1] = (w2, [.returned none, .returned none]) ∧
          w2.repo.GetTask "t1" =
            .ok (decided waitingTask false (sampleEnv.clock (waitingWorld.clockCalls + 1))) ∧
          w2.events.length = waitingWorld.events.length + 2) ∧
      successes (runConcurrently sampleEnv waitingWorld
        [⟨"t1", "s2", true, "user-42"⟩, ⟨"t1", "s2", false, "user-7"⟩] [0, 1, 0, 1]).2 = 2 ∧
      (∃ e,
        (runConcurrently sampleEnv waitingWorld
            [⟨"t1", "s2", true, "user-42"⟩, ⟨"t1", "s2", false, "user-7"⟩]
            [0, 0, 1, 1]).2 = [.returned none, .returned (some e)] ∧
          e.kind = .FailedPrecondition) :=
  HandleApproval_not_atomic sampleEnv waitingWorld "t1" "s2" true false "user-42" "user-7"
    waitingTask
    (TaskRepository.Reachable.save NewTaskRepository (some waitingTask)
      TaskRepository.Reachable.new)
    (by rfl) (by rfl) (by rfl) (by decide) (by decide) (by decide)

/-! ## `StartTask` over any task repository -/

/-- With the in-memory adapter for the port, `StartTaskOn` is `StartTask`. -/
theorem StartTaskOn_memory (env : Env) (w : PortWorld TaskRepository)
    (input userID : String) :
    StartTask env w.toWorld input userID =
      (match (StartTaskOn memoryPort env w input userID).1 with
        | .ok t => .ok t
        | .error e => .error e.toEngine,
        (StartTaskOn memoryPort env w input userID).2.toWorld) := by
  by_cases hin : input = ""
  · simp [StartTask, StartTaskOn, hin, StartTaskError.toEngine]
  by_cases hu : userID = ""
  · simp [StartTask, StartTaskOn, hin, hu, StartTaskError.toEngine]
  by_cases hid : env.idGen w.idCalls = ""
  · simp [StartTask, StartTaskOn, hin, hu, hid, clockNow, generate, makeMap, memoryPort,
      TaskRepository.SaveTask, PortWorld.toWorld, StartTaskError.toEngine]
  · cases haud : env.auditErr w.events.length
        (taskCreatedEvent env w.toWorld input userID) with
    | none =>
      simp only [taskCreatedEvent, PortWorld.toWorld] at haud
      simp [StartTask, StartTaskOn, hin, hu, hid, clockNow, generate, makeMap, memoryPort,
        TaskRepository.SaveTask, PortWorld.toWorld, saveEvent, logWarn, haud]
    | some msg =>
      simp only [taskCreatedEvent, PortWorld.toWorld] at haud
      simp [StartTask, StartTaskOn, hin, hu, hid, clockNow, generate, makeMap, memoryPort,
        TaskRepository.SaveTask, PortWorld.toWorld, saveEvent, logWarn, haud]

theorem StartTaskOn_save_fails {σ ε : Type} (port : TaskRepositoryPort σ ε) (env : Env)
    (w : PortWorld σ) (input userID : String) (err : ε) (store1 : σ)
    (hin : input ≠ "") (hu : userID ≠ "")
    (hsave : port.SaveTask w.store (some (newTaskOn env w input userID)) = (some err, store1)) :
    StartTaskOn port env w input userID =
      (.error (.saveFailed err),
        { store := store1
          heap := w.heap ++ [[]] ++ [[]]
          events := w.events
          warnings := w.warnings
          clockCalls := w.clockCalls + 1
          idCalls := w.idCalls + 1 }) := by
  simp only [newTaskOn] at hsave
  simp [StartTaskOn, hin, hu, hsave]

/-- C15: for every non-empty input and userID, and every implementation of the
repository port, if `SaveTask` returns an error for the task `StartTask` has built, then
`StartTask` returns an error, which wraps that one, and no task; no audit event is
emitted and nothing is logged for the call, and the repository is as its `SaveTask` left
it. For the in-memory adapter, in particular, the store is then as before the call. -/
theorem StartTask_persistence_failure {σ ε : Type} (port : TaskRepositoryPort σ ε)
    (env : Env) (w : PortWorld σ) (input userID : String) (err : ε) (store1 : σ)
    (hin : input ≠ "") (hu : userID ≠ "")
    (hsave : port.SaveTask w.store (some (newTaskOn env w input userID)) = (some err, store1)) :
    (∃ w1, StartTaskOn port env w input userID = (.error (.saveFailed err), w1) ∧
        w1.events = w.events ∧ w1.warnings = w.warnings ∧ w1.store = store1) ∧
      (∀ (wm : World) (e : RepoError),
        (wm.repo.SaveTask (some (newTask env wm input userID))).1 = some e →
          ∃ w1, StartTask env wm input userID = (.error (.startSaveFailed e), w1) ∧
            w1.events = wm.events ∧ w1.repo = wm.repo) := by
  refine ⟨⟨_, StartTaskOn_save_fails port env w input userID err store1 hin hu hsave,
    rfl, rfl, rfl⟩, ?_⟩
  intro wm e hmem
  exact StartTask_memory_save_failure env wm input userID e hin hu hmem

theorem StartTask_persistence_failure_witness :
    (∃ w1, StartTaskOn unavailablePort emptyIdEnv unavailableWorld "book a flight" "user-42" =
          (.error (.saveFailed "connection refused"), w1) ∧
        w1.events = unavailableWorld.events ∧ w1.warnings = unavailableWorld.warnings ∧
        w1.store = ()) ∧
      (∀ (wm : World) (e : RepoError),
        (wm.repo.SaveTask (some (newTask emptyIdEnv wm "book a flight" "user-42"))).1 =
            some e →
          ∃ w1, StartTask emptyIdEnv wm "book a flight" "user-42" =
              (.error (.startSaveFailed e), w1) ∧
            w1.events = wm.events ∧ w1.repo = wm.repo) :=
  StartTask_persistence_failure unavailablePort emptyIdEnv unavailableWorld "book a flight"
    "user-42" "connection refused" () (by decide) (by decide) rfl

end Jaro
